import Mathlib

/-! rtp: capture-file codec, endpoint resolver and pacing scheduler.

A shallow embedding of `src/rtp.c` and `src/format-dump.c`.

* Machine integers are natural numbers or integers with the wrap-around of
  the C type written out (`% 2 ^ 32` for `uint32_t`, `% 2 ^ 64` for `size_t`).
* A file descriptor that is read is a list of bytes still to be delivered;
  `read(fd, p, n)` delivers the first `min n available` of them.
* A buffer is a list of bytes; writing `k` bytes at offset `off` replaces the
  bytes `off .. off + k - 1`.
* The results of system calls that the program cannot influence
  (`gettimeofday`, `nanosleep`, `getaddrinfo`, `socket`, ...) are parameters.
-/

namespace Rtp

/-! ## Pacing scheduler (`src/rtp.c`, lines 248-314) -/

/-- Number of values of a `uint32_t`. -/
def U32 : Nat := 4294967296

/-- Conversion of a signed value to `uint32_t` (reduction modulo `2 ^ 32`). -/
def toU32 (x : Int) : Nat := (x % 4294967296).toNat

/-- The C `struct timeval`: `time_t tv_sec` and `suseconds_t tv_usec`, both signed. -/
structure Timeval where
  tv_sec : Int
  tv_usec : Int
deriving DecidableEq, Repr

/-- The C `struct timespec` handed to `nanosleep`. -/
structure Timespec where
  tv_sec : Nat
  tv_nsec : Nat
deriving DecidableEq, Repr

/-- Diagnostics that the pacing routines print with `warnx`. -/
inductive SleepWarning where
  | gettimeofdayFailed
  | outOfOrder (last next : Nat)
  | interrupted
deriving DecidableEq, Repr

/-- What a pacing routine did: its return value, the `nanosleep` request it
made (if it made one) and the diagnostics it printed. -/
structure Sleep where
  ret : Int
  nap : Option Timespec
  warns : List SleepWarning
deriving DecidableEq, Repr

/-- `tvdiff` (rtp.c:250-260): the interval from `old` to `new` in microseconds
as a `uint32_t`, or 0 if `new` is older. -/
def tvdiff (old new : Timeval) : Nat :=
  if old.tv_sec > new.tv_sec
      ∨ (old.tv_sec = new.tv_sec ∧ old.tv_usec > new.tv_usec) then 0
  else
    let usec := toU32 ((new.tv_sec - old.tv_sec) * 1000000)
    toU32 ((usec : Int) + (new.tv_usec - old.tv_usec))

/-- `dumpsleep` (rtp.c:265-287). `gettimeofday` is the pair (return value,
current time) and `nanosleep` the return value of the sleep for a request. -/
def dumpsleep (gettimeofday : Int × Timeval) (nanosleep : Timespec → Int)
    (zero : Timeval) (when : Nat) : Sleep :=
  let usec := (when * 1000) % U32
  if gettimeofday.1 = -1 then
    { ret := -1, nap := none, warns := [SleepWarning.gettimeofdayFailed] }
  else
    let diff := tvdiff zero gettimeofday.2
    if diff > usec then
      { ret := 0, nap := none, warns := [] }
    else
      let usec := (usec + U32 - diff) % U32
      let nap : Timespec :=
        { tv_sec := usec / 1000000, tv_nsec := (usec % 1000000) * 1000 }
      if nanosleep nap ≠ 0 then
        { ret := -1, nap := some nap, warns := [SleepWarning.interrupted] }
      else
        { ret := 0, nap := some nap, warns := [] }

/-- `rtpsleep` (rtp.c:292-314). The first component is the value of `*last`
after the call. -/
def rtpsleep (nanosleep : Timespec → Int) (last next : Nat) : Nat × Sleep :=
  if last = 0 then
    (next, { ret := 0, nap := none, warns := [] })
  else if last > next then
    (last, { ret := -1, nap := none, warns := [SleepWarning.outOfOrder last next] })
  else
    let diff := (next + U32 - last) % U32
    let nap : Timespec :=
      { tv_sec := diff / 1000000, tv_nsec := (diff % 1000000) * 1000 }
    if nanosleep nap ≠ 0 then
      (next, { ret := -1, nap := some nap, warns := [SleepWarning.interrupted] })
    else
      (next, { ret := 0, nap := some nap, warns := [] })

/-- The delay in microseconds that a pacing call asked `nanosleep` for
(0 when it did not call `nanosleep`). -/
def requestedUsec (s : Sleep) : Nat :=
  match s.nap with
  | none => 0
  | some t => t.tv_sec * 1000000 + t.tv_nsec / 1000

/-- Whether a pacing call reported packets out of timestamp order. -/
def flaggedOutOfOrder (s : Sleep) : Bool :=
  s.warns.any fun w =>
    match w with
    | SleepWarning.outOfOrder _ _ => true
    | _ => false

/-- The pacing decision for one packet: requested delay in microseconds,
ordering-violation flag, and the timestamp recorded afterwards. -/
structure Pace where
  delay : Nat
  violation : Bool
  recorded : Nat
deriving DecidableEq, Repr

/-- `rtpsleep` fed a sequence of RTP timestamps one at a time, as `dump2net`
does with its local `last`; one pacing decision per timestamp. -/
def rtpsleepRun (nanosleep : Timespec → Int) : Nat → List Nat → List Pace
  | _, [] => []
  | last, ts :: rest =>
    let r := rtpsleep nanosleep last ts
    { delay := requestedUsec r.2, violation := flaggedOutOfOrder r.2, recorded := r.1 }
      :: rtpsleepRun nanosleep r.1 rest

/-- Media-clock pacing as the specification words it: `none` is the state
before the first packet, `some last` the recorded timestamp afterwards. -/
def paceSpec : Option Nat → List Nat → List Pace
  | _, [] => []
  | none, ts :: rest =>
    { delay := 0, violation := false, recorded := ts } :: paceSpec (some ts) rest
  | some last, ts :: rest =>
    if last ≤ ts then
      { delay := ts - last, violation := false, recorded := ts } :: paceSpec (some ts) rest
    else
      { delay := 0, violation := true, recorded := last } :: paceSpec (some last) rest

/-- A time value in microseconds. -/
def Timeval.micros (t : Timeval) : Int := t.tv_sec * 1000000 + t.tv_usec

/-- Wall-clock pacing as the specification words it: the time remaining until
`zero + when` milliseconds, or nothing when that instant has passed. -/
def dueSpec (zero now : Timeval) (when : Nat) : Int :=
  max 0 (zero.micros + (when : Int) * 1000 - now.micros)

/-! ## Capture-file codec (`src/format-dump.c`) -/

/-- Number of values of a `size_t` (64-bit). -/
def SIZE : Nat := 18446744073709551616

/-- Modelled from the spec: `DUMPLINE` of the absent `format-dump.h`, the
literal prefix `#!rtpplay1.0 ` of the text line of a capture file, as bytes. -/
def DUMPLINE : List Nat := [35, 33, 114, 116, 112, 112, 108, 97, 121, 49, 46, 48, 32]

/-- Modelled from the spec: `DUMPLINELEN` of the absent `format-dump.h`, the
length of the literal prefix. -/
def DUMPLINELEN : Nat := 13

/-- Modelled from the spec: `DPKTHDRSIZE` of the absent `format-dump.h`, the
size of the packet header `struct dpkthdr`: record length (u16) at offset 0,
payload length (u16) at offset 2, timestamp (u32) at offset 4. -/
def DPKTHDRSIZE : Nat := 8

/-- Diagnostics that the codec prints with `warnx`. -/
inductive CodecWarning where
  | invalidDumpLine
  | invalidDumpFileHeader
  | bufferFull
  | errorReadingPacketHeader
  | brokenDumpHeader
deriving DecidableEq, Repr

/-- A line that `print_dpkthdr` (format-dump.c:78-91) prints on the standard
output: the timestamp and, for a payload length other than 0, the payload
length and the number of bytes `dlen - DPKTHDRSIZE`; for the payload length 0
the timestamp and the word `RTCP`. -/
inductive PacketLine where
  | rtp (usec plen captured : Nat)
  | rtcp (usec : Nat)
deriving DecidableEq, Repr

/-- The state after a codec routine: its return value, the caller's buffer,
the bytes the descriptor has still to deliver, the diagnostics printed with
`warnx`, and the lines printed on the standard output. -/
structure Io where
  ret : Int
  buf : List Nat
  fd : List Nat
  warns : List CodecWarning
  printed : List PacketLine := []
deriving DecidableEq, Repr

/-- `read(fd, p, n)`: the return value, the bytes delivered and the bytes the
descriptor has still to deliver. A read delivers `min n available` bytes. -/
def read (fd : List Nat) (n : Nat) : Int × List Nat × List Nat :=
  ((fd.take n).length, fd.take n, fd.drop n)

/-- The buffer after `bytes` are written at offset `off`. -/
def store (buf : List Nat) (off : Nat) (bytes : List Nat) : List Nat :=
  buf.take off ++ bytes ++ buf.drop (off + bytes.length)

/-- The `uint16_t` that two bytes in memory hold on the host (`le` says the
host is little-endian). -/
def val16 (le : Bool) (b0 b1 : Nat) : Nat :=
  if le then b0 + 256 * b1 else b0 * 256 + b1

/-- The `uint32_t` that four bytes in memory hold on the host. -/
def val32 (le : Bool) (b0 b1 b2 b3 : Nat) : Nat :=
  if le then b0 + 256 * b1 + 65536 * b2 + 16777216 * b3
  else b0 * 16777216 + b1 * 65536 + b2 * 256 + b3

/-- The two bytes with which the host holds a `uint16_t` in memory. -/
def bytes16 (le : Bool) (v : Nat) : List Nat :=
  if le then [v % 256, v / 256 % 256] else [v / 256 % 256, v % 256]

/-- The four bytes with which the host holds a `uint32_t` in memory. -/
def bytes32 (le : Bool) (v : Nat) : List Nat :=
  if le then [v % 256, v / 256 % 256, v / 65536 % 256, v / 16777216 % 256]
  else [v / 16777216 % 256, v / 65536 % 256, v / 256 % 256, v % 256]

/-- A `uint16_t` loaded from offset `off` of a buffer. -/
def ld16 (le : Bool) (buf : List Nat) (off : Nat) : Nat :=
  val16 le (buf.getD off 0) (buf.getD (off + 1) 0)

/-- A `uint32_t` loaded from offset `off` of a buffer. -/
def ld32 (le : Bool) (buf : List Nat) (off : Nat) : Nat :=
  val32 le (buf.getD off 0) (buf.getD (off + 1) 0) (buf.getD (off + 2) 0)
    (buf.getD (off + 3) 0)

/-- A `uint16_t` stored at offset `off` of a buffer. -/
def st16 (le : Bool) (buf : List Nat) (off : Nat) (v : Nat) : List Nat :=
  store buf off (bytes16 le v)

/-- A `uint32_t` stored at offset `off` of a buffer. -/
def st32 (le : Bool) (buf : List Nat) (off : Nat) (v : Nat) : List Nat :=
  store buf off (bytes32 le v)

/-- `ntohs`: the identity on a big-endian host, a byte swap on a little-endian one. -/
def ntohs (le : Bool) (v : Nat) : Nat :=
  if le then (v % 256) * 256 + v / 256 % 256 else v

/-- `ntohl`: the identity on a big-endian host, a byte swap on a little-endian one. -/
def ntohl (le : Bool) (v : Nat) : Nat :=
  if le then
    (v % 256) * 16777216 + (v / 256 % 256) * 65536 + (v / 65536 % 256) * 256
      + v / 16777216 % 256
  else v

/-- `strncmp`: compares at most `n` bytes and stops after a NUL; the end of a
list reads as NUL. -/
def strncmp : List Nat → List Nat → Nat → Int
  | _, _, 0 => 0
  | a, b, n + 1 =>
    if a.headD 0 ≠ b.headD 0 then (a.headD 0 : Int) - (b.headD 0 : Int)
    else if a.headD 0 = 0 then 0
    else strncmp a.tail b.tail n

/-- The loop of `read_dumpline` (format-dump.c:40-44): one byte is read into
`p` per round until a newline was read or `read` delivers nothing. Yields the
count `r`, the last value of `p` and the bytes still to be delivered. -/
def dumplineLoop : Nat → Nat → List Nat → Nat × Nat × List Nat
  | r, p, [] => (r, p, [])
  | r, _, b :: rest => if b = 10 then (r + 1, b, rest) else dumplineLoop (r + 1) b rest

/-- `read_dumpline` (format-dump.c:28-50). `p0` is the value the local `p`
holds before anything is read into it (the source does not initialise it). -/
def read_dumpline (p0 : Nat) (fd buf : List Nat) : Io :=
  let rd := read fd DUMPLINELEN
  let buf1 := store buf 0 rd.2.1
  if rd.1 ≠ DUMPLINELEN
      ∨ strncmp buf1 DUMPLINE DUMPLINELEN ≠ 0
      ∨ strncmp (buf1.drop 9) [49, 46, 48] 3 ≠ 0 then
    { ret := -1, buf := buf1, fd := rd.2.2, warns := [CodecWarning.invalidDumpLine] }
  else
    let lp := dumplineLoop DUMPLINELEN p0 rd.2.2
    if lp.2.1 ≠ 10 then
      { ret := -1, buf := buf1, fd := lp.2.2, warns := [CodecWarning.invalidDumpFileHeader] }
    else
      { ret := lp.1, buf := buf1, fd := lp.2.2, warns := [] }

/-- `read_dpkthdr` (format-dump.c:93-113). -/
def read_dpkthdr (le : Bool) (fd buf : List Nat) (len : Nat) : Io :=
  if len < DPKTHDRSIZE then
    { ret := -1, buf := buf, fd := fd, warns := [CodecWarning.bufferFull] }
  else
    let rd := read fd DPKTHDRSIZE
    let buf1 := store buf 0 rd.2.1
    if rd.1 = 0 then
      { ret := 0, buf := buf1, fd := rd.2.2, warns := [] }
    else if rd.1 ≠ DPKTHDRSIZE then
      { ret := -1, buf := buf1, fd := rd.2.2,
        warns := [CodecWarning.errorReadingPacketHeader] }
    else
      let buf2 := st16 le buf1 0 (ntohs le (ld16 le buf1 0))
      let buf3 := st16 le buf2 2 (ntohs le (ld16 le buf2 2))
      let buf4 := st32 le buf3 4 (ntohl le (ld32 le buf3 4))
      { ret := rd.1, buf := buf4, fd := rd.2.2, warns := [] }

/-- The line of a packet header with the record length `dlen`, the payload
length `plen` and the timestamp `usec`; the subtraction `dlen - DPKTHDRSIZE`
is made in `size_t`. -/
def headerLine (dlen plen usec : Nat) : PacketLine :=
  if plen ≠ 0 then PacketLine.rtp usec plen ((dlen + SIZE - DPKTHDRSIZE) % SIZE)
  else PacketLine.rtcp usec

/-- `print_dpkthdr` (format-dump.c:78-91) for the packet header at the start
of the buffer: the line it prints on the standard output. -/
def print_dpkthdr (le : Bool) (buf : List Nat) : PacketLine :=
  headerLine (ld16 le buf 0) (ld16 le buf 2) (ld32 le buf 4)

/-- `read_dump` (format-dump.c:117-135). The subtraction
`dpkthdr->dlen - DPKTHDRSIZE` is made in `size_t`, as is `len -= r`. Whenever
the second `read` is reached, the packet header that the buffer holds is
printed on the standard output (line 133), at the end of the stream too. -/
def read_dump (le : Bool) (fd buf : List Nat) (len : Nat) : Io :=
  let h := read_dpkthdr le fd buf len
  if h.ret = -1 then
    { ret := -1, buf := h.buf, fd := h.fd, warns := h.warns }
  else
    let s : Int := 0 + h.ret
    let len1 := (((len : Int) - h.ret) % (SIZE : Int)).toNat
    let want := (ld16 le h.buf 0 + SIZE - DPKTHDRSIZE) % SIZE
    if len1 < want then
      { ret := -1, buf := h.buf, fd := h.fd, warns := h.warns ++ [CodecWarning.bufferFull] }
    else
      let rd := read h.fd want
      if rd.1 = -1 then
        { ret := -1, buf := h.buf, fd := rd.2.2, warns := h.warns }
      else
        { ret := s + rd.1, buf := store h.buf s.toNat rd.2.1, fd := rd.2.2, warns := h.warns,
          printed := [print_dpkthdr le (store h.buf s.toNat rd.2.1)] }

/-- The value of two bytes in network (big-endian) order. -/
def be16 (b0 b1 : Nat) : Nat := b0 * 256 + b1

/-- The value of four bytes in network (big-endian) order. -/
def be32 (b0 b1 b2 b3 : Nat) : Nat := b0 * 16777216 + b1 * 65536 + b2 * 256 + b3

/-! ## Endpoint resolver (`src/rtp.c`, lines 43-246)

C strings are lists of characters without the terminating NUL. -/

/-- The enumeration `format_t` (rtp.c:43-49). -/
inductive format_t where
  | FORMAT_DUMP
  | FORMAT_NET
  | FORMAT_RAW
  | FORMAT_TXT
  | FORMAT_NONE
deriving DecidableEq, Repr

/-- The record `struct format` (rtp.c:51-55); `none` is a NULL string. -/
structure format where
  type : format_t
  name : Option (List Char)
  suff : Option (List Char)
deriving DecidableEq, Repr

/-- The table `formats` (rtp.c:55-61). -/
def formats : List format :=
  [ { type := format_t.FORMAT_DUMP, name := some ['d', 'u', 'm', 'p'],
      suff := some ['r', 't', 'p'] },
    { type := format_t.FORMAT_NET, name := some ['n', 'e', 't'], suff := none },
    { type := format_t.FORMAT_RAW, name := some ['r', 'a', 'w'],
      suff := some ['r', 'a', 'w'] },
    { type := format_t.FORMAT_TXT, name := some ['t', 'x', 't'],
      suff := some ['t', 'x', 't'] },
    { type := format_t.FORMAT_NONE, name := none, suff := none } ]

/-- `strcmp` of the C library on NUL-free strings: 0 for equal strings, else
the difference of the first two characters that differ (the end of a string
reads as NUL). -/
def strcmp : List Char → List Char → Int
  | [], [] => 0
  | [], b :: _ => 0 - (b.toNat : Int)
  | a :: _, [] => (a.toNat : Int)
  | a :: as, b :: bs => if a ≠ b then (a.toNat : Int) - (b.toNat : Int) else strcmp as bs

/-- `strchr` of the C library: the part of the string that starts at the first
occurrence of `c`, or `none` (NULL). -/
def strchr : List Char → Char → Option (List Char)
  | [], _ => none
  | x :: xs, c => if x = c then some (x :: xs) else strchr xs c

/-- `strrchr` of the C library: the part of the string that starts at the last
occurrence of `c`, or `none` (NULL). -/
def strrchr : List Char → Char → Option (List Char)
  | [], _ => none
  | x :: xs, c =>
    match strrchr xs c with
    | some r => some r
    | none => if x = c then some (x :: xs) else none

/-- The loop of `fmtbyname` (rtp.c:82-85) from a position in the table. -/
def fmtbynameFrom (name : List Char) : List format → format_t
  | [] => format_t.FORMAT_NONE
  | fmt :: rest =>
    match fmt.name with
    | none => format_t.FORMAT_NONE
    | some n => if strcmp n name = 0 then fmt.type else fmtbynameFrom name rest

/-- `fmtbyname` (rtp.c:78-86). -/
def fmtbyname (name : List Char) : format_t := fmtbynameFrom name formats

/-- The loop of `fmtbysuff` (rtp.c:92-95) from a position in the table. -/
def fmtbysuffFrom (suff : List Char) : List format → format_t
  | [] => format_t.FORMAT_NONE
  | fmt :: rest =>
    match fmt.name with
    | none => format_t.FORMAT_NONE
    | some _ =>
      match fmt.suff with
      | some s => if strcmp s suff = 0 then fmt.type else fmtbysuffFrom suff rest
      | none => fmtbysuffFrom suff rest

/-- `fmtbysuff` (rtp.c:88-96). -/
def fmtbysuff (suff : List Char) : format_t := fmtbysuffFrom suff formats

/-- The file-scope variables of rtp.c that `rtpopen` reads or writes:
`remote`, the interface list `ifaces` (as the list of the interfaces'
addresses), `ifmt` and `ofmt`. -/
structure Globals where
  remote : Int
  ifaces : List Nat
  ifmt : format_t
  ofmt : format_t
deriving DecidableEq, Repr

/-- The loop of `islocal` (rtp.c:104-108). -/
def islocalFrom (a : Nat) : List Nat → Int
  | [] => 0
  | i :: rest => if a = i then 1 else islocalFrom a rest

/-- `islocal` (rtp.c:98-109) for the address `a`. -/
def islocal (g : Globals) (a : Nat) : Int :=
  if g.remote ≠ 0 then 0 else islocalFrom a g.ifaces

/-- `isspace` of the C library in the C locale. -/
def isspace (c : Char) : Bool :=
  c.toNat = 32 || (9 ≤ c.toNat && c.toNat ≤ 13)

/-- `isdigit` of the C library. -/
def isdigit (c : Char) : Bool := 48 ≤ c.toNat && c.toNat ≤ 57

/-- The value of a string of decimal digits. -/
def digitsValue (ds : List Char) : Nat :=
  ds.foldl (fun acc c => acc * 10 + (c.toNat - 48)) 0

/-- A string without its leading sign character, if it has one. -/
def signBody (t : List Char) : List Char :=
  if t.head? = some '-' ∨ t.head? = some '+' then t.tail else t

/-- `strtoll(s, &ep, 10)` of the C library, as documented: white space is
skipped, a sign is optional, then the longest run of digits is converted.
Yields the value and the number of characters consumed (`ep - s`), which is 0
when there is no digit. The value is not clamped to `long long`; `strtonum`
below is called with bounds for which the clamping makes no difference. -/
def strtoll10 (s : List Char) : Int × Nat :=
  let t := s.dropWhile isspace
  let u := signBody t
  let ds := u.takeWhile isdigit
  if ds = [] then (0, 0)
  else ((if t.head? = some '-' then - (digitsValue ds : Int) else (digitsValue ds : Int)),
        s.length - (u.length - ds.length))

/-- The error that `strtonum` reports through `errstrp`. -/
inductive NumError where
  | invalid
  | tooSmall
  | tooLarge
deriving DecidableEq, Repr

/-- `strtonum(numstr, minval, maxval, &er)` of the OpenBSD C library, as
documented in strtonum(3): the number, or 0 and an error when the string is
not a number (nothing converted, or characters left over), or the number is
out of bounds. -/
def strtonum (numstr : List Char) (minval maxval : Int) : Int × Option NumError :=
  if minval > maxval then (0, some NumError.invalid)
  else
    let r := strtoll10 numstr
    if r.2 = 0 ∨ numstr.drop r.2 ≠ [] then (0, some NumError.invalid)
    else if r.1 < minval then (0, some NumError.tooSmall)
    else if r.1 > maxval then (0, some NumError.tooLarge)
    else (r.1, none)

/-- The value of `O_CREAT` in `<fcntl.h>` (Linux). -/
def O_CREAT : Nat := 64

/-- The value of `O_RDONLY` in `<fcntl.h>`. -/
def O_RDONLY : Nat := 0

/-- The value of `O_WRONLY` in `<fcntl.h>`. -/
def O_WRONLY : Nat := 1

/-- The value of `O_TRUNC` in `<fcntl.h>` (Linux). -/
def O_TRUNC : Nat := 512

/-- The value of `UINT16_MAX`. -/
def UINT16_MAX : Int := 65535

/-- The descriptor of standard input. -/
def STDIN_FILENO : Int := 0

/-- The descriptor of standard output. -/
def STDOUT_FILENO : Int := 1

/-- The results of the system calls that `rtpopen` makes. `getaddrinfo` gives
its return value and the address of the first result (`none` for a NULL
result list); `recvfromFailures` is the number of times `recvfrom` returns
something other than 1 before it returns 1. -/
structure Sys where
  getaddrinfo : Option (List Char) → List Char → Int × Option Nat
  socket : Int
  setsockopt : Int
  bind : Int
  recvfromFailures : Nat
  connect : Int
  send : Int
  openFile : List Char → Nat → Int

/-- The diagnostics of `rtpopen`. -/
inductive OpenWarning where
  | portNumber (er : Option NumError)
  | gaiError (e : Int)
  | getaddrinfoNull
  | socketFailed
  | reuseaddr
  | bindFailed
  | connectOutput
  | connectRemote
  | sendFailed
  | onlyNetOutput
  | onlyNetInput
  | openFailed
deriving DecidableEq, Repr

/-- What `rtpopen` does that is visible outside: the system calls it makes and
the diagnostics it prints, in order. -/
inductive Event where
  | warn (w : OpenWarning)
  | getaddrinfo (node : Option (List Char)) (service : List Char)
  | socket
  | setsockopt (fd : Int)
  | bind (fd : Int) (port : Int)
  | recvfrom (fd : Int)
  | connect (fd : Int)
  | send (fd : Int)
  | freeaddrinfo
  | close (fd : Int)
  | openFile (path : List Char) (flags : Nat)
deriving DecidableEq, Repr

/-- The state after `rtpopen`: its return value, the two formats and the
system calls made. `doubleFree` says that the call has handed the result list
of `getaddrinfo` to `freeaddrinfo` a second time, which is undefined behaviour
(the C library may abort the process); `ret` is then the value that is
returned in case the process goes on. -/
structure Opened where
  ret : Int
  ifmt : format_t
  ofmt : format_t
  trace : List Event
  doubleFree : Bool := false
deriving DecidableEq, Repr

/-- The label `bad` of `rtpopen` (rtp.c:241-245): the result list is freed if
`res` is not NULL, `fd` is closed, and -1 is returned. -/
def rtpopenBad (g : Globals) (res : Bool) (fd : Int) (trace : List Event) : Opened :=
  { ret := -1, ifmt := g.ifmt, ofmt := g.ofmt,
    trace := trace ++ (if res then [Event.freeaddrinfo] else []) ++ [Event.close fd] }

/-- Lines 168-207 of `rtpopen`: the socket `fd` is bound or connected,
according to whether the address `a` is local. Yields whether the steps
succeeded (`false` is `goto bad`) and the events. -/
def rtpopenConnect (sys : Sys) (g : Globals) (a : Nat) (port : Int) (flags : Nat)
    (fd : Int) : Bool × List Event :=
  if islocal g a ≠ 0 then
    if sys.bind = -1 then
      (false, [Event.bind fd port, Event.warn OpenWarning.bindFailed])
    else if flags &&& O_CREAT ≠ 0 then
      let waits := List.replicate (sys.recvfromFailures + 1) (Event.recvfrom fd)
      if sys.connect = -1 then
        (false, Event.bind fd port :: waits
          ++ [Event.connect fd, Event.warn OpenWarning.connectOutput])
      else
        (true, Event.bind fd port :: waits ++ [Event.connect fd])
    else
      (true, [Event.bind fd port])
  else
    if sys.connect = -1 then
      (false, [Event.connect fd, Event.warn OpenWarning.connectRemote])
    else if flags &&& O_CREAT = 0 then
      if sys.send ≠ 1 then
        (false, [Event.connect fd, Event.send fd, Event.warn OpenWarning.sendFailed])
      else
        (true, [Event.connect fd, Event.send fd])
    else
      (true, [Event.connect fd])

/-- Lines 208-223 of `rtpopen`: the result list is freed and the format of the
side that is opened is set to, or checked against, `FORMAT_NET`. On a
conflict the code jumps to `bad` with `res` still pointing to the list that
line 208 has freed, so that `bad` frees it a second time. -/
def rtpopenNetFormat (g : Globals) (flags : Nat) (fd : Int) (trace : List Event) : Opened :=
  let trace := trace ++ [Event.freeaddrinfo]
  if flags &&& O_CREAT ≠ 0 then
    if g.ofmt = format_t.FORMAT_NONE then
      { ret := fd, ifmt := g.ifmt, ofmt := format_t.FORMAT_NET, trace := trace }
    else if g.ofmt ≠ format_t.FORMAT_NET then
      { rtpopenBad g true fd (trace ++ [Event.warn OpenWarning.onlyNetOutput]) with
        doubleFree := true }
    else
      { ret := fd, ifmt := g.ifmt, ofmt := g.ofmt, trace := trace }
  else
    if g.ifmt = format_t.FORMAT_NONE then
      { ret := fd, ifmt := format_t.FORMAT_NET, ofmt := g.ofmt, trace := trace }
    else if g.ifmt ≠ format_t.FORMAT_NET then
      { rtpopenBad g true fd (trace ++ [Event.warn OpenWarning.onlyNetInput]) with
        doubleFree := true }
    else
      { ret := fd, ifmt := g.ifmt, ofmt := g.ofmt, trace := trace }

/-- The `addr:port` branch of `rtpopen` (rtp.c:138-223): `host` is the string
before the first colon, `p` the string after it. -/
def rtpopenNet (sys : Sys) (g : Globals) (host p : List Char) (flags : Nat) : Opened :=
  let port := strtonum p 1 UINT16_MAX
  if port.1 % 4294967296 = 0 then
    { ret := -1, ifmt := g.ifmt, ofmt := g.ofmt,
      trace := [Event.warn (OpenWarning.portNumber port.2)] }
  else
    let node := if host = [] then none else some host
    let gai := sys.getaddrinfo node p
    if gai.1 ≠ 0 then
      { ret := -1, ifmt := g.ifmt, ofmt := g.ofmt,
        trace := [Event.getaddrinfo node p, Event.warn (OpenWarning.gaiError gai.1)] }
    else
      match gai.2 with
      | none =>
        rtpopenBad g false (-1)
          [Event.getaddrinfo node p, Event.warn OpenWarning.getaddrinfoNull]
      | some a =>
        let fd := sys.socket
        if fd = -1 then
          rtpopenBad g true fd
            [Event.getaddrinfo node p, Event.socket, Event.warn OpenWarning.socketFailed]
        else
          let t1 := [Event.getaddrinfo node p, Event.socket, Event.setsockopt fd]
            ++ (if sys.setsockopt = -1 then [Event.warn OpenWarning.reuseaddr] else [])
          let c := rtpopenConnect sys g a (port.1 % 4294967296) flags fd
          if c.1 then rtpopenNetFormat g flags fd (t1 ++ c.2)
          else rtpopenBad g true fd (t1 ++ c.2)

/-- The path branch of `rtpopen` (rtp.c:224-239). -/
def rtpopenPath (sys : Sys) (g : Globals) (path : List Char) (flags : Nat) : Opened :=
  let fd := sys.openFile path flags
  if fd = -1 then
    rtpopenBad g false fd [Event.openFile path flags, Event.warn OpenWarning.openFailed]
  else
    let fmt :=
      match strrchr path '.' with
      | some p => fmtbysuff p.tail
      | none => format_t.FORMAT_NONE
    if flags &&& O_CREAT ≠ 0 ∧ g.ofmt = format_t.FORMAT_NONE then
      { ret := fd, ifmt := g.ifmt,
        ofmt := if fmt ≠ format_t.FORMAT_NONE then fmt else format_t.FORMAT_TXT,
        trace := [Event.openFile path flags] }
    else if g.ifmt = format_t.FORMAT_NONE then
      { ret := fd,
        ifmt := if fmt ≠ format_t.FORMAT_NONE then fmt else format_t.FORMAT_DUMP,
        ofmt := g.ofmt, trace := [Event.openFile path flags] }
    else
      { ret := fd, ifmt := g.ifmt, ofmt := g.ofmt, trace := [Event.openFile path flags] }

/-- `rtpopen` (rtp.c:114-246). -/
def rtpopen (sys : Sys) (g : Globals) (path : List Char) (flags : Nat) : Opened :=
  if strcmp path ['-'] = 0 then
    if flags &&& O_CREAT ≠ 0 then
      { ret := STDOUT_FILENO, ifmt := g.ifmt,
        ofmt := if g.ofmt = format_t.FORMAT_NONE then format_t.FORMAT_TXT else g.ofmt,
        trace := [] }
    else
      { ret := STDIN_FILENO,
        ifmt := if g.ifmt = format_t.FORMAT_NONE then format_t.FORMAT_DUMP else g.ifmt,
        ofmt := g.ofmt, trace := [] }
  else
    match strchr path ':' with
    | some p => rtpopenNet sys g (path.take (path.length - p.length)) p.tail flags
    | none => rtpopenPath sys g path flags

/-- A decimal integer as the specification means it for a port: optional
white space, an optional sign, then one or more decimal digits and nothing
else. Yields the integer, or `none` for any other text. -/
def decimalInteger (text : List Char) : Option Int :=
  let t := text.dropWhile isspace
  let body := signBody t
  if body ≠ [] ∧ body.all isdigit = true then
    some (if t.head? = some '-' then - (digitsValue body : Int) else (digitsValue body : Int))
  else none

/-- The port texts that the specification accepts: decimal integers in
`[1, 65535]`. -/
def isPortText (text : List Char) : Bool :=
  match decimalInteger text with
  | some n => 1 ≤ n && n ≤ 65535
  | none => false

/-- The suffix table as the specification gives it. -/
def suffixTable : List (List Char × format_t) :=
  [ (['r', 't', 'p'], format_t.FORMAT_DUMP),
    (['r', 'a', 'w'], format_t.FORMAT_RAW),
    (['t', 'x', 't'], format_t.FORMAT_TXT) ]

/-- The format the specification infers for a path whose text after the last
dot is `suff` (`none`: the path has no dot), with the fallback of the
direction. -/
def inferredFormat (suff : Option (List Char)) (fallback : format_t) : format_t :=
  match suff with
  | none => fallback
  | some s =>
    match suffixTable.lookup s with
    | some f => f
    | none => fallback

/-! ## Conversion pipelines (`src/rtp.c`, lines 316-565)

The diagnostics and the printing under `verbose` (taken as not set) are left
out; what a converter sends or writes, the pacing calls it makes, the lines
that `read_dump` prints on the standard output and the status it returns are
kept.

`dump2net` and `dump2raw` hand `read_dumpline` the 4 bytes of the local `addr`
for its read of 13 bytes (rtp.c:331, 401), which overruns the locals that the
compiler has placed behind `addr`. Of these effects the model keeps the ones
on the two locals that are initialised before the call and read after it,
`error` and `last`: their values after the call are given by the run
(`error0`, `last0`), and are 0 in a run in which the overrun misses them. An
overrun that reaches `ifd`, `ofd` or the return address is not modelled. -/

/-- The size `BUFLEN` of the packet buffer of a converter (rtp.c:36). -/
def BUFLEN : Nat := 8192

/-- Modelled from the spec: `DUMPHDRSIZE` of the absent `format-dump.h`, the
size of the session header `struct dumphdr`: start seconds (u32) at offset 0,
start microseconds (u32) at 4, source address (u32) at 8, source port (u16) at
12 and two bytes of padding. -/
def DUMPHDRSIZE : Nat := 16

/-- `read_dumphdr` (format-dump.c:63-76). -/
def read_dumphdr (le : Bool) (fd buf : List Nat) : Io :=
  let rd := read fd DUMPHDRSIZE
  let buf1 := store buf 0 rd.2.1
  if rd.1 ≠ DUMPHDRSIZE then
    { ret := -1, buf := buf1, fd := rd.2.2, warns := [CodecWarning.brokenDumpHeader] }
  else
    let buf2 := st32 le buf1 0 (ntohl le (ld32 le buf1 0))
    let buf3 := st32 le buf2 4 (ntohl le (ld32 le buf2 4))
    let buf4 := st32 le buf3 8 (ntohl le (ld32 le buf3 8))
    let buf5 := st16 le buf4 12 (ntohs le (ld16 le buf4 12))
    { ret := DUMPHDRSIZE, buf := buf5, fd := rd.2.2, warns := [] }

/-- Modelled from the spec: `parse_rtphdr` of the absent `format-rtp.c`. Only
version 2 is accepted; the header length is 12 bytes plus 4 bytes for each of
the CSRC identifiers counted in the low four bits of the first byte, plus,
when the extension bit is set, the 4-byte extension preamble behind the CSRC
list and 4 bytes for each of the words it counts. Fails with -1 on another
version or when the bytes at hand are fewer than the header length. -/
def parse_rtphdr (pkt : List Nat) : Int :=
  let b0 := pkt.getD 0 0
  if b0 / 64 ≠ 2 then -1
  else
    let cc := b0 % 16
    let base := 12 + 4 * cc
    let hlen :=
      if b0 / 16 % 2 = 1 then
        base + 4 + 4 * be16 (pkt.getD (base + 2) 0) (pkt.getD (base + 3) 0)
      else base
    if pkt.length < hlen then -1 else (hlen : Int)

/-- The environment of a converter run: the byte order of the host, the flag
`dumptime`, the value the uninitialised `p` of `read_dumpline` holds, the
values `error0` and `last0` that the locals `error` and `last` hold when
`read_dumpline` has returned (0 unless its read overran them), the descriptor
`ofd` of the output, and the results of what the converter calls:
`check_dumphdr` (absent from the source; given the session header and the
dump line), `parse_rtphdr` (absent from the source; given the bytes from the
RTP header on), the `n`-th `gettimeofday`, `nanosleep` for a request, and the
`n`-th `send` or `write` on the output when asked for `count` bytes. -/
structure Conv where
  le : Bool
  dumptime : Int
  p0 : Nat
  error0 : Int
  last0 : Nat
  ofd : Int
  check_dumphdr : List Nat → List Nat → Int
  parse_rtphdr : List Nat → Int
  gettimeofday : Nat → Int × Timeval
  nanosleep : Timespec → Int
  sink : Nat → Nat → Int

/-- One `send` or `write` on the output: the bytes handed over (as far as they
lie in the buffer), the number of bytes asked for and the return value. -/
structure Out where
  data : List Nat
  count : Nat
  ret : Int
deriving DecidableEq, Repr

/-- The locals of a converter loop other than the buffer: `last`, the number
of `gettimeofday` calls made, `error`, and the record of the output and
pacing calls made so far. -/
structure Pipe where
  last : Nat
  clock : Nat
  error : Int
  out : List Out
  paces : List Sleep
deriving DecidableEq, Repr

/-- What a converter returned and did: its status, its output calls, its
pacing calls, the value of `last` at the end, and the lines that `read_dump`
printed on the standard output. -/
structure Done where
  ret : Int
  out : List Out
  paces : List Sleep
  last : Nat
  printed : List PacketLine := []
deriving DecidableEq, Repr

/-- The end of a converter (rtp.c:384, 443, 530, 564), `r` being the last
result of the reading call: `return r == -1 ? -1 : error`. -/
def finish (e : Int × Pipe) : Done :=
  { ret := if e.1 = -1 then -1 else e.2.error, out := e.2.out, paces := e.2.paces,
    last := e.2.last }

/-- The end of a converter that reads a capture file: as `finish`, with the
lines printed on the standard output. -/
def finishDump (e : Int × Pipe × List PacketLine) : Done :=
  { finish (e.1, e.2.1) with printed := e.2.2 }

/-- The `send` or `write` of a converter loop and the test of its result
(rtp.c:374-382, 433-441): `want` is the signed number of bytes to put out. -/
def emit (c : Conv) (st : Pipe) (data : List Nat) (want : Int) : Pipe :=
  let count := (want % (SIZE : Int)).toNat
  let w := c.sink st.out.length count
  let o : Out := { data := data.take count, count := count, ret := w }
  if w = -1 then { st with error := -1, out := st.out ++ [o] }
  else if w < want then { st with error := -1, out := st.out ++ [o] }
  else { st with out := st.out ++ [o] }

/-- The body of the loop of `dump2net` (rtp.c:349-382) on the buffer that
`read_dump` filled. The RTP timestamp is the 32-bit field at offset 4 of the
RTP header. -/
def dump2netBody (c : Conv) (zero : Timeval) (buf : List Nat) (st : Pipe) : Pipe :=
  let plen := ld16 c.le buf 2
  if plen = 0 then st
  else
    let timed : Pipe × Sleep :=
      if c.dumptime ≠ 0 then
        ({ st with clock := st.clock + 1 },
          dumpsleep (c.gettimeofday st.clock) c.nanosleep zero (ld32 c.le buf 4))
      else
        let r := rtpsleep c.nanosleep st.last (ntohl c.le (ld32 c.le buf (DPKTHDRSIZE + 4)))
        ({ st with last := r.1 }, r.2)
    let st1 : Pipe := { timed.1 with paces := st.paces ++ [timed.2] }
    if timed.2.ret = -1 then { st1 with error := -1 }
    else if c.parse_rtphdr (buf.drop DPKTHDRSIZE) = -1 then { st1 with error := -1 }
    else emit c st1 (buf.drop DPKTHDRSIZE) plen

/-- The loop of `dump2net` (rtp.c:348-383) with a bound on the number of
rounds: the last result of `read_dump`, the locals at the end and the lines
printed on the standard output (`pr`: those printed before), or `none` when
the bound is reached. -/
def dump2netLoop (c : Conv) (zero : Timeval) :
    Nat → List Nat → List Nat → Pipe → List PacketLine →
      Option (Int × Pipe × List PacketLine)
  | 0, _, _, _, _ => none
  | fuel + 1, fd, buf, st, pr =>
    let r := read_dump c.le fd buf BUFLEN
    if r.ret > 0 then
      dump2netLoop c zero fuel r.fd r.buf (dump2netBody c zero r.buf st) (pr ++ r.printed)
    else some (r.ret, st, pr ++ r.printed)

/-- `dump2net` (rtp.c:318-385) reading the stream `ifd`, with `buf0` what the
uninitialised buffer holds; `error` and `last` hold `error0` and `last0` once
`read_dumpline` has returned. The loop gets one round more than the stream has
bytes. -/
def dump2net (c : Conv) (ifd buf0 : List Nat) : Option Done :=
  let l := read_dumpline c.p0 ifd []
  if l.ret = -1 then some { ret := -1, out := [], paces := [], last := c.last0 }
  else
    let h := read_dumphdr c.le l.fd []
    if h.ret = -1 then some { ret := -1, out := [], paces := [], last := c.last0 }
    else if c.dumptime ≠ 0 ∧ (c.gettimeofday 0).1 = -1 then
      some { ret := -1, out := [], paces := [], last := c.last0 }
    else
      let st0 : Pipe :=
        { last := c.last0, clock := if c.dumptime ≠ 0 then 1 else 0, error := c.error0,
          out := [], paces := [] }
      (dump2netLoop c (c.gettimeofday 0).2 (h.fd.length + 1) h.fd buf0 st0 []).map
        finishDump

/-- The body of the loop of `dump2raw` (rtp.c:414-441) on the buffer that
`read_dump` filled, `s` being what `read_dump` returned. -/
def dump2rawBody (c : Conv) (buf : List Nat) (s : Int) (st : Pipe) : Pipe :=
  let plen := ld16 c.le buf 2
  if plen = 0 then st
  else
    let hlen := c.parse_rtphdr (buf.drop DPKTHDRSIZE)
    if hlen = -1 then { st with error := -1 }
    else
      emit c st (buf.drop ((DPKTHDRSIZE : Int) + hlen).toNat) (s - ((DPKTHDRSIZE : Int) + hlen))

/-- The loop of `dump2raw` (rtp.c:413-442) with a bound on the number of
rounds. -/
def dump2rawLoop (c : Conv) :
    Nat → List Nat → List Nat → Pipe → List PacketLine →
      Option (Int × Pipe × List PacketLine)
  | 0, _, _, _, _ => none
  | fuel + 1, fd, buf, st, pr =>
    let r := read_dump c.le fd buf BUFLEN
    if r.ret > 0 then
      dump2rawLoop c fuel r.fd r.buf (dump2rawBody c r.buf r.ret st) (pr ++ r.printed)
    else some (r.ret, st, pr ++ r.printed)

/-- `dump2raw` (rtp.c:389-444) reading the stream `ifd`, with `buf0` what the
uninitialised buffer holds; `error` holds `error0` once `read_dumpline` has
returned. It has no local `last`: the `last` of the result is 0. -/
def dump2raw (c : Conv) (ifd buf0 : List Nat) : Option Done :=
  let l := read_dumpline c.p0 ifd []
  if l.ret = -1 then some { ret := -1, out := [], paces := [], last := 0 }
  else
    let h := read_dumphdr c.le l.fd []
    if h.ret = -1 then some { ret := -1, out := [], paces := [], last := 0 }
    else if c.check_dumphdr h.buf l.buf = -1 then
      some { ret := -1, out := [], paces := [], last := 0 }
    else
      let st0 : Pipe :=
        { last := 0, clock := 0, error := c.error0, out := [], paces := [] }
      (dump2rawLoop c (h.fd.length + 1) h.fd buf0 st0 []).map finishDump

/-- The datagrams that a socket delivers, in order, and how the `recv` behind
the last of them ends: with -1 (an error) when `fails`, else with 0. -/
structure NetSource where
  datagrams : List (List Nat)
  fails : Bool
deriving DecidableEq, Repr

/-- The loop of `net2net` (rtp.c:511-529): each round receives one datagram,
cut to `BUFLEN` bytes, into the buffer. Yields the last result of `recv` and
the locals at the end. -/
def net2netLoop (c : Conv) (fails : Bool) : List (List Nat) → List Nat → Pipe → Int × Pipe
  | [], _, st => (if fails then -1 else 0, st)
  | d :: rest, buf, st =>
    let s : Int := (d.take BUFLEN).length
    let buf1 := store buf 0 (d.take BUFLEN)
    if s > 0 then
      if c.parse_rtphdr buf1 = -1 then
        net2netLoop c fails rest buf1 { st with error := -1 }
      else
        net2netLoop c fails rest buf1 (emit c st buf1 s)
    else (s, st)

/-- `net2net` (rtp.c:504-531). -/
def net2net (c : Conv) (src : NetSource) (buf0 : List Nat) : Done :=
  finish (net2netLoop c src.fails src.datagrams buf0
    { last := 0, clock := 0, error := 0, out := [], paces := [] })

/-- The loop of `net2raw` (rtp.c:543-563). -/
def net2rawLoop (c : Conv) (fails : Bool) : List (List Nat) → List Nat → Pipe → Int × Pipe
  | [], _, st => (if fails then -1 else 0, st)
  | d :: rest, buf, st =>
    let s : Int := (d.take BUFLEN).length
    let buf1 := store buf 0 (d.take BUFLEN)
    if s > 0 then
      let hlen := c.parse_rtphdr buf1
      if hlen = -1 then
        net2rawLoop c fails rest buf1 { st with error := -1 }
      else
        net2rawLoop c fails rest buf1 (emit c st (buf1.drop hlen.toNat) (s - hlen))
    else (s, st)

/-- `net2raw` (rtp.c:535-565). -/
def net2raw (c : Conv) (src : NetSource) (buf0 : List Nat) : Done :=
  finish (net2rawLoop c src.fails src.datagrams buf0
    { last := 0, clock := 0, error := 0, out := [], paces := [] })

/-! ## Converter dispatch (`src/rtp.c`, lines 598-605 and 658-674) -/

/-- The converter functions of rtp.c. -/
inductive Converter where
  | dump2net
  | dump2raw
  | dump2txt
  | net2dump
  | net2net
  | net2raw
  | net2txt
  | txt2dump
  | txt2net
  | txt2raw
deriving DecidableEq, Repr

/-- The value of a `format_t` as an array index. -/
def format_t.toNat : format_t → Nat
  | format_t.FORMAT_DUMP => 0
  | format_t.FORMAT_NET => 1
  | format_t.FORMAT_RAW => 2
  | format_t.FORMAT_TXT => 3
  | format_t.FORMAT_NONE => 4

/-- The table `converter` of `main` (rtp.c:599-605); `none` is NULL. -/
def converter : List (List (Option Converter)) :=
  [ [none, some Converter.dump2net, some Converter.dump2raw, some Converter.dump2txt, none],
    [some Converter.net2dump, some Converter.net2net, some Converter.net2raw,
      some Converter.net2txt, none],
    [none, none, none, none, none],
    [some Converter.txt2dump, some Converter.txt2net, some Converter.txt2raw, none, none],
    [none, none, none, none, none] ]

/-- The entry `converter[ifmt][ofmt]`. -/
def converterAt (ifmt ofmt : format_t) : Option Converter :=
  ((converter.getD ifmt.toNat []).getD ofmt.toNat none)

/-- What the end of `main` does with the two formats: it returns a status
without calling a converter, or it calls one. -/
inductive Dispatch where
  | rejected (status : Int)
  | invoke (conv : Converter)
deriving DecidableEq, Repr

/-- The end of `main` (rtp.c:658-674), the endpoints being open. -/
def mainDispatch (ifmt ofmt : format_t) : Dispatch :=
  if ifmt = format_t.FORMAT_NONE then Dispatch.rejected (-1)
  else if ofmt = format_t.FORMAT_NONE then Dispatch.rejected (-1)
  else if ifmt = format_t.FORMAT_RAW then Dispatch.rejected (-1)
  else
    match converterAt ifmt ofmt with
    | none => Dispatch.rejected (-1)
    | some conv => Dispatch.invoke conv

/-! ## Capture files as the specification describes them -/

/-- A packet record of a capture file: the payload length and the timestamp
of its header, and the bytes that follow the header in the file. The record
length of the header is the header size plus the number of those bytes. -/
structure Record where
  plen : Nat
  msec : Nat
  payload : List Nat
deriving DecidableEq, Repr

/-- The record length `total_record_length` of a record. -/
def Record.dlen (r : Record) : Nat := DPKTHDRSIZE + r.payload.length

/-- The bytes of a record in the file: the three header fields in network
order, then the payload. -/
def Record.encode (r : Record) : List Nat :=
  [r.dlen / 256 % 256, r.dlen % 256, r.plen / 256 % 256, r.plen % 256,
    r.msec / 16777216 % 256, r.msec / 65536 % 256, r.msec / 256 % 256, r.msec % 256]
    ++ r.payload

/-- The bytes of a sequence of records. -/
def encodeRecords : List Record → List Nat
  | [] => []
  | r :: rs => r.encode ++ encodeRecords rs

/-- A record that a converter can read whole: its fields fit their widths, its
payload consists of bytes, and the record fits the buffer. -/
def Record.fits (r : Record) : Prop :=
  r.dlen ≤ BUFLEN ∧ r.plen < 65536 ∧ r.msec < 4294967296 ∧ ∀ b ∈ r.payload, b < 256

instance (r : Record) : Decidable r.fits := by
  unfold Record.fits
  infer_instance

/-- The RTP timestamp that the payload of a record holds at offset 4, in
network order. -/
def Record.ts (r : Record) : Nat :=
  be32 (r.payload.getD 4 0) (r.payload.getD 5 0) (r.payload.getD 6 0) (r.payload.getD 7 0)

/-- What `dump2net` does for one record according to the record alone: a
record with payload length 0 is skipped; otherwise the packet is paced, its
RTP header parsed and its first `plen` bytes sent. -/
def netRecord (c : Conv) (zero : Timeval) (st : Pipe) (r : Record) : Pipe :=
  if r.plen = 0 then st
  else
    let timed : Pipe × Sleep :=
      if c.dumptime ≠ 0 then
        ({ st with clock := st.clock + 1 },
          dumpsleep (c.gettimeofday st.clock) c.nanosleep zero r.msec)
      else
        let p := rtpsleep c.nanosleep st.last r.ts
        ({ st with last := p.1 }, p.2)
    let st1 : Pipe := { timed.1 with paces := st.paces ++ [timed.2] }
    if timed.2.ret = -1 then { st1 with error := -1 }
    else if c.parse_rtphdr r.payload = -1 then { st1 with error := -1 }
    else emit c st1 r.payload r.plen

/-- What `dump2raw` does for one record according to the record alone: a
record with payload length 0 is skipped, as is one whose RTP header does not
parse; otherwise the bytes behind the RTP header are written. -/
def rawRecord (c : Conv) (st : Pipe) (r : Record) : Pipe :=
  if r.plen = 0 then st
  else
    let hlen := c.parse_rtphdr r.payload
    if hlen = -1 then { st with error := -1 }
    else emit c st (r.payload.drop hlen.toNat) ((r.payload.length : Int) - hlen)

/-- A record whose handling does not depend on what the buffer holds behind
it: the bytes that are sent and the RTP timestamp lie within the record, and
the result of `parse_rtphdr` is the same whatever follows the record, and not
longer than the record. -/
def Record.selfContained (c : Conv) (r : Record) : Prop :=
  r.plen ≠ 0 →
    r.plen ≤ r.payload.length ∧ 8 ≤ r.payload.length
    ∧ (∀ stale, c.parse_rtphdr (r.payload ++ stale) = c.parse_rtphdr r.payload)
    ∧ c.parse_rtphdr r.payload ≤ r.payload.length
    ∧ -1 ≤ c.parse_rtphdr r.payload

/-- A record whose handling by `dump2net` does not depend on what the buffer
holds behind it: when its payload length is not 0, the bytes that are sent lie
within the record, in media-clock mode the RTP timestamp does so too, and the
result of `parse_rtphdr` is the same whatever follows the record. -/
def Record.netContained (c : Conv) (r : Record) : Prop :=
  r.plen ≠ 0 →
    r.plen ≤ r.payload.length ∧ (c.dumptime = 0 → 8 ≤ r.payload.length)
    ∧ (∀ stale, c.parse_rtphdr (r.payload ++ stale) = c.parse_rtphdr r.payload)

/-- A record whose handling by `dump2raw` does not depend on what the buffer
holds behind it: when its payload length is not 0, the result of
`parse_rtphdr` is the same whatever follows the record, and is -1 or a length
that is not negative and not longer than the record. -/
def Record.rawContained (c : Conv) (r : Record) : Prop :=
  r.plen ≠ 0 →
    (∀ stale, c.parse_rtphdr (r.payload ++ stale) = c.parse_rtphdr r.payload)
    ∧ c.parse_rtphdr r.payload ≤ r.payload.length
    ∧ -1 ≤ c.parse_rtphdr r.payload

/-- The line that `read_dump` prints for a record. -/
def Record.line (r : Record) : PacketLine := headerLine r.dlen r.plen r.msec

/-- The lines that `read_dump` prints while a stream of records is read to
its end: one for each record and, at the end of the stream, once more the one
of the packet header that the buffer holds then, which is `first` when the
stream has no record. -/
def printedLines (first : PacketLine) : List Record → List PacketLine
  | [] => [first]
  | r :: rs => r.line :: printedLines r.line rs

/-- A record as a converter finds it in its buffer after `read_dump`: behind
the payload lie the bytes that the buffer held there before, `area` being
what the buffer held behind the packet header. -/
def Record.seen (r : Record) (area : List Nat) : Record :=
  { r with payload := r.payload ++ area.drop r.payload.length }

/-- What `dump2net` does for one record and what the buffer holds behind the
packet header afterwards, given what it held there before. -/
def netSeen (c : Conv) (zero : Timeval) (s : Pipe × List Nat) (r : Record) :
    Pipe × List Nat :=
  (netRecord c zero s.1 (r.seen s.2), (r.seen s.2).payload)

/-- The bytes that `dump2raw` is to write according to the specification: of
each record with a payload length other than 0 whose RTP header parses, the
bytes of the record behind the RTP header, in the order of the records. -/
def rawSpec (c : Conv) : List Record → List Nat
  | [] => []
  | r :: rs =>
    if r.plen ≠ 0 ∧ c.parse_rtphdr r.payload ≠ -1 then
      r.payload.drop (c.parse_rtphdr r.payload).toNat ++ rawSpec c rs
    else rawSpec c rs

/-- A capture file: the dump line (the literal `DUMPLINE`, the rest of the
line without a newline, the newline), the bytes of the session header, and
the bytes `body` of the packet records. -/
def capture (line hdr body : List Nat) : List Nat :=
  DUMPLINE ++ (line ++ 10 :: (hdr ++ body))

/-- What `check_dumphdr` reports for a capture file: it is given the session
header as `read_dumphdr` left it and the start of the dump line as
`read_dumpline` left it. -/
def headerCheck (c : Conv) (hdr : List Nat) : Int :=
  c.check_dumphdr (read_dumphdr c.le hdr []).buf DUMPLINE

/-- The locals of the loop of `dump2net` before the first round; it has
called `gettimeofday` once by then when `dumptime` is set. -/
def netStart (c : Conv) : Pipe :=
  { last := c.last0, clock := if c.dumptime ≠ 0 then 1 else 0, error := c.error0,
    out := [], paces := [] }

/-- The locals of the loop of `dump2raw` before the first round. -/
def rawStart (c : Conv) : Pipe :=
  { last := 0, clock := 0, error := c.error0, out := [], paces := [] }

/-- What a converter returns and has done when its loop ended with a clean
end of the stream, the lines printed on the standard output left aside. -/
def Pipe.done (st : Pipe) : Done :=
  { ret := st.error, out := st.out, paces := st.paces, last := st.last }

/-- What `dump2net` does for a sequence of records according to the records
alone, the lines printed on the standard output left aside. -/
def netRun (c : Conv) (rs : List Record) : Done :=
  (rs.foldl (netRecord c (c.gettimeofday 0).2) (netStart c)).done

/-- What `dump2raw` does for a sequence of records according to the records
alone, the lines printed on the standard output left aside. -/
def rawRun (c : Conv) (rs : List Record) : Done :=
  (rs.foldl (rawRecord c) (rawStart c)).done

/-- A run in media-clock mode in which every call succeeds, the read of
`read_dumpline` overruns neither `error` nor `last`, and the output is a file
(descriptor 4) that takes all it is given, with `parse_rtphdr` as the
specification describes it. -/
def plainConv (le : Bool) : Conv :=
  { le := le, dumptime := 0, p0 := 0, error0 := 0, last0 := 0, ofd := 4,
    check_dumphdr := fun _ _ => 0,
    parse_rtphdr := parse_rtphdr, gettimeofday := fun _ => (0, ⟨0, 0⟩),
    nanosleep := fun _ => 0, sink := fun _ count => count }

/-- The bytes that the output calls of a run accepted, in order: of each call
the first `ret` bytes handed over. -/
def written (out : List Out) : List Nat :=
  (out.map fun o => o.data.take o.ret.toNat).flatten

/-- The bytes that the output of a run has received, where the run tells:
those that its output calls accepted. When the output is the standard output
and `read_dump` has printed lines on it, these are in the stream as well, at
places that depend on the buffering of `stdio`; the result is then `none`. -/
def Done.received (c : Conv) (d : Done) : Option (List Nat) :=
  if c.ofd = STDOUT_FILENO ∧ d.printed ≠ [] then none else some (written d.out)


/-! ## Sample inputs -/

/-- The 12 bytes of an RTP header of version 2 without padding, extension or
CSRC identifiers: payload type 0, sequence number 1, the timestamp `ts` in
network order, SSRC 1. -/
def rtpHeader (ts : Nat) : List Nat :=
  [128, 0, 0, 1, ts / 16777216 % 256, ts / 65536 % 256, ts / 256 % 256, ts % 256, 0, 0, 0, 1]

/-- A complete record of a capture file that holds an RTP packet: the header
`rtpHeader ts` and the bytes `data`. -/
def rtpRecord (ts : Nat) (data : List Nat) : Record :=
  { plen := 12 + data.length, msec := 0, payload := rtpHeader ts ++ data }

/-- A record with payload length 0 (RTCP) followed by `n` bytes. -/
def rtcpRecord (n : Nat) : Record :=
  { plen := 0, msec := 0, payload := List.replicate n 0 }

/-- A record of an RTP packet of 16 bytes of which only the 12 bytes of the
header were captured. -/
def truncatedRecord (ts : Nat) : Record :=
  { plen := 16, msec := 0, payload := rtpHeader ts }

/-- A complete record of 12 bytes that start like an RTP header of version 0. -/
def badVersionRecord : Record :=
  { plen := 12, msec := 0, payload := [0, 0, 0, 1, 0, 0, 3, 232, 0, 0, 0, 1] }

/-- A session header of 16 zero bytes. -/
def sessionHeader : List Nat := List.replicate 16 0

/-- A packet buffer that holds zero bytes when the converter starts. -/
def zeroBuffer : List Nat := List.replicate BUFLEN 0

/-- A run as `plainConv` in which `check_dumphdr` reports a mismatch. -/
def mismatchConv (le : Bool) : Conv :=
  { plainConv le with check_dumphdr := fun _ _ => -1 }

/-! ## Theorems: pacing scheduler -/

theorem rtpsleep_first (ns : Timespec → Int) (next : Nat) :
    rtpsleep ns 0 next = (next, { ret := 0, nap := none, warns := [] }) := by
  simp [rtpsleep]

theorem rtpsleep_pace (ns : Timespec → Int) (last next : Nat) (h0 : last ≠ 0)
    (hn : next < U32) :
    let r := rtpsleep ns last next
    (last ≤ next → requestedUsec r.2 = next - last ∧ flaggedOutOfOrder r.2 = false
        ∧ r.1 = next)
    ∧ (next < last → requestedUsec r.2 = 0 ∧ flaggedOutOfOrder r.2 = true ∧ r.1 = last) := by
  constructor
  · intro hle
    have hd : (next + U32 - last) % U32 = next - last := by
      have : next + U32 - last = (next - last) + U32 := by omega
      rw [this, Nat.add_mod_right]
      exact Nat.mod_eq_of_lt (by omega)
    simp only [rtpsleep, if_neg h0, if_neg (Nat.not_lt.mpr hle), hd]
    split <;> simp [requestedUsec, flaggedOutOfOrder] <;> exact Nat.div_add_mod' _ _
  · intro hlt
    simp [rtpsleep, h0, hlt, requestedUsec, flaggedOutOfOrder]

theorem rtpsleepRun_spec (ns : Timespec → Int) (tss : List Nat) :
    ∀ last, last ≠ 0 → (∀ t ∈ tss, t < U32) →
      rtpsleepRun ns last tss = paceSpec (some last) tss := by
  induction tss with
  | nil => intro last _ _; rfl
  | cons ts rest ih =>
    intro last h0 hb
    have hts : ts < U32 := hb ts (List.mem_cons_self _ _)
    have hrest : ∀ t ∈ rest, t < U32 := fun t ht => hb t (List.mem_cons_of_mem _ ht)
    have hp := rtpsleep_pace ns last ts h0 hts
    by_cases hle : last ≤ ts
    · obtain ⟨h1, h2, h3⟩ := hp.1 hle
      have hts0 : ts ≠ 0 := by omega
      simp only [rtpsleepRun, paceSpec, if_pos hle, h1, h2, h3, ih ts hts0 hrest]
    · obtain ⟨h1, h2, h3⟩ := hp.2 (Nat.lt_of_not_le hle)
      simp only [rtpsleepRun, paceSpec, if_neg hle, h1, h2, h3, ih last h0 hrest]

/-- C1 (as stated, refuted): fed the timestamps `[0, 5]` from the initial
state `last = 0`, `rtpsleep` asks for no delay for the second packet, although
its timestamp 5 is not earlier than the recorded 0 and the stated rule gives a
delay of 5 microseconds. -/
theorem C1_rtpsleep_zero_first_counterexample :
    rtpsleepRun (fun _ => 0) 0 [0, 5] ≠ paceSpec none [0, 5]
    ∧ (rtpsleepRun (fun _ => 0) 0 [0, 5]).map Pace.delay = [0, 0]
    ∧ (paceSpec none [0, 5]).map Pace.delay = [0, 5] := by
  decide

/-- C1 (amended): for every sequence of RTP timestamps whose first timestamp
is not 0, fed one at a time to `rtpsleep` from the initial state `last = 0`,
the pacing decisions are those of the specification: the first packet gets
zero delay and its timestamp is recorded; a later packet with `ts` not earlier
than the recorded timestamp gets a requested delay of exactly `ts - last`
microseconds and `ts` is recorded; a later packet with an earlier `ts` is
flagged as an ordering violation with zero delay. -/
theorem C1_rtpsleep_media_clock (ns : Timespec → Int) (tss : List Nat)
    (hb : ∀ t ∈ tss, t < U32) (h0 : tss.head? ≠ some 0) :
    rtpsleepRun ns 0 tss = paceSpec none tss := by
  cases tss with
  | nil => rfl
  | cons ts rest =>
    have hts0 : ts ≠ 0 := by simpa using h0
    have hrest : ∀ t ∈ rest, t < U32 := fun t ht => hb t (List.mem_cons_of_mem _ ht)
    simp only [rtpsleepRun, paceSpec, rtpsleep_first, requestedUsec, flaggedOutOfOrder,
      List.any_nil, rtpsleepRun_spec ns rest ts hts0 hrest]

/-- C1 witness: the timestamps `[1000, 1000, 3000, 2000]` give the delays
`[0, 0, 2000, violation with zero delay]`. -/
theorem C1_rtpsleep_media_clock_witness :
    rtpsleepRun (fun _ => 0) 0 [1000, 1000, 3000, 2000] =
      [{ delay := 0, violation := false, recorded := 1000 },
       { delay := 0, violation := false, recorded := 1000 },
       { delay := 2000, violation := false, recorded := 3000 },
       { delay := 0, violation := true, recorded := 3000 }] :=
  (C1_rtpsleep_media_clock (fun _ => 0) [1000, 1000, 3000, 2000]
    (by decide) (by decide)).trans (by decide)

theorem toU32_cast (x : Int) : ((toU32 x : Nat) : Int) = x % 4294967296 := by
  unfold toU32
  exact Int.toNat_of_nonneg (Int.emod_nonneg _ (by norm_num))

theorem toU32_of_range (x : Int) (h0 : 0 ≤ x) (h1 : x < 4294967296) :
    ((toU32 x : Nat) : Int) = x := by
  rw [toU32_cast]
  exact Int.emod_eq_of_lt h0 h1

/-- `tvdiff` is exact while the interval fits a `uint32_t`. -/
theorem tvdiff_exact (old new : Timeval)
    (ho : 0 ≤ old.tv_usec ∧ old.tv_usec ≤ 999999)
    (hn : 0 ≤ new.tv_usec ∧ new.tv_usec ≤ 999999)
    (hle : old.micros ≤ new.micros) (hfit : new.micros - old.micros < 4294967296) :
    ((tvdiff old new : Nat) : Int) = new.micros - old.micros := by
  unfold Timeval.micros at *
  unfold tvdiff
  rw [if_neg (by omega)]
  simp only [toU32_cast, Int.emod_add_emod]
  rw [Int.emod_eq_of_lt (by omega) (by omega)]
  ring

/-- `tvdiff` is 0 when `new` is older than `old`. -/
theorem tvdiff_older (old new : Timeval)
    (ho : 0 ≤ old.tv_usec ∧ old.tv_usec ≤ 999999)
    (hn : 0 ≤ new.tv_usec ∧ new.tv_usec ≤ 999999)
    (hlt : new.micros < old.micros) : tvdiff old new = 0 := by
  unfold Timeval.micros at *
  unfold tvdiff
  rw [if_pos]
  by_cases hs : old.tv_sec > new.tv_sec
  · exact Or.inl hs
  · exact Or.inr ⟨by omega, by omega⟩

theorem dumpsleep_requested (gtod : Int × Timeval) (ns : Timespec → Int)
    (zero : Timeval) (when : Nat) (hret : gtod.1 ≠ -1) (hw : when * 1000 < U32) :
    requestedUsec (dumpsleep gtod ns zero when) = when * 1000 - tvdiff zero gtod.2 := by
  have hm : when * 1000 % U32 = when * 1000 := Nat.mod_eq_of_lt hw
  unfold dumpsleep
  simp only [if_neg hret, hm]
  by_cases hlate : tvdiff zero gtod.2 > when * 1000
  · rw [if_pos hlate]
    simp only [requestedUsec]
    omega
  · rw [if_neg hlate]
    have hd : (when * 1000 + U32 - tvdiff zero gtod.2) % U32
        = when * 1000 - tvdiff zero gtod.2 := by
      have : when * 1000 + U32 - tvdiff zero gtod.2
          = (when * 1000 - tvdiff zero gtod.2) + U32 := by omega
      rw [this, Nat.add_mod_right]
      exact Nat.mod_eq_of_lt (by omega)
    rw [hd]
    split <;> simp [requestedUsec] <;> exact Nat.div_add_mod' _ _

/-- C2 (as stated, refuted): with session start 100 s, current time 99 s (the
clock is behind the session start) and `when` = 1 ms, `dumpsleep` requests
1000 microseconds, not the 1001000 microseconds that remain until the due
instant; and with `now = zero` and `when` = 4294968 ms it requests 704
microseconds, not 4294968000. -/
theorem C2_dumpsleep_counterexample :
    requestedUsec (dumpsleep (0, ⟨99, 0⟩) (fun _ => 0) ⟨100, 0⟩ 1) = 1000
    ∧ dueSpec ⟨100, 0⟩ ⟨99, 0⟩ 1 = 1001000
    ∧ requestedUsec (dumpsleep (0, ⟨100, 0⟩) (fun _ => 0) ⟨100, 0⟩ 4294968) = 704
    ∧ dueSpec ⟨100, 0⟩ ⟨100, 0⟩ 4294968 = 4294968000 := by
  decide

/-- C2 (amended): when `gettimeofday` succeeds, `when * 1000` fits 32 bits and
the current time is not older than the session start by the clock and at most
`2 ^ 32 - 1` microseconds later, the sleep `dumpsleep` requests is exactly
`max 0 (zero + when * 1000 microseconds - now)`. -/
theorem C2_dumpsleep_wall_clock (ret : Int) (now zero : Timeval) (ns : Timespec → Int)
    (when : Nat) (hret : ret ≠ -1) (hw : when * 1000 < U32)
    (hz : 0 ≤ zero.tv_usec ∧ zero.tv_usec ≤ 999999)
    (hn : 0 ≤ now.tv_usec ∧ now.tv_usec ≤ 999999)
    (hle : zero.micros ≤ now.micros) (hfit : now.micros - zero.micros < 4294967296) :
    (requestedUsec (dumpsleep (ret, now) ns zero when) : Int) = dueSpec zero now when := by
  rw [dumpsleep_requested (ret, now) ns zero when hret hw]
  have ht := tvdiff_exact zero now hz hn hle hfit
  show ((when * 1000 - tvdiff zero now : Nat) : Int) = dueSpec zero now when
  unfold dueSpec
  rcases le_total (0 : Int) (zero.micros + (when : Int) * 1000 - now.micros) with h | h
  · rw [max_eq_right h]; omega
  · rw [max_eq_left h]; omega

/-- C2 witness: 250 ms into a session, a packet due at 1000 ms is delayed by
750000 microseconds. -/
theorem C2_dumpsleep_wall_clock_witness :
    (requestedUsec (dumpsleep (0, ⟨100, 250000⟩) (fun _ => 0) ⟨100, 0⟩ 1000) : Int)
      = dueSpec ⟨100, 0⟩ ⟨100, 250000⟩ 1000
    ∧ dueSpec ⟨100, 0⟩ ⟨100, 250000⟩ 1000 = 750000 :=
  ⟨C2_dumpsleep_wall_clock 0 ⟨100, 250000⟩ ⟨100, 0⟩ (fun _ => 0) 1000
    (by decide) (by decide) (by decide) (by decide) (by decide) (by decide), by decide⟩

/-! ## Theorems: capture-file codec -/

theorem bytes16_length (le : Bool) (v : Nat) : (bytes16 le v).length = 2 := by
  cases le <;> rfl

theorem bytes32_length (le : Bool) (v : Nat) : (bytes32 le v).length = 4 := by
  cases le <;> rfl

/-- Two bytes read from the file and passed through `ntohs` hold their
big-endian value. -/
theorem ntohs_val16 (le : Bool) (b0 b1 : Nat) (h0 : b0 < 256) (h1 : b1 < 256) :
    ntohs le (val16 le b0 b1) = be16 b0 b1 := by
  cases le
  · simp [ntohs, val16, be16]
  · have e1 : (b0 + 256 * b1) % 256 = b0 := by omega
    have e2 : (b0 + 256 * b1) / 256 = b1 := by omega
    simp only [ntohs, val16, be16, if_true, e1, e2, Nat.mod_eq_of_lt h1]

/-- Four bytes read from the file and passed through `ntohl` hold their
big-endian value. -/
theorem ntohl_val32 (le : Bool) (b0 b1 b2 b3 : Nat) (h0 : b0 < 256) (h1 : b1 < 256)
    (h2 : b2 < 256) (h3 : b3 < 256) :
    ntohl le (val32 le b0 b1 b2 b3) = be32 b0 b1 b2 b3 := by
  cases le
  · simp [ntohl, val32, be32]
  · have e1 : (b0 + 256 * b1 + 65536 * b2 + 16777216 * b3) % 256 = b0 := by omega
    have e2 : (b0 + 256 * b1 + 65536 * b2 + 16777216 * b3) / 256 % 256 = b1 := by omega
    have e3 : (b0 + 256 * b1 + 65536 * b2 + 16777216 * b3) / 65536 % 256 = b2 := by omega
    have e4 : (b0 + 256 * b1 + 65536 * b2 + 16777216 * b3) / 16777216 % 256 = b3 := by omega
    simp only [ntohl, val32, be32, if_true, e1, e2, e3, e4]

/-- The bytes in memory of a 16-bit value, loaded again, give the value. -/
theorem val16_bytes16 (le : Bool) (v : Nat) (hv : v < 65536) (x y : Nat)
    (h : bytes16 le v = [x, y]) : val16 le x y = v := by
  cases le <;> simp [bytes16] at h <;> obtain ⟨rfl, rfl⟩ := h <;> simp [val16] <;> omega

/-- The bytes in memory of a 32-bit value, loaded again, give the value. -/
theorem val32_bytes32 (le : Bool) (v : Nat) (hv : v < 4294967296) (x y z w : Nat)
    (h : bytes32 le v = [x, y, z, w]) : val32 le x y z w = v := by
  cases le <;> simp [bytes32] at h <;> obtain ⟨rfl, rfl, rfl, rfl⟩ := h <;> simp [val32]
    <;> omega

theorem be16_lt (b0 b1 : Nat) (h0 : b0 < 256) (h1 : b1 < 256) : be16 b0 b1 < 65536 := by
  unfold be16; omega

theorem be32_lt (b0 b1 b2 b3 : Nat) (h0 : b0 < 256) (h1 : b1 < 256) (h2 : b2 < 256)
    (h3 : b3 < 256) : be32 b0 b1 b2 b3 < 4294967296 := by
  unfold be32; omega

theorem bytes16_eq (le : Bool) (v : Nat) : ∃ x y, bytes16 le v = [x, y] := by
  cases le <;> exact ⟨_, _, rfl⟩

theorem bytes32_eq (le : Bool) (v : Nat) : ∃ x y z w, bytes32 le v = [x, y, z, w] := by
  cases le <;> exact ⟨_, _, _, _, rfl⟩

/-- A complete packet header is consumed and decoded: the eight bytes left at
the start of the buffer hold, as host-order fields, the big-endian values of
the bytes read. -/
theorem read_dpkthdr_full (le : Bool) (b0 b1 b2 b3 b4 b5 b6 b7 : Nat) (rest buf : List Nat)
    (len : Nat) (hlen : DPKTHDRSIZE ≤ len)
    (h0 : b0 < 256) (h1 : b1 < 256) (h2 : b2 < 256) (h3 : b3 < 256)
    (h4 : b4 < 256) (h5 : b5 < 256) (h6 : b6 < 256) (h7 : b7 < 256) :
    ∃ x0 x1 x2 x3 x4 x5 x6 x7 : Nat,
      read_dpkthdr le (b0 :: b1 :: b2 :: b3 :: b4 :: b5 :: b6 :: b7 :: rest) buf len =
        { ret := 8, buf := x0 :: x1 :: x2 :: x3 :: x4 :: x5 :: x6 :: x7 :: buf.drop 8,
          fd := rest, warns := [] }
      ∧ val16 le x0 x1 = be16 b0 b1 ∧ val16 le x2 x3 = be16 b2 b3
      ∧ val32 le x4 x5 x6 x7 = be32 b4 b5 b6 b7 := by
  have hl : ¬ len < 8 := Nat.not_lt.mpr hlen
  obtain ⟨x0, x1, ha⟩ := bytes16_eq le (be16 b0 b1)
  obtain ⟨x2, x3, hb⟩ := bytes16_eq le (be16 b2 b3)
  obtain ⟨x4, x5, x6, x7, hc⟩ := bytes32_eq le (be32 b4 b5 b6 b7)
  refine ⟨x0, x1, x2, x3, x4, x5, x6, x7, ?_,
    val16_bytes16 le _ (be16_lt b0 b1 h0 h1) x0 x1 ha,
    val16_bytes16 le _ (be16_lt b2 b3 h2 h3) x2 x3 hb,
    val32_bytes32 le _ (be32_lt b4 b5 b6 b7 h4 h5 h6 h7) x4 x5 x6 x7 hc⟩
  simp [read_dpkthdr, hl, read, store, st16, st32, ld16, ld32, DPKTHDRSIZE,
    ntohs_val16 le b0 b1 h0 h1, ntohs_val16 le b2 b3 h2 h3,
    ntohl_val32 le b4 b5 b6 b7 h4 h5 h6 h7, ha, hb, hc]

theorem list_eight (l : List Nat) (h : 8 ≤ l.length) :
    ∃ b0 b1 b2 b3 b4 b5 b6 b7 rest, l = b0 :: b1 :: b2 :: b3 :: b4 :: b5 :: b6 :: b7 :: rest := by
  match l, h with
  | b0 :: b1 :: b2 :: b3 :: b4 :: b5 :: b6 :: b7 :: rest, _ =>
    exact ⟨b0, b1, b2, b3, b4, b5, b6, b7, rest, rfl⟩

/-- C3: `read_dpkthdr` with a buffer of at least header size returns 0 at the
end of the stream, -1 when between 1 and `DPKTHDRSIZE - 1` bytes are
available, and otherwise consumes exactly `DPKTHDRSIZE` bytes, returns
`DPKTHDRSIZE`, and leaves the record length, payload length and timestamp
fields equal to the big-endian values of the bytes read. -/
theorem C3_read_dpkthdr (le : Bool) (fd buf : List Nat) (len : Nat)
    (hlen : DPKTHDRSIZE ≤ len) (hbytes : ∀ b ∈ fd, b < 256) :
    (fd = [] → (read_dpkthdr le fd buf len).ret = 0)
    ∧ (1 ≤ fd.length → fd.length < DPKTHDRSIZE → (read_dpkthdr le fd buf len).ret = -1)
    ∧ (DPKTHDRSIZE ≤ fd.length →
        (read_dpkthdr le fd buf len).ret = DPKTHDRSIZE
        ∧ (read_dpkthdr le fd buf len).fd = fd.drop DPKTHDRSIZE
        ∧ ld16 le (read_dpkthdr le fd buf len).buf 0 = be16 (fd.getD 0 0) (fd.getD 1 0)
        ∧ ld16 le (read_dpkthdr le fd buf len).buf 2 = be16 (fd.getD 2 0) (fd.getD 3 0)
        ∧ ld32 le (read_dpkthdr le fd buf len).buf 4
            = be32 (fd.getD 4 0) (fd.getD 5 0) (fd.getD 6 0) (fd.getD 7 0)) := by
  have hl : ¬ len < DPKTHDRSIZE := Nat.not_lt.mpr hlen
  refine ⟨?_, ?_, ?_⟩
  · intro hfd
    subst hfd
    simp [read_dpkthdr, hl, read]
  · intro h1 h8
    have hmin : min DPKTHDRSIZE fd.length = fd.length := Nat.min_eq_right (Nat.le_of_lt h8)
    have hne0 : ¬ ((fd.length : Int) = 0) := by omega
    have hne8 : ¬ ((fd.length : Int) = (DPKTHDRSIZE : Int)) := by omega
    simp [read_dpkthdr, hl, read, hmin, hne0, hne8]
  · intro h8
    obtain ⟨b0, b1, b2, b3, b4, b5, b6, b7, rest, rfl⟩ := list_eight fd h8
    have hb : ∀ b ∈ [b0, b1, b2, b3, b4, b5, b6, b7], b < 256 := by
      intro b hm
      apply hbytes
      simp only [List.mem_cons] at hm ⊢
      tauto
    obtain ⟨x0, x1, x2, x3, x4, x5, x6, x7, hr, e1, e2, e3⟩ :=
      read_dpkthdr_full le b0 b1 b2 b3 b4 b5 b6 b7 rest buf len hlen
        (hb b0 (by simp)) (hb b1 (by simp)) (hb b2 (by simp)) (hb b3 (by simp))
        (hb b4 (by simp)) (hb b5 (by simp)) (hb b6 (by simp)) (hb b7 (by simp))
    rw [hr]
    simp [DPKTHDRSIZE, ld16, ld32, e1, e2, e3]

/-- C3 witness: a 12-byte stream with the header `00 0c 00 04 00 00 00 09`. -/
theorem C3_read_dpkthdr_witness :
    (read_dpkthdr true [0, 12, 0, 4, 0, 0, 0, 9, 1, 2, 3, 4] (List.replicate 16 0) 16).ret
        = DPKTHDRSIZE
    ∧ (read_dpkthdr true [0, 12, 0, 4, 0, 0, 0, 9, 1, 2, 3, 4] (List.replicate 16 0) 16).fd
        = [0, 12, 0, 4, 0, 0, 0, 9, 1, 2, 3, 4].drop DPKTHDRSIZE
    ∧ ld16 true
        (read_dpkthdr true [0, 12, 0, 4, 0, 0, 0, 9, 1, 2, 3, 4] (List.replicate 16 0) 16).buf 0
        = be16 ([0, 12, 0, 4, 0, 0, 0, 9, 1, 2, 3, 4].getD 0 0)
            ([0, 12, 0, 4, 0, 0, 0, 9, 1, 2, 3, 4].getD 1 0)
    ∧ ld16 true
        (read_dpkthdr true [0, 12, 0, 4, 0, 0, 0, 9, 1, 2, 3, 4] (List.replicate 16 0) 16).buf 2
        = be16 ([0, 12, 0, 4, 0, 0, 0, 9, 1, 2, 3, 4].getD 2 0)
            ([0, 12, 0, 4, 0, 0, 0, 9, 1, 2, 3, 4].getD 3 0)
    ∧ ld32 true
        (read_dpkthdr true [0, 12, 0, 4, 0, 0, 0, 9, 1, 2, 3, 4] (List.replicate 16 0) 16).buf 4
        = be32 ([0, 12, 0, 4, 0, 0, 0, 9, 1, 2, 3, 4].getD 4 0)
            ([0, 12, 0, 4, 0, 0, 0, 9, 1, 2, 3, 4].getD 5 0)
            ([0, 12, 0, 4, 0, 0, 0, 9, 1, 2, 3, 4].getD 6 0)
            ([0, 12, 0, 4, 0, 0, 0, 9, 1, 2, 3, 4].getD 7 0) :=
  (C3_read_dpkthdr true [0, 12, 0, 4, 0, 0, 0, 9, 1, 2, 3, 4] (List.replicate 16 0) 16
    (by decide) (by decide)).2.2 (by decide)

/-- What `read_dump` does once a complete header declaring a record length
`d` of at least `DPKTHDRSIZE` was read: it refuses a record that does not fit
the rest of the buffer, and otherwise reads up to `d - DPKTHDRSIZE` bytes
behind the header. -/
theorem read_dump_record (le : Bool) (b0 b1 b2 b3 b4 b5 b6 b7 : Nat) (tail buf : List Nat)
    (len : Nat) (hlen : DPKTHDRSIZE ≤ len) (hsz : len < SIZE)
    (h0 : b0 < 256) (h1 : b1 < 256) (h2 : b2 < 256) (h3 : b3 < 256)
    (h4 : b4 < 256) (h5 : b5 < 256) (h6 : b6 < 256) (h7 : b7 < 256)
    (hd : DPKTHDRSIZE ≤ be16 b0 b1) :
    ∃ x0 x1 x2 x3 x4 x5 x6 x7 : Nat,
      val16 le x0 x1 = be16 b0 b1 ∧ val16 le x2 x3 = be16 b2 b3
      ∧ val32 le x4 x5 x6 x7 = be32 b4 b5 b6 b7
      ∧ read_dump le (b0 :: b1 :: b2 :: b3 :: b4 :: b5 :: b6 :: b7 :: tail) buf len =
        if len - 8 < be16 b0 b1 - 8 then
          { ret := -1, buf := x0 :: x1 :: x2 :: x3 :: x4 :: x5 :: x6 :: x7 :: buf.drop 8,
            fd := tail, warns := [CodecWarning.bufferFull] }
        else
          { ret := 8 + ((tail.take (be16 b0 b1 - 8)).length : Int),
            buf := x0 :: x1 :: x2 :: x3 :: x4 :: x5 :: x6 :: x7 ::
              (tail.take (be16 b0 b1 - 8)
                ++ (buf.drop 8).drop (tail.take (be16 b0 b1 - 8)).length),
            fd := tail.drop (be16 b0 b1 - 8), warns := [],
            printed := [headerLine (be16 b0 b1) (be16 b2 b3) (be32 b4 b5 b6 b7)] } := by
  obtain ⟨x0, x1, x2, x3, x4, x5, x6, x7, hr, e1, e2, e3⟩ :=
    read_dpkthdr_full le b0 b1 b2 b3 b4 b5 b6 b7 tail buf len hlen h0 h1 h2 h3 h4 h5 h6 h7
  refine ⟨x0, x1, x2, x3, x4, x5, x6, x7, e1, e2, e3, ?_⟩
  have hdl := be16_lt b0 b1 h0 h1
  unfold DPKTHDRSIZE at hd hlen
  unfold SIZE at hsz
  have hlen1 : (((len : Int) - 8) % (SIZE : Int)).toNat = len - 8 := by
    have h1 : ((len : Int) - 8) % ((SIZE : Nat) : Int) = (len : Int) - 8 :=
      Int.emod_eq_of_lt (by omega) (by unfold SIZE; omega)
    rw [h1]
    omega
  have hwant : (be16 b0 b1 + SIZE - DPKTHDRSIZE) % SIZE = be16 b0 b1 - 8 := by
    have : be16 b0 b1 + SIZE - DPKTHDRSIZE = (be16 b0 b1 - 8) + SIZE := by
      unfold DPKTHDRSIZE SIZE; omega
    rw [this, Nat.add_mod_right]
    exact Nat.mod_eq_of_lt (by unfold SIZE; omega)
  unfold read_dump
  simp only [hr]
  simp only [ld16, List.getD_cons_zero, List.getD_cons_succ, e1, hlen1, hwant]
  by_cases hfit : len - 8 < be16 b0 b1 - 8
  · simp [hfit]
  · have key : ∀ (k : Nat) (l : List Nat),
        List.drop (8 + k) (x0 :: x1 :: x2 :: x3 :: x4 :: x5 :: x6 :: x7 :: l)
          = List.drop k l := by
      intro k l
      rw [Nat.add_comm]
      rfl
    have hne2 : ¬ (((be16 b0 b1 - 8 : Nat) : Int) ⊓ (tail.length : Int) = -1) := by
      rcases le_total ((be16 b0 b1 - 8 : Nat) : Int) (tail.length : Int) with h | h
      · rw [min_eq_left h]; omega
      · rw [min_eq_right h]; omega
    simp [hfit, read, store, key, hne2, print_dpkthdr, ld16, ld32, e1, e2, e3]

/-- C4 (as stated, refuted): the header `00 0c 00 04 ...` declares a record of
12 bytes, but only 2 of its 4 payload bytes are in the stream; `read_dump`
returns the short count 10, not -1 (on either host byte order). -/
theorem C4_read_dump_short_counterexample :
    (read_dump true [0, 12, 0, 4, 0, 0, 0, 9, 1, 2] (List.replicate 16 0) 16).ret = 10
    ∧ (read_dump false [0, 12, 0, 4, 0, 0, 0, 9, 1, 2] (List.replicate 16 0) 16).ret = 10
    ∧ (read_dump true [0, 12, 0, 4, 0, 0, 0, 9, 1, 2] (List.replicate 16 0) 16).fd = [] := by
  decide

/-- C4 (amended): for a stream that holds a complete packet header declaring
a record length `d` of at least `DPKTHDRSIZE` that fits the buffer, followed by
only `k < d - DPKTHDRSIZE` payload bytes before it ends, `read_dump` does not
fail: it returns the number of bytes read, `DPKTHDRSIZE + k`, has consumed the
whole stream, and has stored the `k` bytes behind the header. -/
theorem C4_read_dump_short (le : Bool) (b0 b1 b2 b3 b4 b5 b6 b7 : Nat)
    (payload buf : List Nat) (len : Nat) (hsz : len < SIZE)
    (h0 : b0 < 256) (h1 : b1 < 256) (h2 : b2 < 256) (h3 : b3 < 256)
    (h4 : b4 < 256) (h5 : b5 < 256) (h6 : b6 < 256) (h7 : b7 < 256)
    (hd : DPKTHDRSIZE ≤ be16 b0 b1) (hfit : be16 b0 b1 ≤ len)
    (hshort : payload.length < be16 b0 b1 - DPKTHDRSIZE) :
    (read_dump le (b0 :: b1 :: b2 :: b3 :: b4 :: b5 :: b6 :: b7 :: payload) buf len).ret
        = (DPKTHDRSIZE : Int) + payload.length
    ∧ (read_dump le (b0 :: b1 :: b2 :: b3 :: b4 :: b5 :: b6 :: b7 :: payload) buf len).fd = []
    ∧ ((read_dump le (b0 :: b1 :: b2 :: b3 :: b4 :: b5 :: b6 :: b7 :: payload) buf len).buf.drop
          DPKTHDRSIZE).take payload.length = payload := by
  have hlen : DPKTHDRSIZE ≤ len := Nat.le_trans hd hfit
  obtain ⟨x0, x1, x2, x3, x4, x5, x6, x7, -, -, -, hr⟩ :=
    read_dump_record le b0 b1 b2 b3 b4 b5 b6 b7 payload buf len hlen hsz
      h0 h1 h2 h3 h4 h5 h6 h7 hd
  unfold DPKTHDRSIZE at hd hshort ⊢
  have hnf : ¬ len - 8 < be16 b0 b1 - 8 := by omega
  have htake : payload.take (be16 b0 b1 - 8) = payload :=
    List.take_of_length_le (Nat.le_of_lt hshort)
  have hdrop : payload.drop (be16 b0 b1 - 8) = [] :=
    List.drop_of_length_le (Nat.le_of_lt hshort)
  rw [hr, if_neg hnf, htake, hdrop]
  simp

/-- C4 witness: a declared record of 12 bytes with 2 payload bytes present. -/
theorem C4_read_dump_short_witness :
    (read_dump true [0, 12, 0, 4, 0, 0, 0, 9, 1, 2] (List.replicate 16 0) 16).ret
        = (DPKTHDRSIZE : Int) + [1, 2].length
    ∧ (read_dump true [0, 12, 0, 4, 0, 0, 0, 9, 1, 2] (List.replicate 16 0) 16).fd = []
    ∧ ((read_dump true [0, 12, 0, 4, 0, 0, 0, 9, 1, 2] (List.replicate 16 0) 16).buf.drop
          DPKTHDRSIZE).take [1, 2].length = [1, 2] :=
  C4_read_dump_short true 0 12 0 4 0 0 0 9 [1, 2] (List.replicate 16 0) 16
    (by decide) (by decide) (by decide) (by decide) (by decide) (by decide) (by decide)
    (by decide) (by decide) (by decide) (by decide) (by decide)

/-- C5: for a buffer length `len` of at least `DPKTHDRSIZE` and a stream that
holds a complete record of declared length `d` (at least `DPKTHDRSIZE`):
if `len - DPKTHDRSIZE < d - DPKTHDRSIZE`, `read_dump` returns -1 and no
payload byte is consumed; otherwise it returns `d`, has consumed exactly the
`d` bytes of the record, and the buffer holds the decoded header followed by
the `d - DPKTHDRSIZE` payload bytes in stream order. -/
theorem C5_read_dump_complete (le : Bool) (b0 b1 b2 b3 b4 b5 b6 b7 : Nat)
    (payload rest buf : List Nat) (len : Nat) (hlen : DPKTHDRSIZE ≤ len) (hsz : len < SIZE)
    (h0 : b0 < 256) (h1 : b1 < 256) (h2 : b2 < 256) (h3 : b3 < 256)
    (h4 : b4 < 256) (h5 : b5 < 256) (h6 : b6 < 256) (h7 : b7 < 256)
    (hd : DPKTHDRSIZE ≤ be16 b0 b1)
    (hpay : payload.length = be16 b0 b1 - DPKTHDRSIZE) :
    (len - DPKTHDRSIZE < be16 b0 b1 - DPKTHDRSIZE →
      (read_dump le (b0 :: b1 :: b2 :: b3 :: b4 :: b5 :: b6 :: b7 :: (payload ++ rest))
          buf len).ret = -1
      ∧ (read_dump le (b0 :: b1 :: b2 :: b3 :: b4 :: b5 :: b6 :: b7 :: (payload ++ rest))
          buf len).fd = payload ++ rest)
    ∧ (¬ len - DPKTHDRSIZE < be16 b0 b1 - DPKTHDRSIZE →
      (read_dump le (b0 :: b1 :: b2 :: b3 :: b4 :: b5 :: b6 :: b7 :: (payload ++ rest))
          buf len).ret = be16 b0 b1
      ∧ (read_dump le (b0 :: b1 :: b2 :: b3 :: b4 :: b5 :: b6 :: b7 :: (payload ++ rest))
          buf len).fd = rest
      ∧ ld16 le (read_dump le (b0 :: b1 :: b2 :: b3 :: b4 :: b5 :: b6 :: b7 :: (payload ++ rest))
          buf len).buf 0 = be16 b0 b1
      ∧ ld16 le (read_dump le (b0 :: b1 :: b2 :: b3 :: b4 :: b5 :: b6 :: b7 :: (payload ++ rest))
          buf len).buf 2 = be16 b2 b3
      ∧ ld32 le (read_dump le (b0 :: b1 :: b2 :: b3 :: b4 :: b5 :: b6 :: b7 :: (payload ++ rest))
          buf len).buf 4 = be32 b4 b5 b6 b7
      ∧ ((read_dump le (b0 :: b1 :: b2 :: b3 :: b4 :: b5 :: b6 :: b7 :: (payload ++ rest))
          buf len).buf.drop DPKTHDRSIZE).take (be16 b0 b1 - DPKTHDRSIZE) = payload) := by
  obtain ⟨x0, x1, x2, x3, x4, x5, x6, x7, e1, e2, e3, hr⟩ :=
    read_dump_record le b0 b1 b2 b3 b4 b5 b6 b7 (payload ++ rest) buf len hlen hsz
      h0 h1 h2 h3 h4 h5 h6 h7 hd
  unfold DPKTHDRSIZE at hd hpay hlen ⊢
  have htake : (payload ++ rest).take (be16 b0 b1 - 8) = payload := by
    rw [← hpay]; exact List.take_left' rfl
  have hdrop : (payload ++ rest).drop (be16 b0 b1 - 8) = rest := by
    rw [← hpay]; exact List.drop_left' rfl
  constructor
  · intro hbig
    rw [hr, if_pos hbig]
    exact ⟨rfl, rfl⟩
  · intro hfit
    rw [hr, if_neg hfit, htake, hdrop]
    refine ⟨?_, rfl, ?_, ?_, ?_, ?_⟩
    · show (8 : Int) + (payload.length : Int) = ((be16 b0 b1 : Nat) : Int)
      omega
    · simpa [ld16] using e1
    · simpa [ld16] using e2
    · simpa [ld32] using e3
    · simp [← hpay]

/-- C5 witness: a complete 12-byte record read into a 16-byte buffer. -/
theorem C5_read_dump_complete_witness :
    (read_dump false [0, 12, 0, 4, 0, 0, 0, 9, 1, 2, 3, 4, 7] (List.replicate 16 0) 16)
      = { ret := 12, buf := [0, 12, 0, 4, 0, 0, 0, 9, 1, 2, 3, 4, 0, 0, 0, 0], fd := [7],
          warns := [], printed := [PacketLine.rtp 9 4 4] }
    ∧ (read_dump false ([0, 12, 0, 4, 0, 0, 0, 9] ++ ([1, 2, 3, 4] ++ [7]))
          (List.replicate 16 0) 16).ret = be16 0 12 :=
  ⟨by decide,
   ((C5_read_dump_complete false 0 12 0 4 0 0 0 9 [1, 2, 3, 4] [7] (List.replicate 16 0) 16
      (by decide) (by decide) (by decide) (by decide) (by decide) (by decide) (by decide)
      (by decide) (by decide) (by decide) (by decide) (by decide)).2 (by decide)).1⟩

/-! ### The text line (`read_dumpline`) -/

/-- `strncmp` against a string with no NUL among its first `n` bytes is 0
exactly when the first `n` bytes agree. -/
theorem strncmp_eq_zero_iff (n : Nat) :
    ∀ (a b : List Nat), n ≤ b.length → (∀ x ∈ b.take n, x ≠ 0) →
      (strncmp a b n = 0 ↔ a.take n = b.take n) := by
  induction n with
  | zero => intro a b _ _; simp [strncmp]
  | succ n ih =>
    intro a b hb hnz
    match b, hb with
    | y :: b', hb' =>
      have hy : y ≠ 0 := hnz y (by simp)
      have hnz' : ∀ x ∈ b'.take n, x ≠ 0 := fun x hx => hnz x (by simp [hx])
      have hb'' : n ≤ b'.length := by simpa using hb'
      cases a with
      | nil =>
        have : ¬ ((0 : Int) - (y : Int) = 0) := by omega
        simp [strncmp, hy, Ne.symm hy, this]
      | cons x a' =>
        by_cases hxy : x = y
        · subst hxy
          simp [strncmp, hy, ih a' b' hb'' hnz']
        · have : ¬ ((x : Int) - (y : Int) = 0) := by omega
          simp [strncmp, hxy, this]

theorem dumplineLoop_newline (line rest : List Nat) (hline : 10 ∉ line) :
    ∀ r p, dumplineLoop r p (line ++ 10 :: rest) = (r + line.length + 1, 10, rest) := by
  induction line with
  | nil => intro r p; simp [dumplineLoop]
  | cons b line ih =>
    intro r p
    have hb : b ≠ 10 := fun h => hline (by simp [h])
    have hl : 10 ∉ line := fun h => hline (by simp [h])
    have e : r + 1 + line.length + 1 = r + (line.length + 1) + 1 := by omega
    show dumplineLoop r p (b :: (line ++ 10 :: rest)) = _
    rw [dumplineLoop, if_neg hb, ih hl, List.length_cons, e]

theorem dumplineLoop_no_newline (l : List Nat) (hl : 10 ∉ l) :
    ∀ r p, (p ≠ 10 ∨ l ≠ []) → (dumplineLoop r p l).2.1 ≠ 10 := by
  induction l with
  | nil =>
    intro r p h
    rcases h with h | h
    · simpa [dumplineLoop] using h
    · exact absurd rfl h
  | cons b l ih =>
    intro r p _
    have hb : b ≠ 10 := fun h => hl (by simp [h])
    have hl' : 10 ∉ l := fun h => hl (by simp [h])
    simp only [dumplineLoop, if_neg hb]
    exact ih hl' (r + 1) b (Or.inl hb)

/-- The prefix test of `read_dumpline`: the routine goes on to look for the
newline exactly when the stream starts with `DUMPLINE`. -/
theorem read_dumpline_magic (p0 : Nat) (tail buf : List Nat) :
    read_dumpline p0 (DUMPLINE ++ tail) buf =
      if (dumplineLoop DUMPLINELEN p0 tail).2.1 ≠ 10 then
        { ret := -1, buf := DUMPLINE ++ buf.drop 13,
          fd := (dumplineLoop DUMPLINELEN p0 tail).2.2,
          warns := [CodecWarning.invalidDumpFileHeader] }
      else
        { ret := (dumplineLoop DUMPLINELEN p0 tail).1, buf := DUMPLINE ++ buf.drop 13,
          fd := (dumplineLoop DUMPLINELEN p0 tail).2.2, warns := [] } := by
  have hread : read (DUMPLINE ++ tail) DUMPLINELEN = (13, DUMPLINE, tail) := by
    simp [read, DUMPLINE, DUMPLINELEN]
  have hstore : store buf 0 DUMPLINE = DUMPLINE ++ buf.drop 13 := by
    simp [store, DUMPLINE]
  have hc1 : strncmp (DUMPLINE ++ buf.drop 13) DUMPLINE DUMPLINELEN = 0 :=
    (strncmp_eq_zero_iff 13 _ _ (by decide) (by decide)).mpr (by simp [DUMPLINE])
  have hc2 : strncmp ((DUMPLINE ++ buf.drop 13).drop 9) [49, 46, 48] 3 = 0 :=
    (strncmp_eq_zero_iff 3 _ _ (by decide) (by decide)).mpr (by simp [DUMPLINE])
  unfold read_dumpline
  simp only [hread, hstore, hc1, hc2]
  simp [DUMPLINELEN]

theorem read_dumpline_bad_magic (p0 : Nat) (fd buf : List Nat) (h : ¬ DUMPLINE <+: fd) :
    (read_dumpline p0 fd buf).ret = -1 := by
  unfold read_dumpline
  rw [if_pos]
  by_cases hlen : (read fd DUMPLINELEN).1 = DUMPLINELEN
  · right; left
    intro hc
    apply h
    have hl : (fd.take 13).length = 13 := by
      have := hlen
      simp only [read, DUMPLINELEN] at this
      exact_mod_cast this
    have ht : (store buf 0 (fd.take 13)).take 13 = fd.take 13 := by
      simp only [store, List.take_zero, List.nil_append]
      rw [List.take_append_of_le_length (by omega)]
      exact List.take_of_length_le (by omega)
    have := (strncmp_eq_zero_iff 13 _ _ (by decide) (by decide)).mp hc
    simp only [read, DUMPLINELEN] at this
    rw [ht] at this
    exact ⟨fd.drop 13, by rw [show DUMPLINE = DUMPLINE.take 13 from rfl, ← this,
      List.take_append_drop]⟩
  · left; exact hlen

/-- What `read_dumpline` does on every stream, given the value `p0` that the
uninitialised local `p` holds: it fails unless the stream starts with
`DUMPLINE`; it fails if no newline follows the prefix, provided a byte follows
the prefix or `p0` is not a newline; and when a newline follows it returns the
position just past the first one and leaves the stream there. -/
theorem read_dumpline_spec (p0 : Nat) (fd buf : List Nat) :
    (¬ DUMPLINE <+: fd → (read_dumpline p0 fd buf).ret = -1)
    ∧ (∀ tail, fd = DUMPLINE ++ tail → 10 ∉ tail → (p0 ≠ 10 ∨ tail ≠ []) →
        (read_dumpline p0 fd buf).ret = -1)
    ∧ (∀ line rest, fd = DUMPLINE ++ (line ++ 10 :: rest) → 10 ∉ line →
        (read_dumpline p0 fd buf).ret = (DUMPLINELEN : Int) + line.length + 1
        ∧ (read_dumpline p0 fd buf).fd = rest) := by
  refine ⟨read_dumpline_bad_magic p0 fd buf, ?_, ?_⟩
  · intro tail hfd hno hp
    subst hfd
    rw [read_dumpline_magic, if_pos (dumplineLoop_no_newline tail hno _ _ hp)]
  · intro line rest hfd hline
    subst hfd
    rw [read_dumpline_magic, dumplineLoop_newline line rest hline]
    simp

/-- C6 (the code at the failing input): the stream is exactly the prefix
`#!rtpplay1.0 ` with no newline behind it; when the uninitialised local `p`
happens to hold a newline, `read_dumpline` returns 13 instead of failing. With
any other value of `p` it fails, as it does whenever a byte follows. -/
theorem C6_read_dumpline_uninitialised_p :
    (read_dumpline 10 DUMPLINE []).ret = 13
    ∧ 10 ∉ DUMPLINE.drop DUMPLINELEN
    ∧ (read_dumpline 0 DUMPLINE []).ret = -1 := by
  decide

/-! ## Theorems: endpoint resolver -/

/-- On NUL-free strings `strcmp` is 0 exactly for equal strings. -/
theorem strcmp_eq_zero_iff (a : List Char) :
    ∀ b : List Char, (∀ c ∈ a, c.toNat ≠ 0) → (∀ c ∈ b, c.toNat ≠ 0) →
      (strcmp a b = 0 ↔ a = b) := by
  induction a with
  | nil =>
    intro b _ hb
    cases b with
    | nil => simp [strcmp]
    | cons y b =>
      have hy : y.toNat ≠ 0 := hb y (by simp)
      simp [strcmp, hy]
  | cons x a ih =>
    intro b ha hb
    have hx : x.toNat ≠ 0 := ha x (by simp)
    cases b with
    | nil =>
      have : ¬ ((x.toNat : Int) = 0) := by omega
      simp [strcmp, this]
    | cons y b =>
      by_cases hxy : x = y
      · subst hxy
        simp [strcmp, ih b (fun c hc => ha c (by simp [hc])) (fun c hc => hb c (by simp [hc]))]
      · have hne : x.toNat ≠ y.toNat := fun h => hxy (by rw [← Char.ofNat_toNat x, ← Char.ofNat_toNat y, h])
        have : ¬ ((x.toNat : Int) - (y.toNat : Int) = 0) := by omega
        simp [strcmp, hxy, this]

theorem strchr_first (host text : List Char) (c : Char) (hc : c ∉ host) :
    strchr (host ++ c :: text) c = some (c :: text) := by
  induction host with
  | nil => simp [strchr]
  | cons x host ih =>
    have hx : x ≠ c := fun h => hc (by simp [h])
    have hh : c ∉ host := fun h => hc (by simp [h])
    simp [strchr, hx, ih hh]

theorem strchr_none (s : List Char) (c : Char) (hc : c ∉ s) : strchr s c = none := by
  induction s with
  | nil => rfl
  | cons x s ih =>
    have hx : x ≠ c := fun h => hc (by simp [h])
    have hh : c ∉ s := fun h => hc (by simp [h])
    simp [strchr, hx, ih hh]

theorem strrchr_none (s : List Char) (c : Char) (hc : c ∉ s) : strrchr s c = none := by
  induction s with
  | nil => rfl
  | cons x s ih =>
    have hx : x ≠ c := fun h => hc (by simp [h])
    have hh : c ∉ s := fun h => hc (by simp [h])
    simp [strrchr, hx, ih hh]

theorem strrchr_last (stem suff : List Char) (c : Char) (hc : c ∉ suff) :
    strrchr (stem ++ c :: suff) c = some (c :: suff) := by
  induction stem with
  | nil => simp [strrchr, strrchr_none suff c hc]
  | cons x stem ih => simp [strrchr, ih]

/-- When `strtoll` converts something and stops at the end of the string, the
string is a decimal integer in the sense of the specification, with the value
`strtoll` yields. -/
theorem strtoll10_full (text : List Char) (hn : (strtoll10 text).2 ≠ 0)
    (hd : text.drop (strtoll10 text).2 = []) :
    decimalInteger text = some (strtoll10 text).1 := by
  have hu_le : (signBody (text.dropWhile isspace)).length ≤ text.length := by
    have h1 : (text.dropWhile isspace).length ≤ text.length :=
      (List.dropWhile_suffix _).length_le
    unfold signBody
    split
    · rw [List.length_tail]; omega
    · exact h1
  simp only [strtoll10, decimalInteger] at hn hd ⊢
  generalize signBody (text.dropWhile isspace) = u at hn hd hu_le ⊢
  by_cases hds : u.takeWhile isdigit = []
  · simp [hds] at hn
  · simp only [if_neg hds] at hn hd ⊢
    have hlen := List.drop_eq_nil_iff.mp hd
    have hpre : (u.takeWhile isdigit).length ≤ u.length :=
      (List.takeWhile_prefix _).length_le
    have hpos : 0 < (u.takeWhile isdigit).length := List.length_pos.mpr hds
    have hfull : u.takeWhile isdigit = u :=
      (List.takeWhile_prefix _).eq_of_length_le (by omega)
    have hall : u.all isdigit = true := by
      rw [List.all_eq_true]
      exact List.takeWhile_eq_self_iff.mp hfull
    have hune : u ≠ [] := by
      intro h
      rw [h] at hds
      exact hds rfl
    rw [hfull]
    rw [if_pos ⟨hune, hall⟩]

/-- A port text that is not a decimal integer in `[1, 65535]` makes
`strtonum` yield 0. -/
theorem strtonum_not_port (text : List Char) (h : isPortText text = false) :
    (strtonum text 1 UINT16_MAX).1 = 0 := by
  unfold strtonum
  rw [if_neg (by decide)]
  by_cases h1 : (strtoll10 text).2 = 0 ∨ text.drop (strtoll10 text).2 ≠ []
  · simp only [if_pos h1]
  · simp only [if_neg h1]
    by_cases h2 : (strtoll10 text).1 < 1
    · simp only [if_pos h2]
    · simp only [if_neg h2]
      by_cases h3 : (strtoll10 text).1 > UINT16_MAX
      · simp only [if_pos h3]
      · exfalso
        have hn : (strtoll10 text).2 ≠ 0 := fun hz => h1 (Or.inl hz)
        have hd : text.drop (strtoll10 text).2 = [] := by
          by_contra hne
          exact h1 (Or.inr hne)
        have hdec := strtoll10_full text hn hd
        unfold isPortText at h
        rw [hdec] at h
        unfold UINT16_MAX at h3
        simp at h
        omega

/-- A port text that is a decimal integer in `[1, 65535]` makes `strtonum`
yield that integer. -/
theorem strtonum_port (text : List Char) (h : isPortText text = true) :
    1 ≤ (strtonum text 1 UINT16_MAX).1 ∧ (strtonum text 1 UINT16_MAX).1 ≤ 65535 := by
  have hu_le : (signBody (text.dropWhile isspace)).length ≤ text.length := by
    have h1 : (text.dropWhile isspace).length ≤ text.length :=
      (List.dropWhile_suffix _).length_le
    unfold signBody
    split
    · rw [List.length_tail]; omega
    · exact h1
  unfold isPortText at h
  unfold strtonum
  rw [if_neg (by decide)]
  simp only [strtoll10, decimalInteger] at h ⊢
  generalize signBody (text.dropWhile isspace) = u at h hu_le ⊢
  by_cases hb : u ≠ [] ∧ u.all isdigit = true
  · obtain ⟨hne, hall⟩ := hb
    have hfull : u.takeWhile isdigit = u :=
      List.takeWhile_eq_self_iff.mpr (List.all_eq_true.mp hall)
    have hpos : 0 < u.length := List.length_pos.mpr hne
    rw [if_pos ⟨hne, hall⟩] at h
    simp only [Bool.and_eq_true, decide_eq_true_eq] at h
    simp only [hfull, if_neg hne, Nat.sub_self, Nat.sub_zero, List.drop_length]
    have hlen : ¬ text.length = 0 := by omega
    unfold UINT16_MAX
    rw [if_neg (by simp [hlen]), if_neg (by omega), if_neg (by omega)]
    exact h
  · rw [if_neg hb] at h
    exact absurd h (by simp)

/-- A specification `host:text` is taken as a network endpoint. -/
theorem rtpopen_net (sys : Sys) (g : Globals) (host text : List Char) (flags : Nat)
    (hnul : ∀ c ∈ host ++ ':' :: text, c.toNat ≠ 0) (hc : ':' ∉ host) :
    rtpopen sys g (host ++ ':' :: text) flags = rtpopenNet sys g host text flags := by
  have hdash : ¬ strcmp (host ++ ':' :: text) ['-'] = 0 := by
    intro h
    have heq := (strcmp_eq_zero_iff _ ['-'] hnul (by decide)).mp h
    have hmem : ':' ∈ host ++ ':' :: text := by simp
    rw [heq] at hmem
    revert hmem
    decide
  have htake : (host ++ ':' :: text).take
      ((host ++ ':' :: text).length - (':' :: text).length) = host := by
    have : (host ++ ':' :: text).length - (':' :: text).length = host.length := by
      simp
    rw [this]
    exact List.take_left' rfl
  unfold rtpopen
  rw [if_neg hdash, strchr_first host text ':' hc]
  simp only [htake, List.tail_cons]

/-- A specification other than `-` without a colon is taken as a path. -/
theorem rtpopen_path (sys : Sys) (g : Globals) (path : List Char) (flags : Nat)
    (hnul : ∀ c ∈ path, c.toNat ≠ 0) (hdash : path ≠ ['-']) (hc : ':' ∉ path) :
    rtpopen sys g path flags = rtpopenPath sys g path flags := by
  have hd : ¬ strcmp path ['-'] = 0 := fun h =>
    hdash ((strcmp_eq_zero_iff _ ['-'] hnul (by decide)).mp h)
  unfold rtpopen
  rw [if_neg hd, strchr_none path ':' hc]

/-- C7: for every specification `host:text` (the first colon splits it) and
either direction, if `text` is not a decimal integer in `[1, 65535]`,
`rtpopen` returns -1 having made no system call at all (so no socket is
created) and leaves the input and output formats as they were. -/
theorem C7_rtpopen_bad_port (sys : Sys) (g : Globals) (host text : List Char) (flags : Nat)
    (hnul : ∀ c ∈ host ++ ':' :: text, c.toNat ≠ 0) (hc : ':' ∉ host)
    (hport : isPortText text = false) :
    (rtpopen sys g (host ++ ':' :: text) flags).ret = -1
    ∧ (rtpopen sys g (host ++ ':' :: text) flags).ifmt = g.ifmt
    ∧ (rtpopen sys g (host ++ ':' :: text) flags).ofmt = g.ofmt
    ∧ Event.socket ∉ (rtpopen sys g (host ++ ':' :: text) flags).trace
    ∧ (rtpopen sys g (host ++ ':' :: text) flags).trace
        = [Event.warn (OpenWarning.portNumber (strtonum text 1 UINT16_MAX).2)] := by
  rw [rtpopen_net sys g host text flags hnul hc]
  unfold rtpopenNet
  simp [strtonum_not_port text hport]

/-- C7 witness: `127.0.0.1:0` fails. -/
theorem C7_rtpopen_bad_port_witness :
    (rtpopen ⟨fun _ _ => (0, some 2130706433), 3, 0, 0, 0, 0, 1, fun _ _ => 4⟩
      ⟨0, [], format_t.FORMAT_NONE, format_t.FORMAT_NONE⟩
      (['1', '2', '7', '.', '0', '.', '0', '.', '1'] ++ ':' :: ['0']) O_RDONLY).ret = -1 :=
  (C7_rtpopen_bad_port ⟨fun _ _ => (0, some 2130706433), 3, 0, 0, 0, 0, 1, fun _ _ => 4⟩
    ⟨0, [], format_t.FORMAT_NONE, format_t.FORMAT_NONE⟩
    ['1', '2', '7', '.', '0', '.', '0', '.', '1'] ['0'] O_RDONLY
    (by decide) (by decide) (by decide)).1

/-- With `bind`, `connect` and `send` succeeding, lines 168-207 do not jump to
`bad`. -/
theorem rtpopenConnect_ok (sys : Sys) (g : Globals) (a : Nat) (port : Int) (flags : Nat)
    (fd : Int) (hbind : sys.bind ≠ -1) (hconn : sys.connect ≠ -1) (hsend : sys.send = 1) :
    (rtpopenConnect sys g a port flags fd).1 = true := by
  unfold rtpopenConnect
  split_ifs <;> simp_all

/-- On a network endpoint `host:text`, with the port parsed and the socket
steps (`getaddrinfo`, `socket`, `bind`, `connect`, `send`) succeeding: if the
format of the side being opened was not set it becomes `FORMAT_NET` and the
call returns the socket; if it was `FORMAT_NET` the call returns the socket
and it stays `FORMAT_NET`; if it was any other format the call frees the
result list a second time on its way to returning -1. -/
theorem rtpopen_net_format (sys : Sys) (g : Globals) (host text : List Char)
    (flags a : Nat)
    (hnul : ∀ c ∈ host ++ ':' :: text, c.toNat ≠ 0) (hc : ':' ∉ host)
    (hport : isPortText text = true)
    (hgai : sys.getaddrinfo (if host = [] then none else some host) text = (0, some a))
    (hsock : sys.socket ≠ -1) (hbind : sys.bind ≠ -1) (hconn : sys.connect ≠ -1)
    (hsend : sys.send = 1) :
    (flags &&& O_CREAT ≠ 0 →
      (g.ofmt = format_t.FORMAT_NONE ∨ g.ofmt = format_t.FORMAT_NET →
        (rtpopen sys g (host ++ ':' :: text) flags).ret = sys.socket
        ∧ (rtpopen sys g (host ++ ':' :: text) flags).ofmt = format_t.FORMAT_NET
        ∧ (rtpopen sys g (host ++ ':' :: text) flags).doubleFree = false)
      ∧ (g.ofmt ≠ format_t.FORMAT_NONE → g.ofmt ≠ format_t.FORMAT_NET →
        (rtpopen sys g (host ++ ':' :: text) flags).doubleFree = true))
    ∧ (flags &&& O_CREAT = 0 →
      (g.ifmt = format_t.FORMAT_NONE ∨ g.ifmt = format_t.FORMAT_NET →
        (rtpopen sys g (host ++ ':' :: text) flags).ret = sys.socket
        ∧ (rtpopen sys g (host ++ ':' :: text) flags).ifmt = format_t.FORMAT_NET
        ∧ (rtpopen sys g (host ++ ':' :: text) flags).doubleFree = false)
      ∧ (g.ifmt ≠ format_t.FORMAT_NONE → g.ifmt ≠ format_t.FORMAT_NET →
        (rtpopen sys g (host ++ ':' :: text) flags).doubleFree = true)) := by
  have hport : (strtonum text 1 UINT16_MAX).1 % 4294967296 ≠ 0 := by
    have hp := strtonum_port text hport
    omega
  have hok := rtpopenConnect_ok sys g a ((strtonum text 1 UINT16_MAX).1 % 4294967296) flags
    sys.socket hbind hconn hsend
  have hnet : rtpopen sys g (host ++ ':' :: text) flags
      = rtpopenNetFormat g flags sys.socket
          ([Event.getaddrinfo (if host = [] then none else some host) text, Event.socket,
              Event.setsockopt sys.socket]
            ++ (if sys.setsockopt = -1 then [Event.warn OpenWarning.reuseaddr] else [])
            ++ (rtpopenConnect sys g a ((strtonum text 1 UINT16_MAX).1 % 4294967296) flags
                  sys.socket).2) := by
    rw [rtpopen_net sys g host text flags hnul hc]
    unfold rtpopenNet
    simp only [if_neg hport, hgai, if_neg hsock, hok, if_true, ne_eq, not_true_eq_false,
      if_false]
  rw [hnet]
  unfold rtpopenNetFormat rtpopenBad
  refine ⟨fun hw => ⟨?_, ?_⟩, fun hr => ⟨?_, ?_⟩⟩
  · rintro (h | h) <;> simp [hw, h]
  · intro h1 h2
    simp [hw, h1, h2]
  · rintro (h | h) <;> simp [hr, h]
  · intro h1 h2
    simp [hr, h1, h2]

/-- C8 (code defect): the input `10.0.0.1:5004` is opened for reading with the
input format set to capture file, and the socket steps succeed. The call
frees the result list of `getaddrinfo` (line 208), reports that only net input
is allowed and jumps to `bad`, where the list is freed a second time: the
call does not simply fail with -1. With the format not set or set to net the
list is freed once. -/
theorem C8_rtpopen_conflict_double_free :
    (rtpopen ⟨fun _ _ => (0, some 167772161), 3, 0, 0, 0, 0, 1, fun _ _ => 4⟩
      ⟨0, [], format_t.FORMAT_DUMP, format_t.FORMAT_NONE⟩
      ['1', '0', '.', '0', '.', '0', '.', '1', ':', '5', '0', '0', '4'] O_RDONLY).doubleFree
        = true
    ∧ (rtpopen ⟨fun _ _ => (0, some 167772161), 3, 0, 0, 0, 0, 1, fun _ _ => 4⟩
      ⟨0, [], format_t.FORMAT_DUMP, format_t.FORMAT_NONE⟩
      ['1', '0', '.', '0', '.', '0', '.', '1', ':', '5', '0', '0', '4'] O_RDONLY).trace
        = [Event.getaddrinfo (some ['1', '0', '.', '0', '.', '0', '.', '1'])
              ['5', '0', '0', '4'],
            Event.socket, Event.setsockopt 3, Event.connect 3, Event.send 3,
            Event.freeaddrinfo, Event.warn OpenWarning.onlyNetInput, Event.freeaddrinfo,
            Event.close 3]
    ∧ (rtpopen ⟨fun _ _ => (0, some 167772161), 3, 0, 0, 0, 0, 1, fun _ _ => 4⟩
      ⟨0, [], format_t.FORMAT_NET, format_t.FORMAT_NONE⟩
      ['1', '0', '.', '0', '.', '0', '.', '1', ':', '5', '0', '0', '4'] O_RDONLY)
        = { ret := 3, ifmt := format_t.FORMAT_NET, ofmt := format_t.FORMAT_NONE,
            trace := [Event.getaddrinfo (some ['1', '0', '.', '0', '.', '0', '.', '1'])
                ['5', '0', '0', '4'],
              Event.socket, Event.setsockopt 3, Event.connect 3, Event.send 3,
              Event.freeaddrinfo],
            doubleFree := false } := by
  decide

/-- `fmtbysuff` looks the suffix up in the specification's suffix table. -/
theorem fmtbysuff_eq_lookup (suff : List Char) (hnul : ∀ c ∈ suff, c.toNat ≠ 0) :
    fmtbysuff suff = (suffixTable.lookup suff).getD format_t.FORMAT_NONE := by
  have h1 := strcmp_eq_zero_iff ['r', 't', 'p'] suff (by decide) hnul
  have h2 := strcmp_eq_zero_iff ['r', 'a', 'w'] suff (by decide) hnul
  have h3 := strcmp_eq_zero_iff ['t', 'x', 't'] suff (by decide) hnul
  by_cases e1 : ['r', 't', 'p'] = suff
  · subst e1
    rfl
  · by_cases e2 : ['r', 'a', 'w'] = suff
    · subst e2
      rfl
    · by_cases e3 : ['t', 'x', 't'] = suff
      · subst e3
        rfl
      · have n1 : ¬ strcmp ['r', 't', 'p'] suff = 0 := fun h => e1 (h1.mp h)
        have n2 : ¬ strcmp ['r', 'a', 'w'] suff = 0 := fun h => e2 (h2.mp h)
        have n3 : ¬ strcmp ['t', 'x', 't'] suff = 0 := fun h => e3 (h3.mp h)
        have b1 : (suff == ['r', 't', 'p']) = false := by
          rw [beq_eq_false_iff_ne]; exact fun h => e1 h.symm
        have b2 : (suff == ['r', 'a', 'w']) = false := by
          rw [beq_eq_false_iff_ne]; exact fun h => e2 h.symm
        have b3 : (suff == ['t', 'x', 't']) = false := by
          rw [beq_eq_false_iff_ne]; exact fun h => e3 h.symm
        simp only [fmtbysuff, formats, fmtbysuffFrom, n1, n2, n3, if_false, suffixTable,
          List.lookup, b1, b2, b3, Option.getD]

/-- The format that the path branch infers from the suffix is the one the
specification infers, and is never `FORMAT_NET`. -/
theorem inferred_of_suffix (suff : List Char) (hnul : ∀ c ∈ suff, c.toNat ≠ 0)
    (fallback : format_t) :
    (if fmtbysuff suff ≠ format_t.FORMAT_NONE then fmtbysuff suff else fallback)
      = inferredFormat (some suff) fallback := by
  rw [fmtbysuff_eq_lookup suff hnul]
  unfold inferredFormat
  by_cases e1 : suff = ['r', 't', 'p']
  · subst e1; rfl
  · by_cases e2 : suff = ['r', 'a', 'w']
    · subst e2; rfl
    · by_cases e3 : suff = ['t', 'x', 't']
      · subst e3; rfl
      · have b1 : (suff == ['r', 't', 'p']) = false := by
          rw [beq_eq_false_iff_ne]; exact e1
        have b2 : (suff == ['r', 'a', 'w']) = false := by
          rw [beq_eq_false_iff_ne]; exact e2
        have b3 : (suff == ['t', 'x', 't']) = false := by
          rw [beq_eq_false_iff_ne]; exact e3
        simp [suffixTable, List.lookup, b1, b2, b3]

theorem inferredFormat_ne_net (suff : Option (List Char)) (fallback : format_t)
    (hf : fallback ≠ format_t.FORMAT_NET) :
    inferredFormat suff fallback ≠ format_t.FORMAT_NET := by
  unfold inferredFormat
  cases suff with
  | none => exact hf
  | some s =>
    by_cases e1 : s = ['r', 't', 'p']
    · subst e1; show format_t.FORMAT_DUMP ≠ format_t.FORMAT_NET; decide
    · by_cases e2 : s = ['r', 'a', 'w']
      · subst e2; show format_t.FORMAT_RAW ≠ format_t.FORMAT_NET; decide
      · by_cases e3 : s = ['t', 'x', 't']
        · subst e3; show format_t.FORMAT_TXT ≠ format_t.FORMAT_NET; decide
        · have b1 : (s == ['r', 't', 'p']) = false := by
            rw [beq_eq_false_iff_ne]; exact e1
          have b2 : (s == ['r', 'a', 'w']) = false := by
            rw [beq_eq_false_iff_ne]; exact e2
          have b3 : (s == ['t', 'x', 't']) = false := by
            rw [beq_eq_false_iff_ne]; exact e3
          simpa [suffixTable, List.lookup, b1, b2, b3] using hf

theorem fmtbysuff_ne_net (suff : List Char) : fmtbysuff suff ≠ format_t.FORMAT_NET := by
  unfold fmtbysuff formats
  simp only [fmtbysuffFrom]
  split_ifs <;> decide

/-- The format `fmt` that the path branch computes from the path (rtp.c:231-232). -/
theorem suffix_fmt_cases (path : List Char) (hnul : ∀ c ∈ path, c.toNat ≠ 0)
    (fallback : format_t) (hf : fallback ≠ format_t.FORMAT_NET) :
    (∀ stem suff, path = stem ++ '.' :: suff → '.' ∉ suff →
      (if (match strrchr path '.' with
            | some p => fmtbysuff p.tail
            | none => format_t.FORMAT_NONE) ≠ format_t.FORMAT_NONE
        then (match strrchr path '.' with
            | some p => fmtbysuff p.tail
            | none => format_t.FORMAT_NONE)
        else fallback) = inferredFormat (some suff) fallback)
    ∧ ('.' ∉ path →
      (if (match strrchr path '.' with
            | some p => fmtbysuff p.tail
            | none => format_t.FORMAT_NONE) ≠ format_t.FORMAT_NONE
        then (match strrchr path '.' with
            | some p => fmtbysuff p.tail
            | none => format_t.FORMAT_NONE)
        else fallback) = inferredFormat none fallback)
    ∧ (if (match strrchr path '.' with
            | some p => fmtbysuff p.tail
            | none => format_t.FORMAT_NONE) ≠ format_t.FORMAT_NONE
        then (match strrchr path '.' with
            | some p => fmtbysuff p.tail
            | none => format_t.FORMAT_NONE)
        else fallback) ≠ format_t.FORMAT_NET := by
  refine ⟨?_, ?_, ?_⟩
  · intro stem suff hp hdot
    subst hp
    rw [strrchr_last stem suff '.' hdot]
    exact inferred_of_suffix suff (fun c hc => hnul c (by simp [hc])) fallback
  · intro hdot
    rw [strrchr_none path '.' hdot]
    simp [inferredFormat]
  · cases strrchr path '.' with
    | none => simpa using hf
    | some p =>
      simp only []
      split_ifs
      · exact fmtbysuff_ne_net _
      · exact hf

/-- C9: on a path endpoint (not `-`, no colon) that opens, when no format was
requested for the side being opened, the resolved format is the suffix
table's entry for the text after the last dot of the path; without a dot, or
with a suffix that is not in the table, it is `FORMAT_DUMP` for reading and
`FORMAT_TXT` for writing. `FORMAT_NET` is never inferred. -/
theorem C9_rtpopen_path_format (sys : Sys) (g : Globals) (path : List Char) (flags : Nat)
    (hnul : ∀ c ∈ path, c.toNat ≠ 0) (hdash : path ≠ ['-']) (hc : ':' ∉ path)
    (hopen : sys.openFile path flags ≠ -1) :
    (flags &&& O_CREAT = 0 → g.ifmt = format_t.FORMAT_NONE →
      (∀ stem suff, path = stem ++ '.' :: suff → '.' ∉ suff →
        (rtpopen sys g path flags).ifmt = inferredFormat (some suff) format_t.FORMAT_DUMP)
      ∧ ('.' ∉ path →
        (rtpopen sys g path flags).ifmt = inferredFormat none format_t.FORMAT_DUMP)
      ∧ (rtpopen sys g path flags).ifmt ≠ format_t.FORMAT_NET)
    ∧ (flags &&& O_CREAT ≠ 0 → g.ofmt = format_t.FORMAT_NONE →
      (∀ stem suff, path = stem ++ '.' :: suff → '.' ∉ suff →
        (rtpopen sys g path flags).ofmt = inferredFormat (some suff) format_t.FORMAT_TXT)
      ∧ ('.' ∉ path →
        (rtpopen sys g path flags).ofmt = inferredFormat none format_t.FORMAT_TXT)
      ∧ (rtpopen sys g path flags).ofmt ≠ format_t.FORMAT_NET) := by
  rw [rtpopen_path sys g path flags hnul hdash hc]
  constructor
  · intro hr hi
    have hcond : ¬ (flags &&& O_CREAT ≠ 0 ∧ g.ofmt = format_t.FORMAT_NONE) :=
      fun h => h.1 hr
    have hres : (rtpopenPath sys g path flags).ifmt
        = (if (match strrchr path '.' with
              | some p => fmtbysuff p.tail
              | none => format_t.FORMAT_NONE) ≠ format_t.FORMAT_NONE
          then (match strrchr path '.' with
              | some p => fmtbysuff p.tail
              | none => format_t.FORMAT_NONE)
          else format_t.FORMAT_DUMP) := by
      unfold rtpopenPath
      simp only [if_neg hopen, if_neg hcond, if_pos hi]
    rw [hres]
    exact suffix_fmt_cases path hnul format_t.FORMAT_DUMP (by decide)
  · intro hw ho
    have hres : (rtpopenPath sys g path flags).ofmt
        = (if (match strrchr path '.' with
              | some p => fmtbysuff p.tail
              | none => format_t.FORMAT_NONE) ≠ format_t.FORMAT_NONE
          then (match strrchr path '.' with
              | some p => fmtbysuff p.tail
              | none => format_t.FORMAT_NONE)
          else format_t.FORMAT_TXT) := by
      unfold rtpopenPath
      simp only [if_neg hopen, if_pos (And.intro hw ho)]
    rw [hres]
    exact suffix_fmt_cases path hnul format_t.FORMAT_TXT (by decide)

/-- C9 witness: `a.raw` opened for writing resolves to `FORMAT_RAW`. -/
theorem C9_rtpopen_path_format_witness :
    (rtpopen ⟨fun _ _ => (0, none), 3, 0, 0, 0, 0, 1, fun _ _ => 4⟩
        ⟨0, [], format_t.FORMAT_DUMP, format_t.FORMAT_NONE⟩ (['a'] ++ '.' :: ['r', 'a', 'w'])
        577).ofmt = inferredFormat (some ['r', 'a', 'w']) format_t.FORMAT_TXT
    ∧ inferredFormat (some ['r', 'a', 'w']) format_t.FORMAT_TXT = format_t.FORMAT_RAW
    ∧ inferredFormat (some ['r', 't', 'p']) format_t.FORMAT_TXT = format_t.FORMAT_DUMP
    ∧ inferredFormat (some ['t', 'x', 't']) format_t.FORMAT_DUMP = format_t.FORMAT_TXT
    ∧ inferredFormat (some ['m', 'p', '3']) format_t.FORMAT_DUMP = format_t.FORMAT_DUMP :=
  ⟨((C9_rtpopen_path_format ⟨fun _ _ => (0, none), 3, 0, 0, 0, 0, 1, fun _ _ => 4⟩
      ⟨0, [], format_t.FORMAT_DUMP, format_t.FORMAT_NONE⟩ (['a'] ++ '.' :: ['r', 'a', 'w']) 577
      (by decide) (by decide) (by decide) (by decide)).2 (by decide) rfl).1
        ['a'] ['r', 'a', 'w'] rfl (by decide),
    by decide, by decide, by decide, by decide⟩

/-- C10: whatever the specification and the direction, a format that is
already set for the side being opened (`ifmt` for reading, `ofmt` for
writing) is the same after `rtpopen`, whether the call succeeds or fails. -/
theorem C10_rtpopen_format_immutable (sys : Sys) (g : Globals) (path : List Char)
    (flags : Nat) :
    (flags &&& O_CREAT = 0 → g.ifmt ≠ format_t.FORMAT_NONE →
      (rtpopen sys g path flags).ifmt = g.ifmt)
    ∧ (flags &&& O_CREAT ≠ 0 → g.ofmt ≠ format_t.FORMAT_NONE →
      (rtpopen sys g path flags).ofmt = g.ofmt) := by
  constructor
  · intro hr hi
    unfold rtpopen rtpopenNet rtpopenPath rtpopenNetFormat rtpopenBad
    simp only [hr, ne_eq, not_true_eq_false, if_false, false_and, hi]
    repeat' split
    all_goals rfl
  · intro hw ho
    unfold rtpopen rtpopenNet rtpopenPath rtpopenNetFormat rtpopenBad
    simp only [hw, ne_eq, not_false_eq_true, if_true, ho, and_false, if_false]
    repeat' split
    all_goals rfl

/-- C10 witness: an input `10.0.0.1:5004` with the input format already set to
`FORMAT_RAW` is refused (on the way the result list is freed twice) and the
input format is still `FORMAT_RAW`. -/
theorem C10_rtpopen_format_immutable_witness :
    (rtpopen ⟨fun _ _ => (0, some 167772161), 3, 0, 0, 0, 0, 1, fun _ _ => 4⟩
      ⟨0, [], format_t.FORMAT_RAW, format_t.FORMAT_NONE⟩
      ['1', '0', '.', '0', '.', '0', '.', '1', ':', '5', '0', '0', '4'] O_RDONLY).ifmt
        = format_t.FORMAT_RAW
    ∧ (rtpopen ⟨fun _ _ => (0, some 167772161), 3, 0, 0, 0, 0, 1, fun _ _ => 4⟩
      ⟨0, [], format_t.FORMAT_RAW, format_t.FORMAT_NONE⟩
      ['1', '0', '.', '0', '.', '0', '.', '1', ':', '5', '0', '0', '4'] O_RDONLY).doubleFree
        = true :=
  ⟨(C10_rtpopen_format_immutable
      ⟨fun _ _ => (0, some 167772161), 3, 0, 0, 0, 0, 1, fun _ _ => 4⟩
      ⟨0, [], format_t.FORMAT_RAW, format_t.FORMAT_NONE⟩
      ['1', '0', '.', '0', '.', '0', '.', '1', ':', '5', '0', '0', '4'] O_RDONLY).1
      (by decide) (by decide),
    by decide⟩

/-! ## Theorems: conversion pipelines -/

/-- At the end of the stream `read_dump` goes on to test the record length
that the buffer held before the call. -/
theorem read_dump_eof (le : Bool) (buf : List Nat) (len : Nat) (hlen : DPKTHDRSIZE ≤ len)
    (hsz : len < SIZE) :
    read_dump le [] buf len =
      if len < (ld16 le buf 0 + SIZE - DPKTHDRSIZE) % SIZE then
        { ret := -1, buf := buf, fd := [], warns := [CodecWarning.bufferFull] }
      else { ret := 0, buf := buf, fd := [], warns := [], printed := [print_dpkthdr le buf] } := by
  have hl : ¬ len < DPKTHDRSIZE := Nat.not_lt.mpr hlen
  have hlen1 : (((len : Int) - 0) % (SIZE : Int)).toNat = len := by
    rw [Int.sub_zero, Int.emod_eq_of_lt (by omega) (by exact_mod_cast hsz)]
    rfl
  have hstore : store buf 0 [] = buf := by simp [store]
  unfold read_dump
  simp only [read_dpkthdr, if_neg hl, read, List.take_nil, List.length_nil, List.drop_nil,
    hstore, Nat.cast_zero, if_true]
  simp only [hlen1]
  split_ifs <;> simp_all [store]

theorem getD_drop (l : List Nat) (n i : Nat) : (l.drop n).getD i 0 = l.getD (n + i) 0 := by
  simp only [List.getD_eq_getElem?_getD, List.getElem?_drop]

theorem getD_append_left (l t : List Nat) (i : Nat) (h : i < l.length) :
    (l ++ t).getD i 0 = l.getD i 0 := by
  simp only [List.getD_eq_getElem?_getD, List.getElem?_append_left h]

/-- A record that fits is read whole by `read_dump`: the header fields are
decoded, the line of the record is printed, and the payload lies behind the
header in the buffer, followed by what the buffer held there before. -/
theorem read_dump_encode (le : Bool) (r : Record) (rest buf : List Nat) (hf : r.fits) :
    ∃ buf1, read_dump le (r.encode ++ rest) buf BUFLEN
        = { ret := r.dlen, buf := buf1, fd := rest, warns := [], printed := [r.line] }
      ∧ ld16 le buf1 0 = r.dlen ∧ ld16 le buf1 2 = r.plen ∧ ld32 le buf1 4 = r.msec
      ∧ buf1.drop DPKTHDRSIZE = r.payload ++ (buf.drop 8).drop r.payload.length
      ∧ print_dpkthdr le buf1 = r.line := by
  obtain ⟨hd, hp, hm, -⟩ := hf
  have hdl : DPKTHDRSIZE + r.payload.length ≤ 8192 := hd
  unfold DPKTHDRSIZE at hdl
  have e0 : be16 (r.dlen / 256 % 256) (r.dlen % 256) = r.dlen := by
    unfold be16 Record.dlen DPKTHDRSIZE; omega
  have e1 : be16 (r.plen / 256 % 256) (r.plen % 256) = r.plen := by
    unfold be16; omega
  have e2 : be32 (r.msec / 16777216 % 256) (r.msec / 65536 % 256) (r.msec / 256 % 256)
      (r.msec % 256) = r.msec := by
    unfold be32; omega
  have hdlen : r.dlen = 8 + r.payload.length := rfl
  obtain ⟨x0, x1, x2, x3, x4, x5, x6, x7, v0, v1, v2, hr⟩ :=
    read_dump_record le (r.dlen / 256 % 256) (r.dlen % 256) (r.plen / 256 % 256)
      (r.plen % 256) (r.msec / 16777216 % 256) (r.msec / 65536 % 256) (r.msec / 256 % 256)
      (r.msec % 256) (r.payload ++ rest) buf BUFLEN (by decide) (by decide)
      (Nat.mod_lt _ (by norm_num)) (Nat.mod_lt _ (by norm_num)) (Nat.mod_lt _ (by norm_num))
      (Nat.mod_lt _ (by norm_num)) (Nat.mod_lt _ (by norm_num)) (Nat.mod_lt _ (by norm_num))
      (Nat.mod_lt _ (by norm_num)) (Nat.mod_lt _ (by norm_num))
      (by rw [e0, hdlen]; unfold DPKTHDRSIZE; omega)
  rw [e0, e1, e2] at hr
  rw [e0] at v0
  rw [e1] at v1
  rw [e2] at v2
  have hnf : ¬ BUFLEN - 8 < r.dlen - 8 := by
    rw [hdlen]; unfold BUFLEN; omega
  have hsub : r.dlen - 8 = r.payload.length := by rw [hdlen]; omega
  rw [if_neg hnf, hsub, List.take_left' rfl, List.drop_left' rfl] at hr
  have hret : (8 : Int) + ((r.payload.length : Nat) : Int) = ((r.dlen : Nat) : Int) := by
    rw [hdlen]
    push_cast
    rfl
  have g0 : ld16 le (x0 :: x1 :: x2 :: x3 :: x4 :: x5 :: x6 :: x7 ::
      (r.payload ++ List.drop r.payload.length (List.drop 8 buf))) 0 = r.dlen := by
    simpa [ld16] using v0
  have g1 : ld16 le (x0 :: x1 :: x2 :: x3 :: x4 :: x5 :: x6 :: x7 ::
      (r.payload ++ List.drop r.payload.length (List.drop 8 buf))) 2 = r.plen := by
    simpa [ld16] using v1
  have g2 : ld32 le (x0 :: x1 :: x2 :: x3 :: x4 :: x5 :: x6 :: x7 ::
      (r.payload ++ List.drop r.payload.length (List.drop 8 buf))) 4 = r.msec := by
    simpa [ld32] using v2
  refine ⟨x0 :: x1 :: x2 :: x3 :: x4 :: x5 :: x6 :: x7 ::
    (r.payload ++ List.drop r.payload.length (List.drop 8 buf)), ?_, g0, g1, g2, ?_, ?_⟩
  · show read_dump le (_ :: _ :: _ :: _ :: _ :: _ :: _ :: _ :: (r.payload ++ rest)) buf BUFLEN
        = _
    unfold Record.line
    rw [hr, hret]
  · simp [DPKTHDRSIZE]
  · unfold print_dpkthdr Record.line
    rw [g0, g1, g2]

/-- Only the first `count` bytes handed to `send` or `write` matter. -/
theorem emit_take (c : Conv) (st : Pipe) (data : List Nat) (want : Int) :
    emit c st data want = emit c st (data.take (want % (SIZE : Int)).toNat) want := by
  unfold emit
  simp only [List.take_take, min_self]

theorem emit_congr (c : Conv) (st : Pipe) (d1 d2 : List Nat) (want : Int)
    (h : d1.take (want % (SIZE : Int)).toNat = d2.take (want % (SIZE : Int)).toNat) :
    emit c st d1 want = emit c st d2 want := by
  rw [emit_take c st d1, emit_take c st d2, h]

theorem count_of_nat (n : Nat) (h : n < SIZE) : (((n : Nat) : Int) % (SIZE : Int)).toNat = n := by
  rw [Int.emod_eq_of_lt (by omega) (by exact_mod_cast h)]
  rfl

theorem payload_byte (r : Record) (hf : r.fits) (i : Nat) (hi : i < r.payload.length) :
    r.payload.getD i 0 < 256 := by
  rw [List.getD_eq_getElem _ _ hi]
  exact hf.2.2.2 _ (List.getElem_mem _)

/-- The RTP timestamp that `dump2net` reads from the buffer is the one of the
record, when the record holds it. -/
theorem buffer_ts (le : Bool) (r : Record) (hf : r.fits) (buf1 stale : List Nat)
    (h8 : 8 ≤ r.payload.length) (hdrop : buf1.drop DPKTHDRSIZE = r.payload ++ stale) :
    ntohl le (ld32 le buf1 (DPKTHDRSIZE + 4)) = r.ts := by
  have hg : ∀ i, i < r.payload.length → buf1.getD (DPKTHDRSIZE + i) 0 = r.payload.getD i 0 := by
    intro i hi
    rw [← getD_drop, hdrop, getD_append_left _ _ _ hi]
  unfold ld32 Record.ts
  rw [show DPKTHDRSIZE + 4 + 1 = DPKTHDRSIZE + 5 from rfl,
    show DPKTHDRSIZE + 4 + 2 = DPKTHDRSIZE + 6 from rfl,
    show DPKTHDRSIZE + 4 + 3 = DPKTHDRSIZE + 7 from rfl,
    hg 4 (by omega), hg 5 (by omega), hg 6 (by omega), hg 7 (by omega)]
  exact ntohl_val32 le _ _ _ _ (payload_byte r hf 4 (by omega)) (payload_byte r hf 5 (by omega))
    (payload_byte r hf 6 (by omega)) (payload_byte r hf 7 (by omega))

theorem selfContained_net (c : Conv) (r : Record) (h : r.selfContained c) :
    r.netContained c :=
  fun hz => ⟨(h hz).1, fun _ => (h hz).2.1, (h hz).2.2.1⟩

theorem selfContained_raw (c : Conv) (r : Record) (h : r.selfContained c) :
    r.rawContained c :=
  fun hz => ⟨(h hz).2.2.1, (h hz).2.2.2.1, (h hz).2.2.2.2⟩

/-- On a record that `dump2net` handles by its own bytes, the body of the loop
of `dump2net` does what the record alone determines. -/
theorem dump2netBody_record (c : Conv) (zero : Timeval) (st : Pipe) (r : Record)
    (buf1 stale : List Nat) (hf : r.fits) (hs : r.netContained c)
    (h2 : ld16 c.le buf1 2 = r.plen) (h4 : ld32 c.le buf1 4 = r.msec)
    (hdrop : buf1.drop DPKTHDRSIZE = r.payload ++ stale) :
    dump2netBody c zero buf1 st = netRecord c zero st r := by
  unfold dump2netBody netRecord
  simp only [h2, h4]
  by_cases hz : r.plen = 0
  · simp only [hz, if_true]
  · obtain ⟨hpl, h8, hstable⟩ := hs hz
    have hparse : c.parse_rtphdr (buf1.drop DPKTHDRSIZE) = c.parse_rtphdr r.payload := by
      rw [hdrop, hstable]
    have hcount : (((r.plen : Nat) : Int) % (SIZE : Int)).toNat = r.plen :=
      count_of_nat _ (by unfold SIZE; have := hf.2.1; omega)
    have hemit : ∀ s : Pipe, emit c s (buf1.drop DPKTHDRSIZE) r.plen = emit c s r.payload r.plen := by
      intro s
      apply emit_congr
      rw [hcount, hdrop, List.take_append_of_le_length hpl]
    by_cases hd : c.dumptime = 0
    · have hts := buffer_ts c.le r hf buf1 stale (h8 hd) hdrop
      simp only [if_neg hz, hts, hparse, hemit]
    · have hd2 : c.dumptime ≠ 0 := hd
      simp only [if_neg hz, if_pos hd2, hparse, hemit]

/-- On a record that `dump2raw` handles by its own bytes, the body of the loop
of `dump2raw` does what the record alone determines. -/
theorem dump2rawBody_record (c : Conv) (st : Pipe) (r : Record)
    (buf1 stale : List Nat) (hf : r.fits) (hs : r.rawContained c)
    (h2 : ld16 c.le buf1 2 = r.plen)
    (hdrop : buf1.drop DPKTHDRSIZE = r.payload ++ stale) :
    dump2rawBody c buf1 r.dlen st = rawRecord c st r := by
  unfold dump2rawBody rawRecord
  simp only [h2]
  by_cases hz : r.plen = 0
  · simp only [hz, if_true]
  · obtain ⟨hstable, hle, hge⟩ := hs hz
    have hparse : c.parse_rtphdr (buf1.drop DPKTHDRSIZE) = c.parse_rtphdr r.payload := by
      rw [hdrop, hstable]
    simp only [if_neg hz, hparse]
    by_cases hbad : c.parse_rtphdr r.payload = -1
    · simp only [hbad, if_true]
    · simp only [if_neg hbad]
      obtain ⟨k, hk⟩ : ∃ k : Nat, c.parse_rtphdr r.payload = (k : Int) :=
        ⟨(c.parse_rtphdr r.payload).toNat, by omega⟩
      rw [hk] at hle ⊢
      have hkl : k ≤ r.payload.length := by exact_mod_cast hle
      have hwant : ((r.dlen : Nat) : Int) - ((DPKTHDRSIZE : Int) + (k : Int))
          = (r.payload.length : Int) - (k : Int) := by
        unfold Record.dlen
        push_cast
        ring
      have hoff : ((DPKTHDRSIZE : Int) + (k : Int)).toNat = DPKTHDRSIZE + k := by omega
      have hcount : (((r.payload.length : Int) - (k : Int)) % (SIZE : Int)).toNat
          = r.payload.length - k := by
        have hlt : r.payload.length < SIZE := by
          have := hf.1
          unfold Record.dlen BUFLEN at this
          unfold SIZE
          omega
        rw [Int.emod_eq_of_lt (by omega) (by omega)]
        omega
      rw [hwant, hoff]
      apply emit_congr
      rw [hcount, ← List.drop_drop, hdrop, Int.toNat_ofNat,
        List.drop_append_of_le_length hkl,
        List.take_append_of_le_length (by rw [List.length_drop])]

/-- One round of the loop of `dump2net` on a record that fits and that
`dump2net` handles by its own bytes, whatever follows it in the stream and
whatever the buffer holds. -/
theorem dump2netLoop_step (c : Conv) (zero : Timeval) (r : Record) (rest : List Nat)
    (fuel : Nat) (buf : List Nat) (st : Pipe) (pr : List PacketLine)
    (hf : r.fits) (hs : r.netContained c) :
    ∃ buf1, dump2netLoop c zero (fuel + 1) (r.encode ++ rest) buf st pr
        = dump2netLoop c zero fuel rest buf1 (netRecord c zero st r) (pr ++ [r.line])
      ∧ ld16 c.le buf1 0 = r.dlen ∧ print_dpkthdr c.le buf1 = r.line := by
  obtain ⟨buf1, hr, h0, h2, h4, hdrop, hline⟩ := read_dump_encode c.le r rest buf hf
  refine ⟨buf1, ?_, h0, hline⟩
  have hpos : ((r.dlen : Nat) : Int) > 0 := by
    unfold Record.dlen DPKTHDRSIZE
    omega
  rw [dump2netLoop]
  simp only [hr, if_pos hpos]
  rw [dump2netBody_record c zero st r buf1 _ hf hs h2 h4 hdrop]

/-- One round of the loop of `dump2raw` on a record that fits and that
`dump2raw` handles by its own bytes. -/
theorem dump2rawLoop_step (c : Conv) (r : Record) (rest : List Nat)
    (fuel : Nat) (buf : List Nat) (st : Pipe) (pr : List PacketLine)
    (hf : r.fits) (hs : r.rawContained c) :
    ∃ buf1, dump2rawLoop c (fuel + 1) (r.encode ++ rest) buf st pr
        = dump2rawLoop c fuel rest buf1 (rawRecord c st r) (pr ++ [r.line])
      ∧ ld16 c.le buf1 0 = r.dlen ∧ print_dpkthdr c.le buf1 = r.line := by
  obtain ⟨buf1, hr, h0, h2, -, hdrop, hline⟩ := read_dump_encode c.le r rest buf hf
  refine ⟨buf1, ?_, h0, hline⟩
  have hpos : ((r.dlen : Nat) : Int) > 0 := by
    unfold Record.dlen DPKTHDRSIZE
    omega
  rw [dump2rawLoop]
  simp only [hr, if_pos hpos]
  rw [dump2rawBody_record c st r buf1 _ hf hs h2 hdrop]

/-- The header of a record that fits, left in the buffer, lets `read_dump`
see the end of the stream. -/
theorem fits_benign (le : Bool) (r : Record) (buf1 : List Nat) (hf : r.fits)
    (h0 : ld16 le buf1 0 = r.dlen) :
    ¬ BUFLEN < (ld16 le buf1 0 + SIZE - DPKTHDRSIZE) % SIZE := by
  have hd := hf.1
  rw [h0]
  unfold Record.dlen BUFLEN DPKTHDRSIZE SIZE at *
  omega

theorem encode_length (r : Record) : r.encode.length = 8 + r.payload.length := by
  simp [Record.encode]
  omega

/-- The loop of `dump2net` on a stream of records that fit and that `dump2net`
handles by their own bytes: it ends with the result 0 of `read_dump`, has
done, record by record, what `netRecord` says, and `read_dump` has printed the
lines of `printedLines`, provided that, when there is no record at all, the
record length that the buffer holds at first does not make `read_dump` fail at
the end of the stream. -/
theorem dump2netLoop_records (c : Conv) (zero : Timeval) (rs : List Record) :
    (∀ r ∈ rs, r.fits ∧ r.netContained c) →
    ∀ fuel buf st pr, (encodeRecords rs).length < fuel →
      (rs = [] → ¬ BUFLEN < (ld16 c.le buf 0 + SIZE - DPKTHDRSIZE) % SIZE) →
      dump2netLoop c zero fuel (encodeRecords rs) buf st pr
        = some (0, rs.foldl (netRecord c zero) st,
            pr ++ printedLines (print_dpkthdr c.le buf) rs) := by
  induction rs with
  | nil =>
    intro _ fuel buf st pr hfuel hben
    cases fuel with
    | zero => exact absurd hfuel (Nat.not_lt_zero _)
    | succ fuel =>
      rw [encodeRecords, dump2netLoop]
      simp only [read_dump_eof c.le buf BUFLEN (by decide) (by decide), if_neg (hben rfl)]
      simp [printedLines]
  | cons r rs ih =>
    intro hall fuel buf st pr hfuel hben
    have hr := hall r (List.mem_cons_self _ _)
    have hrs : ∀ x ∈ rs, x.fits ∧ x.netContained c :=
      fun x hx => hall x (List.mem_cons_of_mem _ hx)
    cases fuel with
    | zero => exact absurd hfuel (Nat.not_lt_zero _)
    | succ fuel =>
      obtain ⟨buf1, hstep, h0, hline⟩ :=
        dump2netLoop_step c zero r (encodeRecords rs) fuel buf st pr hr.1 hr.2
      rw [encodeRecords, hstep, List.foldl_cons]
      rw [ih hrs fuel buf1 _ _ (by
        rw [encodeRecords, List.length_append, encode_length] at hfuel
        omega) (fun _ => fits_benign c.le r buf1 hr.1 h0), hline]
      simp [printedLines]

/-- The loop of `dump2raw` on a stream of records that fit and that `dump2raw`
handles by their own bytes. -/
theorem dump2rawLoop_records (c : Conv) (rs : List Record) :
    (∀ r ∈ rs, r.fits ∧ r.rawContained c) →
    ∀ fuel buf st pr, (encodeRecords rs).length < fuel →
      (rs = [] → ¬ BUFLEN < (ld16 c.le buf 0 + SIZE - DPKTHDRSIZE) % SIZE) →
      dump2rawLoop c fuel (encodeRecords rs) buf st pr
        = some (0, rs.foldl (rawRecord c) st,
            pr ++ printedLines (print_dpkthdr c.le buf) rs) := by
  induction rs with
  | nil =>
    intro _ fuel buf st pr hfuel hben
    cases fuel with
    | zero => exact absurd hfuel (Nat.not_lt_zero _)
    | succ fuel =>
      rw [encodeRecords, dump2rawLoop]
      simp only [read_dump_eof c.le buf BUFLEN (by decide) (by decide), if_neg (hben rfl)]
      simp [printedLines]
  | cons r rs ih =>
    intro hall fuel buf st pr hfuel hben
    have hr := hall r (List.mem_cons_self _ _)
    have hrs : ∀ x ∈ rs, x.fits ∧ x.rawContained c :=
      fun x hx => hall x (List.mem_cons_of_mem _ hx)
    cases fuel with
    | zero => exact absurd hfuel (Nat.not_lt_zero _)
    | succ fuel =>
      obtain ⟨buf1, hstep, h0, hline⟩ :=
        dump2rawLoop_step c r (encodeRecords rs) fuel buf st pr hr.1 hr.2
      rw [encodeRecords, hstep, List.foldl_cons]
      rw [ih hrs fuel buf1 _ _ (by
        rw [encodeRecords, List.length_append, encode_length] at hfuel
        omega) (fun _ => fits_benign c.le r buf1 hr.1 h0), hline]
      simp [printedLines]

/-- The loop of `dump2raw` on a stream of records that fit and that `dump2raw`
handles by their own bytes, whatever the buffer holds at first: it ends, and
has done, record by record, what `rawRecord` says. -/
theorem dump2rawLoop_folds (c : Conv) (rs : List Record) :
    (∀ r ∈ rs, r.fits ∧ r.rawContained c) →
    ∀ fuel buf st pr, (encodeRecords rs).length < fuel →
      ∃ ret lines, dump2rawLoop c fuel (encodeRecords rs) buf st pr
        = some (ret, rs.foldl (rawRecord c) st, lines) := by
  induction rs with
  | nil =>
    intro _ fuel buf st pr hfuel
    cases fuel with
    | zero => exact absurd hfuel (Nat.not_lt_zero _)
    | succ fuel =>
      rw [encodeRecords, dump2rawLoop]
      by_cases hb : BUFLEN < (ld16 c.le buf 0 + SIZE - DPKTHDRSIZE) % SIZE
      · refine ⟨-1, pr, ?_⟩
        simp only [read_dump_eof c.le buf BUFLEN (by decide) (by decide), if_pos hb]
        simp
      · refine ⟨0, pr ++ [print_dpkthdr c.le buf], ?_⟩
        simp only [read_dump_eof c.le buf BUFLEN (by decide) (by decide), if_neg hb]
        simp
  | cons r rs ih =>
    intro hall fuel buf st pr hfuel
    have hr := hall r (List.mem_cons_self _ _)
    have hrs : ∀ x ∈ rs, x.fits ∧ x.rawContained c :=
      fun x hx => hall x (List.mem_cons_of_mem _ hx)
    cases fuel with
    | zero => exact absurd hfuel (Nat.not_lt_zero _)
    | succ fuel =>
      obtain ⟨buf1, hstep, -, -⟩ :=
        dump2rawLoop_step c r (encodeRecords rs) fuel buf st pr hr.1 hr.2
      rw [encodeRecords, hstep, List.foldl_cons]
      exact ih hrs fuel buf1 _ _ (by
        rw [encodeRecords, List.length_append, encode_length] at hfuel
        omega)

/-- The dump line of a capture file is read over. -/
theorem read_dumpline_capture (p0 : Nat) (line rest buf : List Nat) (hline : 10 ∉ line) :
    (read_dumpline p0 (DUMPLINE ++ (line ++ 10 :: rest)) buf).ret ≠ -1
    ∧ (read_dumpline p0 (DUMPLINE ++ (line ++ 10 :: rest)) buf).fd = rest
    ∧ (read_dumpline p0 (DUMPLINE ++ (line ++ 10 :: rest)) buf).buf
        = DUMPLINE ++ buf.drop 13 := by
  rw [read_dumpline_magic, dumplineLoop_newline line rest hline]
  simp only [ne_eq, not_true_eq_false, if_false]
  refine ⟨?_, trivial, trivial⟩
  unfold DUMPLINELEN
  omega

/-- A complete session header is read, whatever follows it. -/
theorem read_dumphdr_capture (le : Bool) (hdr rest buf : List Nat)
    (hhdr : hdr.length = DUMPHDRSIZE) :
    (read_dumphdr le (hdr ++ rest) buf).ret ≠ -1
    ∧ (read_dumphdr le (hdr ++ rest) buf).fd = rest
    ∧ (read_dumphdr le (hdr ++ rest) buf).buf = (read_dumphdr le hdr buf).buf := by
  have hread : read (hdr ++ rest) DUMPHDRSIZE = ((DUMPHDRSIZE : Int), hdr, rest) := by
    unfold read
    rw [← hhdr, List.take_left' rfl, List.drop_left' rfl]
  have hread2 : read hdr DUMPHDRSIZE = ((DUMPHDRSIZE : Int), hdr, []) := by
    unfold read
    rw [← hhdr, List.take_length, List.drop_length]
  unfold read_dumphdr
  simp only [hread, hread2, ne_eq, not_true_eq_false, if_false]
  refine ⟨?_, trivial, trivial⟩
  unfold DUMPHDRSIZE
  omega

/-- What `dump2net` does with a capture file, given what its loop does. -/
theorem dump2net_capture (c : Conv) (line hdr body buf0 : List Nat) (hline : 10 ∉ line)
    (hhdr : hdr.length = DUMPHDRSIZE) (htime : c.dumptime ≠ 0 → (c.gettimeofday 0).1 ≠ -1) :
    dump2net c (capture line hdr body) buf0 =
      (dump2netLoop c (c.gettimeofday 0).2 (body.length + 1) body buf0
          (netStart c) []).map finishDump := by
  obtain ⟨hl1, hl2, -⟩ := read_dumpline_capture c.p0 line (hdr ++ body) [] hline
  obtain ⟨hh1, hh2, -⟩ := read_dumphdr_capture c.le hdr body [] hhdr
  have ht : ¬ (c.dumptime ≠ 0 ∧ (c.gettimeofday 0).1 = -1) := fun h => htime h.1 h.2
  unfold dump2net capture
  simp only [if_neg hl1, hl2, if_neg hh1, hh2, if_neg ht]
  rfl

/-- In `dump2raw` the result of `check_dumphdr` on a capture file is that of
`headerCheck`. -/
theorem dump2raw_check (c : Conv) (line hdr body : List Nat) (hline : 10 ∉ line)
    (hhdr : hdr.length = DUMPHDRSIZE) :
    c.check_dumphdr
        (read_dumphdr c.le (read_dumpline c.p0 (capture line hdr body) []).fd []).buf
        (read_dumpline c.p0 (capture line hdr body) []).buf
      = headerCheck c hdr := by
  obtain ⟨-, hl2, hl3⟩ := read_dumpline_capture c.p0 line (hdr ++ body) [] hline
  obtain ⟨-, -, hh3⟩ := read_dumphdr_capture c.le hdr body [] hhdr
  unfold capture headerCheck
  rw [hl2, hl3, hh3]
  simp

/-- What `dump2raw` does with a capture file whose session header passes
`check_dumphdr`, given what its loop does. -/
theorem dump2raw_capture (c : Conv) (line hdr body buf0 : List Nat) (hline : 10 ∉ line)
    (hhdr : hdr.length = DUMPHDRSIZE) (hcheck : headerCheck c hdr ≠ -1) :
    dump2raw c (capture line hdr body) buf0 =
      (dump2rawLoop c (body.length + 1) body buf0 (rawStart c) []).map finishDump := by
  obtain ⟨hl1, hl2, -⟩ := read_dumpline_capture c.p0 line (hdr ++ body) [] hline
  obtain ⟨hh1, hh2, -⟩ := read_dumphdr_capture c.le hdr body [] hhdr
  have hc := dump2raw_check c line hdr body hline hhdr
  unfold capture at hc
  rw [hl2] at hc
  unfold dump2raw capture
  simp only [if_neg hl1, if_neg hh1, hl2, hc, if_neg hcheck, hh2]
  rfl

/-- When `check_dumphdr` reports a mismatch for a capture file, `dump2raw`
returns -1 before it reads a packet record. -/
theorem dump2raw_mismatch (c : Conv) (line hdr body buf0 : List Nat) (hline : 10 ∉ line)
    (hhdr : hdr.length = DUMPHDRSIZE) (hcheck : headerCheck c hdr = -1) :
    dump2raw c (capture line hdr body) buf0
      = some { ret := -1, out := [], paces := [], last := 0 } := by
  obtain ⟨hl1, hl2, -⟩ := read_dumpline_capture c.p0 line (hdr ++ body) [] hline
  obtain ⟨hh1, hh2, -⟩ := read_dumphdr_capture c.le hdr body [] hhdr
  have hc := dump2raw_check c line hdr body hline hhdr
  unfold capture at hc
  rw [hl2] at hc
  unfold dump2raw capture
  simp only [if_neg hl1, if_neg hh1, hl2, hc, if_pos hcheck]

/-- A capture file of records that fit and that `dump2net` handles by their
own bytes is converted by `dump2net` as the records alone determine, with the
lines of `printedLines` on the standard output, and the run returns. -/
theorem dump2net_records (c : Conv) (line hdr buf0 : List Nat) (rs : List Record)
    (hline : 10 ∉ line) (hhdr : hdr.length = DUMPHDRSIZE)
    (htime : c.dumptime ≠ 0 → (c.gettimeofday 0).1 ≠ -1)
    (hall : ∀ r ∈ rs, r.fits ∧ r.netContained c)
    (hben : rs = [] → ¬ BUFLEN < (ld16 c.le buf0 0 + SIZE - DPKTHDRSIZE) % SIZE) :
    dump2net c (capture line hdr (encodeRecords rs)) buf0
      = some { netRun c rs with printed := printedLines (print_dpkthdr c.le buf0) rs } := by
  rw [dump2net_capture c line hdr _ buf0 hline hhdr htime,
    dump2netLoop_records c _ rs hall _ buf0 _ _ (Nat.lt_succ_self _) hben]
  simp [netRun, Pipe.done, finishDump, finish]

/-- A capture file of records that fit and that `dump2raw` handles by their
own bytes is converted by `dump2raw` as the records alone determine, with the
lines of `printedLines` on the standard output, and the run returns. -/
theorem dump2raw_records (c : Conv) (line hdr buf0 : List Nat) (rs : List Record)
    (hline : 10 ∉ line) (hhdr : hdr.length = DUMPHDRSIZE)
    (hcheck : headerCheck c hdr ≠ -1)
    (hall : ∀ r ∈ rs, r.fits ∧ r.rawContained c)
    (hben : rs = [] → ¬ BUFLEN < (ld16 c.le buf0 0 + SIZE - DPKTHDRSIZE) % SIZE) :
    dump2raw c (capture line hdr (encodeRecords rs)) buf0
      = some { rawRun c rs with printed := printedLines (print_dpkthdr c.le buf0) rs } := by
  rw [dump2raw_capture c line hdr _ buf0 hline hhdr hcheck,
    dump2rawLoop_records c rs hall _ buf0 _ _ (Nat.lt_succ_self _) hben]
  simp [rawRun, Pipe.done, finishDump, finish]

/-- A capture file of records that fit and that `dump2raw` handles by their
own bytes, whatever the buffer holds at first: `dump2raw` returns and its
output calls are those that the records alone determine. -/
theorem dump2raw_out (c : Conv) (line hdr buf0 : List Nat) (rs : List Record)
    (hline : 10 ∉ line) (hhdr : hdr.length = DUMPHDRSIZE)
    (hcheck : headerCheck c hdr ≠ -1)
    (hall : ∀ r ∈ rs, r.fits ∧ r.rawContained c) :
    ∃ d, dump2raw c (capture line hdr (encodeRecords rs)) buf0 = some d
      ∧ d.out = (rawRun c rs).out := by
  obtain ⟨ret, lines, h⟩ :=
    dump2rawLoop_folds c rs hall _ buf0 (rawStart c) [] (Nat.lt_succ_self _)
  rw [dump2raw_capture c line hdr _ buf0 hline hhdr hcheck, h]
  exact ⟨_, rfl, rfl⟩

theorem read_dpkthdr_fd (le : Bool) (fd buf : List Nat) (len : Nat) (hlen : DPKTHDRSIZE ≤ len) :
    (read_dpkthdr le fd buf len).fd = fd.drop DPKTHDRSIZE := by
  have hl : ¬ len < DPKTHDRSIZE := Nat.not_lt.mpr hlen
  unfold read_dpkthdr
  simp only [if_neg hl, read]
  split_ifs <;> rfl

theorem read_rest_length (fd : List Nat) (n : Nat) : (read fd n).2.2.length ≤ fd.length := by
  unfold read
  rw [List.length_drop]
  omega

theorem read_dump_fd_length (le : Bool) (fd buf : List Nat) (len : Nat)
    (hlen : DPKTHDRSIZE ≤ len) :
    (read_dump le fd buf len).fd.length ≤ fd.length - DPKTHDRSIZE := by
  have hh : (read_dpkthdr le fd buf len).fd.length = fd.length - DPKTHDRSIZE := by
    rw [read_dpkthdr_fd le fd buf len hlen, List.length_drop]
  unfold read_dump
  dsimp only
  split_ifs
  · exact Nat.le_of_eq hh
  · exact Nat.le_of_eq hh
  · have h3 := read_rest_length (read_dpkthdr le fd buf len).fd
      ((ld16 le (read_dpkthdr le fd buf len).buf 0 + SIZE - DPKTHDRSIZE) % SIZE)
    rw [hh] at h3
    dsimp only
    exact h3
  · have h3 := read_rest_length (read_dpkthdr le fd buf len).fd
      ((ld16 le (read_dpkthdr le fd buf len).buf 0 + SIZE - DPKTHDRSIZE) % SIZE)
    rw [hh] at h3
    dsimp only
    exact h3

/-- A round of a converter loop that goes on has consumed part of the stream. -/
theorem read_dump_progress (le : Bool) (fd buf : List Nat)
    (hpos : (read_dump le fd buf BUFLEN).ret > 0) :
    (read_dump le fd buf BUFLEN).fd.length < fd.length := by
  have hle := read_dump_fd_length le fd buf BUFLEN (by decide)
  cases fd with
  | nil =>
    rw [read_dump_eof le buf BUFLEN (by decide) (by decide)] at hpos
    split_ifs at hpos <;> simp at hpos
  | cons b fd =>
    simp only [List.length_cons] at hle ⊢
    unfold DPKTHDRSIZE at hle
    omega

/-- The loop of `dump2net` ends on every stream within one round more than
the stream has bytes. -/
theorem dump2netLoop_total (c : Conv) (zero : Timeval) :
    ∀ (fuel : Nat) (fd buf : List Nat) (st : Pipe) (pr : List PacketLine),
      fd.length < fuel → ∃ e, dump2netLoop c zero fuel fd buf st pr = some e := by
  intro fuel
  induction fuel with
  | zero => intro fd _ _ _ h; exact absurd h (Nat.not_lt_zero _)
  | succ fuel ih =>
    intro fd buf st pr hfuel
    rw [dump2netLoop]
    by_cases hpos : (read_dump c.le fd buf BUFLEN).ret > 0
    · simp only [if_pos hpos]
      apply ih
      have := read_dump_progress c.le fd buf hpos
      omega
    · simp only [if_neg hpos]
      exact ⟨_, rfl⟩

/-- The loop of `dump2raw` ends on every stream within one round more than
the stream has bytes. -/
theorem dump2rawLoop_total (c : Conv) :
    ∀ (fuel : Nat) (fd buf : List Nat) (st : Pipe) (pr : List PacketLine),
      fd.length < fuel → ∃ e, dump2rawLoop c fuel fd buf st pr = some e := by
  intro fuel
  induction fuel with
  | zero => intro fd _ _ _ h; exact absurd h (Nat.not_lt_zero _)
  | succ fuel ih =>
    intro fd buf st pr hfuel
    rw [dump2rawLoop]
    by_cases hpos : (read_dump c.le fd buf BUFLEN).ret > 0
    · simp only [if_pos hpos]
      apply ih
      have := read_dump_progress c.le fd buf hpos
      omega
    · simp only [if_neg hpos]
      exact ⟨_, rfl⟩

theorem map_total {α β : Type} (f : α → β) (x : Option α) (h : ∃ e, x = some e) :
    ∃ d, x.map f = some d := by
  obtain ⟨e, he⟩ := h
  exact ⟨f e, by rw [he]; rfl⟩

/-- `dump2net` returns on every input stream. -/
theorem dump2net_total (c : Conv) (ifd buf0 : List Nat) : ∃ d, dump2net c ifd buf0 = some d := by
  unfold dump2net
  simp only []
  split_ifs
  · exact ⟨_, rfl⟩
  · exact ⟨_, rfl⟩
  · exact ⟨_, rfl⟩
  · exact map_total _ _ (dump2netLoop_total c _ _ _ _ _ _ (Nat.lt_succ_self _))
  · exact map_total _ _ (dump2netLoop_total c _ _ _ _ _ _ (Nat.lt_succ_self _))

/-- `dump2raw` returns on every input stream. -/
theorem dump2raw_total (c : Conv) (ifd buf0 : List Nat) : ∃ d, dump2raw c ifd buf0 = some d := by
  unfold dump2raw
  simp only []
  split_ifs
  · exact ⟨_, rfl⟩
  · exact ⟨_, rfl⟩
  · exact ⟨_, rfl⟩
  · exact map_total _ _ (dump2rawLoop_total c _ _ _ _ _ (Nat.lt_succ_self _))

theorem seen_ts (r : Record) (stale : List Nat) (h8 : 8 ≤ r.payload.length) :
    Record.ts { r with payload := r.payload ++ stale } = r.ts := by
  unfold Record.ts
  simp only [getD_append_left _ _ _ (show 4 < r.payload.length by omega),
    getD_append_left _ _ _ (show 5 < r.payload.length by omega),
    getD_append_left _ _ _ (show 6 < r.payload.length by omega),
    getD_append_left _ _ _ (show 7 < r.payload.length by omega)]

/-- The body of the loop of `dump2net` handles the record as it stands in the
buffer, the bytes behind it included. -/
theorem dump2netBody_seen (c : Conv) (zero : Timeval) (st : Pipe) (r : Record)
    (buf1 stale : List Nat) (hf : r.fits)
    (h8 : r.plen ≠ 0 → 8 ≤ r.payload.length)
    (h2 : ld16 c.le buf1 2 = r.plen) (h4 : ld32 c.le buf1 4 = r.msec)
    (hdrop : buf1.drop DPKTHDRSIZE = r.payload ++ stale) :
    dump2netBody c zero buf1 st
      = netRecord c zero st { r with payload := r.payload ++ stale } := by
  unfold dump2netBody netRecord
  simp only [h2, h4, hdrop]
  by_cases hz : r.plen = 0
  · simp only [hz, if_true]
  · have hts := buffer_ts c.le r hf buf1 stale (h8 hz) hdrop
    have hts2 := seen_ts r stale (h8 hz)
    simp only [if_neg hz, hts, hts2]

/-- One round of the loop of `dump2net` on a record that fits, whatever the
rest of the stream and the buffer. -/
theorem dump2netLoop_step_seen (c : Conv) (zero : Timeval) (r : Record) (rest : List Nat)
    (fuel : Nat) (buf : List Nat) (st : Pipe) (pr : List PacketLine) (hf : r.fits)
    (h8 : r.plen ≠ 0 → 8 ≤ r.payload.length) :
    ∃ buf1, dump2netLoop c zero (fuel + 1) (r.encode ++ rest) buf st pr
        = dump2netLoop c zero fuel rest buf1 (netSeen c zero (st, buf.drop 8) r).1
            (pr ++ [r.line])
      ∧ ld16 c.le buf1 0 = r.dlen
      ∧ buf1.drop 8 = (netSeen c zero (st, buf.drop 8) r).2
      ∧ print_dpkthdr c.le buf1 = r.line := by
  obtain ⟨buf1, hr, h0, h2, h4, hdrop, hline⟩ := read_dump_encode c.le r rest buf hf
  refine ⟨buf1, ?_, h0, hdrop, hline⟩
  have hpos : ((r.dlen : Nat) : Int) > 0 := by
    unfold Record.dlen DPKTHDRSIZE
    omega
  rw [dump2netLoop]
  simp only [hr, if_pos hpos]
  rw [dump2netBody_seen c zero st r buf1 _ hf h8 h2 h4 hdrop]
  rfl

/-- The loop of `dump2net` on a stream of records that fit and hold their RTP
timestamp: record by record it does what `netRecord` says of the record as it
stands in the buffer. -/
theorem dump2netLoop_seen (c : Conv) (zero : Timeval) (rs : List Record) :
    (∀ r ∈ rs, r.fits ∧ (r.plen ≠ 0 → 8 ≤ r.payload.length)) →
    ∀ fuel buf st pr, (encodeRecords rs).length < fuel →
      (rs = [] → ¬ BUFLEN < (ld16 c.le buf 0 + SIZE - DPKTHDRSIZE) % SIZE) →
      dump2netLoop c zero fuel (encodeRecords rs) buf st pr
        = some (0, (rs.foldl (netSeen c zero) (st, buf.drop 8)).1,
            pr ++ printedLines (print_dpkthdr c.le buf) rs) := by
  induction rs with
  | nil =>
    intro _ fuel buf st pr hfuel hben
    cases fuel with
    | zero => exact absurd hfuel (Nat.not_lt_zero _)
    | succ fuel =>
      rw [encodeRecords, dump2netLoop]
      simp only [read_dump_eof c.le buf BUFLEN (by decide) (by decide), if_neg (hben rfl)]
      simp [printedLines]
  | cons r rs ih =>
    intro hall fuel buf st pr hfuel hben
    have hr := hall r (List.mem_cons_self _ _)
    have hrs : ∀ x ∈ rs, x.fits ∧ (x.plen ≠ 0 → 8 ≤ x.payload.length) :=
      fun x hx => hall x (List.mem_cons_of_mem _ hx)
    cases fuel with
    | zero => exact absurd hfuel (Nat.not_lt_zero _)
    | succ fuel =>
      obtain ⟨buf1, hstep, h0, harea, hline⟩ :=
        dump2netLoop_step_seen c zero r (encodeRecords rs) fuel buf st pr hr.1 hr.2
      rw [encodeRecords, hstep, List.foldl_cons]
      rw [ih hrs fuel buf1 _ _ (by
        rw [encodeRecords, List.length_append, encode_length] at hfuel
        omega) (fun _ => fits_benign c.le r buf1 hr.1 h0), harea, hline]
      simp [printedLines]

/-- The result of `parse_rtphdr` as the specification describes it does not
depend on what follows a packet whose header parses. -/
theorem parse_rtphdr_stable (pkt stale : List Nat) (h : parse_rtphdr pkt ≠ -1) :
    parse_rtphdr (pkt ++ stale) = parse_rtphdr pkt := by
  unfold parse_rtphdr at h ⊢
  simp only [] at h ⊢
  by_cases hv : pkt.getD 0 0 / 64 ≠ 2
  · rw [if_pos hv] at h
    exact absurd rfl h
  · rw [if_neg hv] at h
    by_cases hlen : pkt.length
        < (if pkt.getD 0 0 / 16 % 2 = 1 then
            12 + 4 * (pkt.getD 0 0 % 16) + 4
              + 4 * be16 (pkt.getD (12 + 4 * (pkt.getD 0 0 % 16) + 2) 0)
                  (pkt.getD (12 + 4 * (pkt.getD 0 0 % 16) + 3) 0)
          else 12 + 4 * (pkt.getD 0 0 % 16))
    · rw [if_pos hlen] at h
      exact absurd rfl h
    · have hpos : 0 < pkt.length := by
        split_ifs at hlen <;> omega
      have e0 : (pkt ++ stale).getD 0 0 = pkt.getD 0 0 := getD_append_left _ _ _ hpos
      rw [e0]
      simp only [if_neg hv]
      by_cases hx : pkt.getD 0 0 / 16 % 2 = 1
      · simp only [if_pos hx] at hlen ⊢
        have e2 : (pkt ++ stale).getD (12 + 4 * (pkt.getD 0 0 % 16) + 2) 0
            = pkt.getD (12 + 4 * (pkt.getD 0 0 % 16) + 2) 0 :=
          getD_append_left _ _ _ (by omega)
        have e3 : (pkt ++ stale).getD (12 + 4 * (pkt.getD 0 0 % 16) + 3) 0
            = pkt.getD (12 + 4 * (pkt.getD 0 0 % 16) + 3) 0 :=
          getD_append_left _ _ _ (by omega)
        rw [e2, e3, if_neg hlen, if_neg]
        rw [List.length_append]
        omega
      · simp only [if_neg hx] at hlen ⊢
        rw [if_neg hlen, if_neg]
        rw [List.length_append]
        omega

/-- A packet whose header parses, as the specification describes it, is not
shorter than the header. -/
theorem parse_rtphdr_le (pkt : List Nat) :
    parse_rtphdr pkt ≤ pkt.length ∧ -1 ≤ parse_rtphdr pkt := by
  unfold parse_rtphdr
  simp only []
  split_ifs <;> constructor <;> omega

/-- A record longer than the buffer is refused by `read_dump`, which prints
nothing for it. -/
theorem read_dump_oversize (le : Bool) (r : Record) (rest buf : List Nat)
    (hbig : BUFLEN < r.dlen) (hd : r.dlen < 65536) :
    (read_dump le (r.encode ++ rest) buf BUFLEN).ret = -1
    ∧ (read_dump le (r.encode ++ rest) buf BUFLEN).printed = [] := by
  have e0 : be16 (r.dlen / 256 % 256) (r.dlen % 256) = r.dlen := by
    unfold be16; omega
  obtain ⟨x0, x1, x2, x3, x4, x5, x6, x7, -, -, -, hr⟩ :=
    read_dump_record le (r.dlen / 256 % 256) (r.dlen % 256) (r.plen / 256 % 256)
      (r.plen % 256) (r.msec / 16777216 % 256) (r.msec / 65536 % 256) (r.msec / 256 % 256)
      (r.msec % 256) (r.payload ++ rest) buf BUFLEN (by decide) (by decide)
      (Nat.mod_lt _ (by norm_num)) (Nat.mod_lt _ (by norm_num)) (Nat.mod_lt _ (by norm_num))
      (Nat.mod_lt _ (by norm_num)) (Nat.mod_lt _ (by norm_num)) (Nat.mod_lt _ (by norm_num))
      (Nat.mod_lt _ (by norm_num)) (Nat.mod_lt _ (by norm_num))
      (by rw [e0]; unfold BUFLEN at hbig; unfold DPKTHDRSIZE; omega)
  rw [e0] at hr
  have hlt : BUFLEN - 8 < r.dlen - 8 := by
    unfold BUFLEN at hbig ⊢
    omega
  rw [if_pos hlt] at hr
  have hr2 : read_dump le (r.encode ++ rest) buf BUFLEN
      = { ret := -1, buf := x0 :: x1 :: x2 :: x3 :: x4 :: x5 :: x6 :: x7 :: buf.drop 8,
          fd := r.payload ++ rest, warns := [CodecWarning.bufferFull] } := hr
  rw [hr2]
  exact ⟨rfl, rfl⟩

/-- The loop of `dump2net` ends with -1 at a record longer than the buffer,
and does nothing for it or for what follows it. -/
theorem dump2netLoop_oversize (c : Conv) (zero : Timeval) (r : Record) (rest : List Nat)
    (fuel : Nat) (buf : List Nat) (st : Pipe) (pr : List PacketLine)
    (hbig : BUFLEN < r.dlen) (hd : r.dlen < 65536) :
    dump2netLoop c zero (fuel + 1) (r.encode ++ rest) buf st pr = some (-1, st, pr) := by
  obtain ⟨h, hp⟩ := read_dump_oversize c.le r rest buf hbig hd
  rw [dump2netLoop]
  simp only [h, hp, List.append_nil]
  rfl

/-- The loop of `dump2raw` ends with -1 at a record longer than the buffer. -/
theorem dump2rawLoop_oversize (c : Conv) (r : Record) (rest : List Nat)
    (fuel : Nat) (buf : List Nat) (st : Pipe) (pr : List PacketLine)
    (hbig : BUFLEN < r.dlen) (hd : r.dlen < 65536) :
    dump2rawLoop c (fuel + 1) (r.encode ++ rest) buf st pr = some (-1, st, pr) := by
  obtain ⟨h, hp⟩ := read_dump_oversize c.le r rest buf hbig hd
  rw [dump2rawLoop]
  simp only [h, hp, List.append_nil]
  rfl

/-- A capture file that starts with a record longer than the buffer makes
`dump2net` return -1 with nothing sent. -/
theorem dump2net_oversize (c : Conv) (line hdr buf0 : List Nat) (r : Record) (rest : List Nat)
    (hline : 10 ∉ line) (hhdr : hdr.length = DUMPHDRSIZE)
    (htime : c.dumptime ≠ 0 → (c.gettimeofday 0).1 ≠ -1)
    (hbig : BUFLEN < r.dlen) (hd : r.dlen < 65536) :
    dump2net c (capture line hdr (r.encode ++ rest)) buf0
      = some { ret := -1, out := [], paces := [], last := c.last0 } := by
  rw [dump2net_capture c line hdr _ buf0 hline hhdr htime,
    dump2netLoop_oversize c _ r rest _ buf0 _ _ hbig hd]
  rfl

/-- A capture file that starts with a record longer than the buffer makes
`dump2raw` return -1 with nothing written. -/
theorem dump2raw_oversize (c : Conv) (line hdr buf0 : List Nat) (r : Record) (rest : List Nat)
    (hline : 10 ∉ line) (hhdr : hdr.length = DUMPHDRSIZE) (hcheck : headerCheck c hdr ≠ -1)
    (hbig : BUFLEN < r.dlen) (hd : r.dlen < 65536) :
    dump2raw c (capture line hdr (r.encode ++ rest)) buf0
      = some { ret := -1, out := [], paces := [], last := 0 } := by
  rw [dump2raw_capture c line hdr _ buf0 hline hhdr hcheck,
    dump2rawLoop_oversize c r rest _ buf0 _ _ hbig hd]
  rfl

/-- Records with payload length 0 do not count in what `dump2net` does
according to the records. -/
theorem netRecord_filter (c : Conv) (zero : Timeval) (rs : List Record) :
    ∀ st, rs.foldl (netRecord c zero) st
      = (rs.filter fun r => decide (r.plen ≠ 0)).foldl (netRecord c zero) st := by
  induction rs with
  | nil => intro st; rfl
  | cons r rs ih =>
    intro st
    by_cases hz : r.plen = 0
    · have hskip : netRecord c zero st r = st := by
        unfold netRecord
        rw [if_pos hz]
      rw [List.foldl_cons, hskip, List.filter_cons_of_neg (by simpa using hz)]
      exact ih st
    · rw [List.filter_cons_of_pos (by simpa using hz), List.foldl_cons, List.foldl_cons]
      exact ih _

/-- Records with payload length 0 do not count in what `dump2raw` does
according to the records. -/
theorem rawRecord_filter (c : Conv) (rs : List Record) :
    ∀ st, rs.foldl (rawRecord c) st
      = (rs.filter fun r => decide (r.plen ≠ 0)).foldl (rawRecord c) st := by
  induction rs with
  | nil => intro st; rfl
  | cons r rs ih =>
    intro st
    by_cases hz : r.plen = 0
    · have hskip : rawRecord c st r = st := by
        unfold rawRecord
        rw [if_pos hz]
      rw [List.foldl_cons, hskip, List.filter_cons_of_neg (by simpa using hz)]
      exact ih st
    · rw [List.filter_cons_of_pos (by simpa using hz), List.foldl_cons, List.foldl_cons]
      exact ih _

theorem written_append (a b : List Out) : written (a ++ b) = written a ++ written b := by
  unfold written
  rw [List.map_append, List.flatten_append]

/-- When the output takes all it is given, what `emit` adds to the bytes
written is the first `want` bytes of the data. -/
theorem written_emit (c : Conv) (st : Pipe) (data : List Nat) (n : Nat) (hn : n < SIZE)
    (hsink : ∀ i k, c.sink i k = k) :
    written (emit c st data n).out = written st.out ++ data.take n
    ∧ (emit c st data n).error = st.error := by
  have hcount : (((n : Nat) : Int) % (SIZE : Int)).toNat = n := count_of_nat n hn
  have h1 : ¬ ((n : Int) = -1) := by omega
  have h2 : ¬ ((n : Int) < (n : Int)) := lt_irrefl _
  unfold emit
  simp only [hcount, hsink, h1, h2, if_false]
  constructor
  · rw [written_append]
    simp [written]
  · trivial

theorem rawSpec_cons (c : Conv) (r : Record) (rs : List Record) :
    rawSpec c (r :: rs)
      = if r.plen ≠ 0 ∧ c.parse_rtphdr r.payload ≠ -1 then
          r.payload.drop (c.parse_rtphdr r.payload).toNat ++ rawSpec c rs
        else rawSpec c rs := rfl

/-- When the output takes all it is given, `dump2raw` writes for a stream of
records that fit and that it handles by their own bytes what the specification
says. -/
theorem written_rawRecord (c : Conv) (hsink : ∀ i k, c.sink i k = k) (rs : List Record) :
    (∀ r ∈ rs, r.fits ∧ r.rawContained c) →
    ∀ st, written (rs.foldl (rawRecord c) st).out = written st.out ++ rawSpec c rs := by
  induction rs with
  | nil => intro _ st; simp [rawSpec]
  | cons r rs ih =>
    intro hall st
    have hr := hall r (List.mem_cons_self _ _)
    have hrs : ∀ x ∈ rs, x.fits ∧ x.rawContained c :=
      fun x hx => hall x (List.mem_cons_of_mem _ hx)
    rw [List.foldl_cons, ih hrs, rawSpec_cons]
    by_cases hz : r.plen = 0
    · have hskip : rawRecord c st r = st := by
        unfold rawRecord
        rw [if_pos hz]
      rw [hskip, if_neg (fun h => h.1 hz)]
    · obtain ⟨-, hle, hge⟩ := hr.2 hz
      by_cases hbad : c.parse_rtphdr r.payload = -1
      · have hskip : (rawRecord c st r).out = st.out := by
          unfold rawRecord
          simp only [if_neg hz, hbad, if_true]
        rw [hskip, if_neg (fun h => h.2 hbad)]
      · obtain ⟨k, hk⟩ : ∃ k : Nat, c.parse_rtphdr r.payload = (k : Int) :=
          ⟨(c.parse_rtphdr r.payload).toNat, by omega⟩
        have hkl : k ≤ r.payload.length := by
          rw [hk] at hle
          exact_mod_cast hle
        have hlt : r.payload.length - k < SIZE := by
          have := hr.1.1
          unfold Record.dlen BUFLEN at this
          unfold SIZE
          omega
        have hwant : (r.payload.length : Int) - (k : Int)
            = ((r.payload.length - k : Nat) : Int) := by
          omega
        have hw := (written_emit c st (r.payload.drop k) (r.payload.length - k) hlt hsink).1
        have hstep : rawRecord c st r
            = emit c st (r.payload.drop k) ((r.payload.length - k : Nat) : Int) := by
          unfold rawRecord
          simp only [if_neg hz, if_neg hbad]
          rw [hk, hwant, Int.toNat_ofNat]
        rw [hstep, hw, if_pos ⟨hz, hbad⟩, hk, Int.toNat_ofNat,
          List.take_of_length_le (by rw [List.length_drop]), List.append_assoc]

/-! ## Theorems: conversion pipelines, claims -/

theorem zeroBuffer_benign (le : Bool) : ld16 le zeroBuffer 0 = 0 := by
  cases le <;> rfl

/-- With `parse_rtphdr` as the specification describes it, a record that
holds the bytes to be sent and an RTP header that parses is self-contained. -/
theorem plain_selfContained (le : Bool) (r : Record) (hp : r.plen ≤ r.payload.length)
    (h8 : 8 ≤ r.payload.length) (hparse : parse_rtphdr r.payload ≠ -1) :
    r.selfContained (plainConv le) := by
  intro _
  exact ⟨hp, h8, fun stale => parse_rtphdr_stable r.payload stale hparse,
    (parse_rtphdr_le r.payload).1, (parse_rtphdr_le r.payload).2⟩

theorem zero_selfContained (c : Conv) (r : Record) (hz : r.plen = 0) : r.selfContained c :=
  fun h => absurd hz h

theorem ok_net (c : Conv) (rs : List Record) (h : ∀ r ∈ rs, r.fits ∧ r.selfContained c) :
    ∀ r ∈ rs, r.fits ∧ r.netContained c :=
  fun r hr => ⟨(h r hr).1, selfContained_net c r (h r hr).2⟩

theorem ok_raw (c : Conv) (rs : List Record) (h : ∀ r ∈ rs, r.fits ∧ r.selfContained c) :
    ∀ r ∈ rs, r.fits ∧ r.rawContained c :=
  fun r hr => ⟨(h r hr).1, selfContained_raw c r (h r hr).2⟩

theorem rtpRecord_ok (le : Bool) (ts : Nat) (data : List Nat) (hd : data.length ≤ 8172)
    (hb : ∀ b ∈ data, b < 256) :
    (rtpRecord ts data).fits ∧ (rtpRecord ts data).selfContained (plainConv le) := by
  have hlen : (rtpRecord ts data).payload.length = 12 + data.length := by
    simp [rtpRecord, rtpHeader]
    omega
  have hparse : parse_rtphdr (rtpRecord ts data).payload = 12 := by
    unfold parse_rtphdr
    rw [hlen]
    simp [rtpRecord, rtpHeader]
  constructor
  · refine ⟨?_, ?_, ?_, ?_⟩
    · unfold Record.dlen
      rw [hlen]
      unfold DPKTHDRSIZE BUFLEN
      omega
    · show 12 + data.length < 65536
      omega
    · show 0 < 4294967296
      omega
    · intro b hb2
      simp only [rtpRecord, rtpHeader, List.mem_append, List.mem_cons, List.mem_singleton,
        List.not_mem_nil, or_false] at hb2
      rcases hb2 with h | h
      · rcases h with h | h | h | h | h | h | h | h | h | h | h | h <;> omega
      · exact hb b h
  · apply plain_selfContained
    · rw [hlen]
      exact Nat.le_refl _
    · rw [hlen]
      omega
    · rw [hparse]
      omega

theorem rtcpRecord_oversize : BUFLEN < (rtcpRecord 8185).dlen ∧ (rtcpRecord 8185).dlen < 65536 := by
  have hl : (rtcpRecord 8185).payload.length = 8185 := List.length_replicate _ _
  unfold Record.dlen
  rw [hl]
  decide

theorem sessionHeader_length : sessionHeader.length = DUMPHDRSIZE := by
  decide

/-- C11 (as stated, refuted): a capture holds a record with payload length 0
that is 8193 bytes long, more than the packet buffer takes, and behind it one
RTP record with 4 bytes of payload. `dump2net` refuses the long record
(`read_dump` reports a full buffer): it sends nothing and returns -1. For the
same capture without the record of payload length 0 it sends the RTP packet
and returns 0. -/
theorem C11_oversize_zero_payload_counterexample :
    dump2net (plainConv false)
        (capture [] sessionHeader
          (encodeRecords [rtcpRecord 8185, rtpRecord 1000 [1, 2, 3, 4]])) zeroBuffer
      = some { ret := -1, out := [], paces := [], last := 0 }
    ∧ dump2net (plainConv false)
        (capture [] sessionHeader
          (encodeRecords ([rtcpRecord 8185, rtpRecord 1000 [1, 2, 3, 4]].filter
            fun r => decide (r.plen ≠ 0)))) zeroBuffer
      = some { ret := 0,
               out := [{ data := rtpHeader 1000 ++ [1, 2, 3, 4], count := 16, ret := 16 }],
               paces := [{ ret := 0, nap := none, warns := [] }], last := 1000,
               printed := [PacketLine.rtp 0 16 16, PacketLine.rtp 0 16 16] } := by
  constructor
  · exact dump2net_oversize (plainConv false) [] sessionHeader zeroBuffer (rtcpRecord 8185)
      (encodeRecords [rtpRecord 1000 [1, 2, 3, 4]]) (by decide) sessionHeader_length
      (fun h => absurd rfl h) rtcpRecord_oversize.1 rtcpRecord_oversize.2
  · have hfilter : ([rtcpRecord 8185, rtpRecord 1000 [1, 2, 3, 4]].filter
        fun r => decide (r.plen ≠ 0)) = [rtpRecord 1000 [1, 2, 3, 4]] := by
      decide
    rw [hfilter, dump2net_records (plainConv false) [] sessionHeader zeroBuffer
      [rtpRecord 1000 [1, 2, 3, 4]] (by decide) sessionHeader_length (fun h => absurd rfl h)
      (ok_net _ _ (fun r hr => by
        rw [List.mem_singleton] at hr
        rw [hr]
        exact rtpRecord_ok false 1000 [1, 2, 3, 4] (by decide) (by decide)))
      (fun h => by cases h)]
    decide

/-- In wall-clock mode `dump2net` returns -1 before it reads a packet record
when the first `gettimeofday` fails. -/
theorem dump2net_notime (c : Conv) (line hdr body buf0 : List Nat) (hline : 10 ∉ line)
    (hhdr : hdr.length = DUMPHDRSIZE)
    (ht : c.dumptime ≠ 0 ∧ (c.gettimeofday 0).1 = -1) :
    dump2net c (capture line hdr body) buf0
      = some { ret := -1, out := [], paces := [], last := c.last0 } := by
  obtain ⟨hl1, hl2, -⟩ := read_dumpline_capture c.p0 line (hdr ++ body) [] hline
  obtain ⟨hh1, -, -⟩ := read_dumphdr_capture c.le hdr body [] hhdr
  unfold dump2net capture
  simp only [if_neg hl1, hl2, if_neg hh1, if_pos ht]

/-- The output calls, the pacing calls, the value of `last` and the status of
two runs are the same; the lines printed on the standard output are not
compared. -/
theorem sameCalls_of_eq (d e : Done) (h : { d with printed := [] } = { e with printed := [] }) :
    d.ret = e.ret ∧ d.out = e.out ∧ d.paces = e.paces ∧ d.last = e.last := by
  have h1 := congrArg Done.ret h
  have h2 := congrArg Done.out h
  have h3 := congrArg Done.paces h
  have h4 := congrArg Done.last h
  exact ⟨h1, h2, h3, h4⟩

/-- C11 (amended): for every capture file with a dump line and a session
header whose records fit the packet buffer, the run of a converter on the
capture and its
run on the capture without the records with payload length 0 both return, with
the same status, the same output calls, the same pacing calls and the same
recorded last RTP timestamp (the lines that `read_dump` prints on the standard
output are not compared): for `dump2net` when it handles every record by the
record's own bytes (`Record.netContained`), for `dump2raw` when it does
(`Record.rawContained`); provided that, when the capture has records but none
with a payload length other than 0, the record length that the buffer holds at
first does not make `read_dump` fail at the end of the stream. The body of
either loop leaves the locals as they are for a record with payload length
0. -/
theorem C11_zero_payload_skipped (c : Conv) (line hdr buf0 : List Nat) (rs : List Record)
    (hline : 10 ∉ line) (hhdr : hdr.length = DUMPHDRSIZE)
    (hfits : ∀ r ∈ rs, r.fits)
    (hben : rs ≠ [] → (∀ r ∈ rs, r.plen = 0) →
      ¬ BUFLEN < (ld16 c.le buf0 0 + SIZE - DPKTHDRSIZE) % SIZE) :
    ((∀ r ∈ rs, r.netContained c) →
      ∃ d e, dump2net c (capture line hdr (encodeRecords rs)) buf0 = some d
        ∧ dump2net c (capture line hdr
            (encodeRecords (rs.filter fun r => decide (r.plen ≠ 0)))) buf0 = some e
        ∧ d.ret = e.ret ∧ d.out = e.out ∧ d.paces = e.paces ∧ d.last = e.last)
    ∧ ((∀ r ∈ rs, r.rawContained c) →
      ∃ d e, dump2raw c (capture line hdr (encodeRecords rs)) buf0 = some d
        ∧ dump2raw c (capture line hdr
            (encodeRecords (rs.filter fun r => decide (r.plen ≠ 0)))) buf0 = some e
        ∧ d.ret = e.ret ∧ d.out = e.out ∧ d.paces = e.paces ∧ d.last = e.last)
    ∧ (∀ zero buf st, ld16 c.le buf 2 = 0 → dump2netBody c zero buf st = st)
    ∧ (∀ buf s st, ld16 c.le buf 2 = 0 → dump2rawBody c buf s st = st) := by
  have hmem : ∀ r ∈ rs.filter (fun r => decide (r.plen ≠ 0)), r ∈ rs :=
    fun r hr => List.mem_of_mem_filter hr
  have hben1 : rs ≠ [] →
      rs = [] → ¬ BUFLEN < (ld16 c.le buf0 0 + SIZE - DPKTHDRSIZE) % SIZE :=
    fun hne h => absurd h hne
  have hben2 : rs ≠ [] → (rs.filter fun r => decide (r.plen ≠ 0)) = [] →
      ¬ BUFLEN < (ld16 c.le buf0 0 + SIZE - DPKTHDRSIZE) % SIZE := by
    intro hne h
    apply hben hne
    intro r hr
    have := List.filter_eq_nil_iff.mp h r hr
    simpa using this
  refine ⟨?_, ?_, ?_, ?_⟩
  · intro hnet
    by_cases ht : c.dumptime ≠ 0 ∧ (c.gettimeofday 0).1 = -1
    · exact ⟨_, _, dump2net_notime c line hdr _ buf0 hline hhdr ht,
        dump2net_notime c line hdr _ buf0 hline hhdr ht, rfl, rfl, rfl, rfl⟩
    · have htime : c.dumptime ≠ 0 → (c.gettimeofday 0).1 ≠ -1 :=
        fun h1 h2 => ht ⟨h1, h2⟩
      by_cases hne : rs = []
      · obtain ⟨d, hd⟩ := dump2net_total c (capture line hdr (encodeRecords rs)) buf0
        refine ⟨d, d, hd, ?_, rfl, rfl, rfl, rfl⟩
        rw [← hd, hne]
        rfl
      · refine ⟨_, _,
          dump2net_records c line hdr buf0 rs hline hhdr htime
            (fun r hr => ⟨hfits r hr, hnet r hr⟩) (hben1 hne),
          dump2net_records c line hdr buf0 _ hline hhdr htime
            (fun r hr => ⟨hfits r (hmem r hr), hnet r (hmem r hr)⟩) (hben2 hne), ?_⟩
        apply sameCalls_of_eq
        unfold netRun
        rw [← netRecord_filter]
  · intro hraw
    by_cases hcheck : headerCheck c hdr = -1
    · exact ⟨_, _, dump2raw_mismatch c line hdr _ buf0 hline hhdr hcheck,
        dump2raw_mismatch c line hdr _ buf0 hline hhdr hcheck, rfl, rfl, rfl, rfl⟩
    · by_cases hne : rs = []
      · obtain ⟨d, hd⟩ := dump2raw_total c (capture line hdr (encodeRecords rs)) buf0
        refine ⟨d, d, hd, ?_, rfl, rfl, rfl, rfl⟩
        rw [← hd, hne]
        rfl
      · refine ⟨_, _,
          dump2raw_records c line hdr buf0 rs hline hhdr hcheck
            (fun r hr => ⟨hfits r hr, hraw r hr⟩) (hben1 hne),
          dump2raw_records c line hdr buf0 _ hline hhdr hcheck
            (fun r hr => ⟨hfits r (hmem r hr), hraw r (hmem r hr)⟩) (hben2 hne), ?_⟩
        apply sameCalls_of_eq
        unfold rawRun
        rw [← rawRecord_filter]
  · intro zero buf st h
    unfold dump2netBody
    simp only [h, if_true]
  · intro buf s st h
    unfold dump2rawBody
    simp only [h, if_true]

/-- C11 witness: a capture of an RTCP record with 4 bytes, an RTP record, a
second RTCP record and a second RTP record is converted with the same calls
and status as the capture of the two RTP records alone. -/
theorem C11_zero_payload_skipped_witness :
    (∃ d e, dump2net (plainConv false) (capture [] sessionHeader (encodeRecords
          [rtcpRecord 4, rtpRecord 1000 [1, 2, 3, 4], rtcpRecord 0, rtpRecord 3000 [5, 6]]))
          zeroBuffer = some d
      ∧ dump2net (plainConv false) (capture [] sessionHeader (encodeRecords
          [rtpRecord 1000 [1, 2, 3, 4], rtpRecord 3000 [5, 6]])) zeroBuffer = some e
      ∧ d.ret = e.ret ∧ d.out = e.out ∧ d.paces = e.paces ∧ d.last = e.last)
    ∧ (∃ d e, dump2raw (plainConv false) (capture [] sessionHeader (encodeRecords
          [rtcpRecord 4, rtpRecord 1000 [1, 2, 3, 4], rtcpRecord 0, rtpRecord 3000 [5, 6]]))
          zeroBuffer = some d
      ∧ dump2raw (plainConv false) (capture [] sessionHeader (encodeRecords
          [rtpRecord 1000 [1, 2, 3, 4], rtpRecord 3000 [5, 6]])) zeroBuffer = some e
      ∧ d.ret = e.ret ∧ d.out = e.out ∧ d.paces = e.paces ∧ d.last = e.last) :=
  have hall : ∀ r ∈ [rtcpRecord 4, rtpRecord 1000 [1, 2, 3, 4], rtcpRecord 0,
      rtpRecord 3000 [5, 6]], r.fits ∧ r.selfContained (plainConv false) :=
    fun r hr => by
      simp only [List.mem_cons, List.mem_singleton, List.not_mem_nil, or_false] at hr
      rcases hr with h | h | h | h
      · rw [h]; exact ⟨by decide, zero_selfContained _ _ rfl⟩
      · rw [h]; exact rtpRecord_ok false 1000 [1, 2, 3, 4] (by decide) (by decide)
      · rw [h]; exact ⟨by decide, zero_selfContained _ _ rfl⟩
      · rw [h]; exact rtpRecord_ok false 3000 [5, 6] (by decide) (by decide)
  have h := C11_zero_payload_skipped (plainConv false) [] sessionHeader zeroBuffer
    [rtcpRecord 4, rtpRecord 1000 [1, 2, 3, 4], rtcpRecord 0, rtpRecord 3000 [5, 6]]
    (by decide) sessionHeader_length
    (fun r hr => (hall r hr).1)
    (fun _ h => absurd (h (rtpRecord 1000 [1, 2, 3, 4]) (by simp)) (by decide))
  ⟨h.1 (fun r hr => (ok_net _ _ hall r hr).2), h.2.1 (fun r hr => (ok_raw _ _ hall r hr).2)⟩

/-- C12 (as stated, refuted): a capture holds a complete record with payload
length 0 that is 8193 bytes long and behind it a complete RTP record with a
12-byte header and the 4 payload bytes 1, 2, 3, 4. The bytes to be written
according to the claim are 1, 2, 3, 4, but `dump2raw` writes nothing and
returns -1, because `read_dump` refuses a record that is longer than the
packet buffer. -/
theorem C12_dump2raw_oversize_counterexample :
    dump2raw (plainConv false)
        (capture [] sessionHeader
          (encodeRecords [rtcpRecord 8185, rtpRecord 1000 [1, 2, 3, 4]])) zeroBuffer
      = some { ret := -1, out := [], paces := [], last := 0 }
    ∧ rawSpec (plainConv false) [rtcpRecord 8185, rtpRecord 1000 [1, 2, 3, 4]]
      = [1, 2, 3, 4] := by
  constructor
  · exact dump2raw_oversize (plainConv false) [] sessionHeader zeroBuffer (rtcpRecord 8185)
      (encodeRecords [rtpRecord 1000 [1, 2, 3, 4]]) (by decide) sessionHeader_length
      (by decide) rtcpRecord_oversize.1 rtcpRecord_oversize.2
  · decide

/-- C12 (amended): for every capture file with a dump line, a session header
that passes `check_dumphdr`, and complete records that fit the packet buffer
and that `dump2raw` handles by their own bytes (`Record.rawContained`: for a
payload length other than 0 the result of `parse_rtphdr` does not depend on
what follows the record and is -1 or a length `h` that is not negative and
not longer than the record), when the output takes all it is given and is not
the standard output, `dump2raw` returns and the bytes that the output has
received are the concatenation, in record order, over the records with a
payload length other than 0 whose RTP header parses with length `h`, of the
bytes of the record behind the packet header and the first `h` bytes of the
RTP packet. -/
theorem C12_dump2raw_output (c : Conv) (line hdr buf0 : List Nat) (rs : List Record)
    (hline : 10 ∉ line) (hhdr : hdr.length = DUMPHDRSIZE) (hcheck : headerCheck c hdr ≠ -1)
    (hsink : ∀ i k, c.sink i k = k) (hofd : c.ofd ≠ STDOUT_FILENO)
    (hall : ∀ r ∈ rs, r.fits ∧ r.rawContained c) :
    ∃ d, dump2raw c (capture line hdr (encodeRecords rs)) buf0 = some d
      ∧ d.received c = some (rawSpec c rs) := by
  obtain ⟨d, hd, hout⟩ := dump2raw_out c line hdr buf0 rs hline hhdr hcheck hall
  refine ⟨d, hd, ?_⟩
  have h := written_rawRecord c hsink rs hall (rawStart c)
  unfold Done.received
  rw [if_neg (fun h => hofd h.1), hout]
  unfold rawRun Pipe.done
  simp only []
  rw [h]
  rfl

/-- C12 witness: a capture of one record with payload length 0 and one RTP
record with a 12-byte header and the 4 payload bytes 1, 2, 3, 4 yields exactly
those 4 bytes. -/
theorem C12_dump2raw_output_witness :
    ∃ d, dump2raw (plainConv false) (capture [] sessionHeader
          (encodeRecords [rtcpRecord 0, rtpRecord 1000 [1, 2, 3, 4]])) zeroBuffer = some d
      ∧ d.received (plainConv false) = some [1, 2, 3, 4] :=
  C12_dump2raw_output (plainConv false) [] sessionHeader zeroBuffer
    [rtcpRecord 0, rtpRecord 1000 [1, 2, 3, 4]] (by decide) sessionHeader_length (by decide)
    (fun _ _ => rfl) (by decide)
    (ok_raw _ _ (fun r hr => by
      simp only [List.mem_cons, List.mem_singleton, List.not_mem_nil, or_false] at hr
      rcases hr with h | h
      · rw [h]; exact ⟨by decide, zero_selfContained _ _ rfl⟩
      · rw [h]; exact rtpRecord_ok false 1000 [1, 2, 3, 4] (by decide) (by decide)))

/-- The loop of `dump2net` does not depend on what `check_dumphdr` reports. -/
theorem dump2netLoop_check_free (c : Conv) (f : List Nat → List Nat → Int) (zero : Timeval) :
    ∀ (fuel : Nat) (fd buf : List Nat) (st : Pipe) (pr : List PacketLine),
      dump2netLoop { c with check_dumphdr := f } zero fuel fd buf st pr
        = dump2netLoop c zero fuel fd buf st pr := by
  intro fuel
  induction fuel with
  | zero => intro fd buf st pr; rfl
  | succ fuel ih =>
    intro fd buf st pr
    rw [dump2netLoop, dump2netLoop]
    simp only []
    rw [ih]
    rfl

/-- `dump2net` does the same and returns the same whatever `check_dumphdr`
reports: there the mismatch is advisory. -/
theorem dump2net_check_free (c : Conv) (f : List Nat → List Nat → Int) (ifd buf0 : List Nat) :
    dump2net { c with check_dumphdr := f } ifd buf0 = dump2net c ifd buf0 := by
  unfold dump2net
  simp only [dump2netLoop_check_free]

/-- C13 (code defect): a capture with one RTP record (12-byte header, payload
1, 2, 3, 4) whose session header does not match the dump line, so that
`check_dumphdr` reports -1. `dump2raw` returns -1 and writes nothing, while
with a matching header it writes the 4 payload bytes and returns 0; `dump2net`
sends the packet and returns 0 in both cases. -/
theorem C13_dump2raw_mismatch_fatal :
    dump2raw (mismatchConv false)
        (capture [] sessionHeader (encodeRecords [rtpRecord 1000 [1, 2, 3, 4]])) zeroBuffer
      = some { ret := -1, out := [], paces := [], last := 0 }
    ∧ dump2raw (plainConv false)
        (capture [] sessionHeader (encodeRecords [rtpRecord 1000 [1, 2, 3, 4]])) zeroBuffer
      = some { ret := 0, out := [{ data := [1, 2, 3, 4], count := 4, ret := 4 }],
               paces := [], last := 0,
               printed := [PacketLine.rtp 0 16 16, PacketLine.rtp 0 16 16] }
    ∧ dump2net (mismatchConv false)
        (capture [] sessionHeader (encodeRecords [rtpRecord 1000 [1, 2, 3, 4]])) zeroBuffer
      = some { ret := 0,
               out := [{ data := rtpHeader 1000 ++ [1, 2, 3, 4], count := 16, ret := 16 }],
               paces := [{ ret := 0, nap := none, warns := [] }], last := 1000,
               printed := [PacketLine.rtp 0 16 16, PacketLine.rtp 0 16 16] }
    ∧ dump2net (plainConv false)
        (capture [] sessionHeader (encodeRecords [rtpRecord 1000 [1, 2, 3, 4]])) zeroBuffer
      = some { ret := 0,
               out := [{ data := rtpHeader 1000 ++ [1, 2, 3, 4], count := 16, ret := 16 }],
               paces := [{ ret := 0, nap := none, warns := [] }], last := 1000,
               printed := [PacketLine.rtp 0 16 16, PacketLine.rtp 0 16 16] } := by
  have hall : ∀ r ∈ [rtpRecord 1000 [1, 2, 3, 4]],
      r.fits ∧ r.selfContained (plainConv false) := fun r hr => by
    rw [List.mem_singleton] at hr
    rw [hr]
    exact rtpRecord_ok false 1000 [1, 2, 3, 4] (by decide) (by decide)
  have hnet : dump2net (plainConv false)
        (capture [] sessionHeader (encodeRecords [rtpRecord 1000 [1, 2, 3, 4]])) zeroBuffer
      = some { ret := 0,
               out := [{ data := rtpHeader 1000 ++ [1, 2, 3, 4], count := 16, ret := 16 }],
               paces := [{ ret := 0, nap := none, warns := [] }], last := 1000,
               printed := [PacketLine.rtp 0 16 16, PacketLine.rtp 0 16 16] } := by
    rw [dump2net_records (plainConv false) [] sessionHeader zeroBuffer
      [rtpRecord 1000 [1, 2, 3, 4]] (by decide) sessionHeader_length (fun h => absurd rfl h)
      (ok_net _ _ hall) (fun h => by cases h)]
    decide
  refine ⟨?_, ?_, ?_, hnet⟩
  · exact dump2raw_mismatch (mismatchConv false) [] sessionHeader _ zeroBuffer (by decide)
      sessionHeader_length rfl
  · rw [dump2raw_records (plainConv false) [] sessionHeader zeroBuffer
      [rtpRecord 1000 [1, 2, 3, 4]] (by decide) sessionHeader_length (by decide)
      (ok_raw _ _ hall) (fun h => by cases h)]
    decide
  · exact (dump2net_check_free (plainConv false) (fun _ _ => -1) _ zeroBuffer).trans hnet

/-- At the end of the stream the loop of `dump2net` ends with -1 when the
record length that the buffer holds makes `read_dump` report a full buffer. -/
theorem dump2netLoop_eof_stale (c : Conv) (zero : Timeval) (fuel : Nat) (buf : List Nat)
    (st : Pipe) (pr : List PacketLine)
    (h : BUFLEN < (ld16 c.le buf 0 + SIZE - DPKTHDRSIZE) % SIZE) :
    dump2netLoop c zero (fuel + 1) [] buf st pr = some (-1, st, pr) := by
  rw [dump2netLoop]
  simp only [read_dump_eof c.le buf BUFLEN (by decide) (by decide), if_pos h,
    List.append_nil]
  rfl

/-- At the end of the stream the loop of `dump2raw` ends with -1 when the
record length that the buffer holds makes `read_dump` report a full buffer. -/
theorem dump2rawLoop_eof_stale (c : Conv) (fuel : Nat) (buf : List Nat)
    (st : Pipe) (pr : List PacketLine)
    (h : BUFLEN < (ld16 c.le buf 0 + SIZE - DPKTHDRSIZE) % SIZE) :
    dump2rawLoop c (fuel + 1) [] buf st pr = some (-1, st, pr) := by
  rw [dump2rawLoop]
  simp only [read_dump_eof c.le buf BUFLEN (by decide) (by decide), if_pos h,
    List.append_nil]
  rfl

theorem zeroBuffer_stale (c : Conv) :
    BUFLEN < (ld16 c.le zeroBuffer 0 + SIZE - DPKTHDRSIZE) % SIZE := by
  rw [zeroBuffer_benign]
  decide

/-- C14 (code defect): a capture file that holds the dump line and the session
header and no packet record, read with a packet buffer that holds zero bytes.
The source ends with a clean end of the stream and no unit failed, yet
`dump2net` and `dump2raw` return -1; `net2net` and `net2raw` return 0 from a
source that delivers nothing and ends cleanly. -/
theorem C14_empty_capture_reported_failed :
    dump2net (plainConv false) (capture [] sessionHeader []) zeroBuffer
      = some { ret := -1, out := [], paces := [], last := 0 }
    ∧ dump2raw (plainConv false) (capture [] sessionHeader []) zeroBuffer
      = some { ret := -1, out := [], paces := [], last := 0 }
    ∧ net2net (plainConv false) { datagrams := [], fails := false } zeroBuffer
      = { ret := 0, out := [], paces := [], last := 0 }
    ∧ net2raw (plainConv false) { datagrams := [], fails := false } zeroBuffer
      = { ret := 0, out := [], paces := [], last := 0 } := by
  refine ⟨?_, ?_, rfl, rfl⟩
  · rw [dump2net_capture (plainConv false) [] sessionHeader [] zeroBuffer (by decide)
      sessionHeader_length (fun h => absurd rfl h)]
    have h := dump2netLoop_eof_stale (plainConv false) ((plainConv false).gettimeofday 0).2 0
      zeroBuffer (netStart (plainConv false)) [] (zeroBuffer_stale (plainConv false))
    rw [List.length_nil, h]
    rfl
  · rw [dump2raw_capture (plainConv false) [] sessionHeader [] zeroBuffer (by decide)
      sessionHeader_length (by decide)]
    have h := dump2rawLoop_eof_stale (plainConv false) 0 zeroBuffer
      (rawStart (plainConv false)) [] (zeroBuffer_stale (plainConv false))
    rw [List.length_nil, h]
    rfl

/-- What `dump2net` does for a record that holds its RTP timestamp, in
media-clock mode, when the timestamp is earlier than the recorded one: the
pacing call fails with the report of the ordering violation, nothing is sent,
and `error` is set. -/
theorem netRecord_out_of_order (c : Conv) (zero : Timeval) (st : Pipe) (r : Record)
    (hmedia : c.dumptime = 0) (hplen : r.plen ≠ 0) (hlast : st.last ≠ 0)
    (hearly : r.ts < st.last) :
    netRecord c zero st r
      = { st with error := -1,
                  paces := st.paces ++
                    [{ ret := -1, nap := none,
                       warns := [SleepWarning.outOfOrder st.last r.ts] }] } := by
  have hd : ¬ c.dumptime ≠ 0 := fun h => h hmedia
  have hgt : st.last > r.ts := hearly
  unfold netRecord rtpsleep
  simp only [if_neg hplen, if_neg hd, if_neg hlast, if_pos hgt, if_true]

/-- C15 (as stated, refuted): a capture of two RTP records with the timestamps
3000 and 2000, replayed by `dump2net` in media-clock mode. The second packet
is reported as out of order and is not sent: one datagram goes out, and the
run returns -1. -/
theorem C15_out_of_order_counterexample :
    dump2net (plainConv false)
        (capture [] sessionHeader
          (encodeRecords [rtpRecord 3000 [1, 2, 3, 4], rtpRecord 2000 [5, 6, 7, 8]]))
        zeroBuffer
      = some { ret := -1,
               out := [{ data := rtpHeader 3000 ++ [1, 2, 3, 4], count := 16, ret := 16 }],
               paces := [{ ret := 0, nap := none, warns := [] },
                 { ret := -1, nap := none, warns := [SleepWarning.outOfOrder 3000 2000] }],
               last := 3000,
               printed := [PacketLine.rtp 0 16 16, PacketLine.rtp 0 16 16,
                 PacketLine.rtp 0 16 16] } := by
  rw [dump2net_records (plainConv false) [] sessionHeader zeroBuffer
    [rtpRecord 3000 [1, 2, 3, 4], rtpRecord 2000 [5, 6, 7, 8]] (by decide)
    sessionHeader_length (fun h => absurd rfl h)
    (ok_net _ _ fun r hr => by
      simp only [List.mem_cons, List.mem_singleton, List.not_mem_nil, or_false] at hr
      rcases hr with h | h
      · rw [h]; exact rtpRecord_ok false 3000 [1, 2, 3, 4] (by decide) (by decide)
      · rw [h]; exact rtpRecord_ok false 2000 [5, 6, 7, 8] (by decide) (by decide))
    (fun h => by cases h)]
  decide

/-- C15 (amended): in media-clock replay (`dumptime` not set), when the loop
of `dump2net` reads a record that fits the buffer, has a payload length other
than 0 and holds its RTP timestamp, and that timestamp is earlier than the
recorded one (which is not 0), the packet is reported as an ordering violation
and dropped: nothing is sent and no sleep is made for it, the recorded
timestamp stays, `error` becomes -1, and the loop goes on with the rest of the
stream (`read_dump` having printed the line of the record on the standard
output). -/
theorem C15_out_of_order_dropped (c : Conv) (zero : Timeval) (r : Record) (rest : List Nat)
    (fuel : Nat) (buf : List Nat) (st : Pipe) (pr : List PacketLine)
    (hmedia : c.dumptime = 0) (hf : r.fits) (hplen : r.plen ≠ 0)
    (h8 : 8 ≤ r.payload.length) (hlast : st.last ≠ 0) (hearly : r.ts < st.last) :
    ∃ buf1, dump2netLoop c zero (fuel + 1) (r.encode ++ rest) buf st pr
        = dump2netLoop c zero fuel rest buf1
            { st with error := -1,
                      paces := st.paces ++
                        [{ ret := -1, nap := none,
                           warns := [SleepWarning.outOfOrder st.last r.ts] }] }
            (pr ++ [r.line])
      ∧ ld16 c.le buf1 0 = r.dlen := by
  obtain ⟨buf1, hstep, h0, -, -⟩ :=
    dump2netLoop_step_seen c zero r rest fuel buf st pr hf (fun _ => h8)
  refine ⟨buf1, ?_, h0⟩
  rw [hstep]
  have hts : (r.seen (buf.drop 8)).ts = r.ts := seen_ts r _ h8
  have hrec := netRecord_out_of_order c zero st (r.seen (buf.drop 8)) hmedia hplen hlast
    (by rw [hts]; exact hearly)
  rw [hts] at hrec
  show dump2netLoop c zero fuel rest buf1 (netRecord c zero st (r.seen (buf.drop 8))) _ = _
  rw [hrec]

/-- C15 witness: with the timestamp 3000 recorded, the record of an RTP packet
with the timestamp 2000 is dropped and the loop goes on to the end of the
stream. -/
theorem C15_out_of_order_dropped_witness :
    ∃ buf1, dump2netLoop (plainConv false) ⟨0, 0⟩ (1 + 1)
          ((rtpRecord 2000 [5, 6, 7, 8]).encode ++ []) zeroBuffer
          { last := 3000, clock := 0, error := 0, out := [], paces := [] } []
        = dump2netLoop (plainConv false) ⟨0, 0⟩ 1 [] buf1
            { last := 3000, clock := 0, error := -1, out := [],
              paces := [{ ret := -1, nap := none,
                          warns := [SleepWarning.outOfOrder 3000 2000] }] }
            [PacketLine.rtp 0 16 16]
      ∧ ld16 false buf1 0 = 24 :=
  C15_out_of_order_dropped (plainConv false) ⟨0, 0⟩ (rtpRecord 2000 [5, 6, 7, 8]) [] 1
    zeroBuffer { last := 3000, clock := 0, error := 0, out := [], paces := [] } []
    rfl (by decide) (by decide) (by decide) (by decide) (by decide)

/-- What `dump2net` does for a record depends on its header fields, its RTP
timestamp, the result of `parse_rtphdr` and the bytes that are sent. -/
theorem netRecord_congr (c : Conv) (zero : Timeval) (st : Pipe) (r1 r2 : Record)
    (hp : r1.plen = r2.plen) (hm : r1.msec = r2.msec) (hts : r1.ts = r2.ts)
    (hparse : c.parse_rtphdr r1.payload = c.parse_rtphdr r2.payload)
    (htake : r1.payload.take (((r2.plen : Nat) : Int) % (SIZE : Int)).toNat
      = r2.payload.take (((r2.plen : Nat) : Int) % (SIZE : Int)).toNat) :
    netRecord c zero st r1 = netRecord c zero st r2 := by
  unfold netRecord
  simp only [hp, hm, hts, hparse, emit_congr c _ r1.payload r2.payload r2.plen htake]

/-- C16 (code defect): a capture of a complete RTP record with the 4 payload
bytes 1, 2, 3, 4 and behind it a truncated record: its header declares an RTP
packet of 16 bytes, of which the 12 bytes of the RTP header are in the file.
For the truncated record `dump2net` sends 16 bytes, more than the 12 that the
record holds: the RTP header and behind it the bytes 1, 2, 3, 4 that the
record before it left in the buffer. The run returns 0. -/
theorem C16_dump2net_sends_stale_bytes :
    dump2net (plainConv false)
        (capture [] sessionHeader
          (encodeRecords [rtpRecord 1000 [1, 2, 3, 4], truncatedRecord 2000])) zeroBuffer
      = some { ret := 0,
               out := [{ data := rtpHeader 1000 ++ [1, 2, 3, 4], count := 16, ret := 16 },
                 { data := rtpHeader 2000 ++ [1, 2, 3, 4], count := 16, ret := 16 }],
               paces := [{ ret := 0, nap := none, warns := [] },
                 { ret := 0, nap := some { tv_sec := 0, tv_nsec := 1000000 }, warns := [] }],
               last := 2000,
               printed := [PacketLine.rtp 0 16 16, PacketLine.rtp 0 16 12,
                 PacketLine.rtp 0 16 12] }
    ∧ (truncatedRecord 2000).dlen - DPKTHDRSIZE = 12 := by
  refine ⟨?_, by decide⟩
  rw [dump2net_capture (plainConv false) [] sessionHeader _ zeroBuffer (by decide)
    sessionHeader_length (fun h => absurd rfl h),
    dump2netLoop_seen (plainConv false) _ [rtpRecord 1000 [1, 2, 3, 4], truncatedRecord 2000]
      (fun r hr => by
        simp only [List.mem_cons, List.mem_singleton, List.not_mem_nil, or_false] at hr
        rcases hr with h | h
        · rw [h]; exact ⟨by decide, fun _ => by decide⟩
        · rw [h]; exact ⟨by decide, fun _ => by decide⟩)
      _ zeroBuffer _ _ (Nat.lt_succ_self _) (fun h => by cases h)]
  generalize List.drop 8 zeroBuffer = area
  have h12 : parse_rtphdr (rtpHeader 1000 ++ [1, 2, 3, 4]) ≠ -1 := by decide
  have h13 : parse_rtphdr (rtpHeader 2000) ≠ -1 := by decide
  have e1 : ∀ st, netRecord (plainConv false) ((plainConv false).gettimeofday 0).2 st
      ((rtpRecord 1000 [1, 2, 3, 4]).seen area)
      = netRecord (plainConv false) ((plainConv false).gettimeofday 0).2 st
          (rtpRecord 1000 [1, 2, 3, 4]) := fun st =>
    netRecord_congr _ _ st _ _ rfl rfl rfl
      (parse_rtphdr_stable (rtpHeader 1000 ++ [1, 2, 3, 4]) _ h12) rfl
  have e2 : ∀ st, netRecord (plainConv false) ((plainConv false).gettimeofday 0).2 st
      ((truncatedRecord 2000).seen ((rtpRecord 1000 [1, 2, 3, 4]).seen area).payload)
      = netRecord (plainConv false) ((plainConv false).gettimeofday 0).2 st
          (rtpRecord 2000 [1, 2, 3, 4]) := fun st =>
    netRecord_congr _ _ st _ _ rfl rfl rfl
      ((parse_rtphdr_stable (rtpHeader 2000) _ h13).trans
        (parse_rtphdr_stable (rtpHeader 2000) [1, 2, 3, 4] h13).symm) rfl
  simp only [List.foldl_cons, List.foldl_nil, netSeen, e1, e2]
  decide

theorem emit_error_sticky (c : Conv) (st : Pipe) (data : List Nat) (want : Int)
    (h : st.error = -1) : (emit c st data want).error = -1 := by
  unfold emit
  simp only []
  split_ifs
  · rfl
  · rfl
  · exact h

/-- Once a unit failed, the `error` of `dump2net` stays -1 whatever the later
records are. -/
theorem netRecord_error_sticky (c : Conv) (zero : Timeval) (rs : List Record) :
    ∀ st, st.error = -1 → (rs.foldl (netRecord c zero) st).error = -1 := by
  induction rs with
  | nil => intro st h; exact h
  | cons r rs ih =>
    intro st h
    rw [List.foldl_cons]
    apply ih
    unfold netRecord
    simp only []
    split_ifs
    · exact h
    · rfl
    · rfl
    · exact emit_error_sticky c _ _ _ h
    · rfl
    · rfl
    · exact emit_error_sticky c _ _ _ h

/-- Once a unit failed, the `error` of `dump2raw` stays -1 whatever the later
records are. -/
theorem rawRecord_error_sticky (c : Conv) (rs : List Record) :
    ∀ st, st.error = -1 → (rs.foldl (rawRecord c) st).error = -1 := by
  induction rs with
  | nil => intro st h; exact h
  | cons r rs ih =>
    intro st h
    rw [List.foldl_cons]
    apply ih
    unfold rawRecord
    simp only []
    split_ifs
    · exact h
    · rfl
    · exact emit_error_sticky c _ _ _ h

/-- A packet of another version than 2 does not parse, whatever follows it. -/
theorem parse_rtphdr_bad_version (pkt stale : List Nat) (hne : 0 < pkt.length)
    (hv : pkt.getD 0 0 / 64 ≠ 2) : parse_rtphdr (pkt ++ stale) = -1 := by
  unfold parse_rtphdr
  simp only []
  rw [getD_append_left _ _ _ hne, if_pos hv]

/-- A unit whose RTP header does not parse does not end a run: of a capture of
an RTP record of version 0 and a record of version 2 behind it, `dump2raw`
writes the payload of the second and returns -1, and `dump2net` sends the
second and returns -1. -/
theorem soft_error_continues :
    dump2raw (plainConv false)
        (capture [] sessionHeader
          (encodeRecords [badVersionRecord, rtpRecord 2000 [1, 2, 3, 4]])) zeroBuffer
      = some { ret := -1, out := [{ data := [1, 2, 3, 4], count := 4, ret := 4 }],
               paces := [], last := 0,
               printed := [PacketLine.rtp 0 12 12, PacketLine.rtp 0 16 16,
                 PacketLine.rtp 0 16 16] }
    ∧ dump2net (plainConv false)
        (capture [] sessionHeader
          (encodeRecords [badVersionRecord, rtpRecord 2000 [1, 2, 3, 4]])) zeroBuffer
      = some { ret := -1,
               out := [{ data := rtpHeader 2000 ++ [1, 2, 3, 4], count := 16, ret := 16 }],
               paces := [{ ret := 0, nap := none, warns := [] },
                 { ret := 0, nap := some { tv_sec := 0, tv_nsec := 1000000 }, warns := [] }],
               last := 2000,
               printed := [PacketLine.rtp 0 12 12, PacketLine.rtp 0 16 16,
                 PacketLine.rtp 0 16 16] } := by
  have hall : ∀ r ∈ [badVersionRecord, rtpRecord 2000 [1, 2, 3, 4]],
      r.fits ∧ r.selfContained (plainConv false) := by
    intro r hr
    simp only [List.mem_cons, List.mem_singleton, List.not_mem_nil, or_false] at hr
    rcases hr with h | h
    · rw [h]
      refine ⟨by decide, fun _ => ⟨by decide, by decide, fun stale => ?_, by decide, by decide⟩⟩
      exact (parse_rtphdr_bad_version _ stale (by decide) (by decide)).trans (by decide)
    · rw [h]
      exact rtpRecord_ok false 2000 [1, 2, 3, 4] (by decide) (by decide)
  constructor
  · rw [dump2raw_records (plainConv false) [] sessionHeader zeroBuffer _ (by decide)
      sessionHeader_length (by decide) (ok_raw _ _ hall) (fun h => by cases h)]
    decide
  · rw [dump2net_records (plainConv false) [] sessionHeader zeroBuffer _ (by decide)
      sessionHeader_length (fun h => absurd rfl h) (ok_net _ _ hall) (fun h => by cases h)]
    decide

/-! ## Theorems: dispatch, `tvdiff`, format frame, end of stream -/

/-- C17: a run whose input format is raw audio is rejected with the status -1
whatever the output format, no converter being called; for a capture-file
input and for a network input the table holds a converter for each of the
network, raw-audio and text output formats, which `main` calls; and there is
no converter from capture file to capture file. -/
theorem C17_converter_dispatch :
    (∀ ofmt, mainDispatch format_t.FORMAT_RAW ofmt = Dispatch.rejected (-1))
    ∧ (∀ ofmt, converterAt format_t.FORMAT_RAW ofmt = none)
    ∧ mainDispatch format_t.FORMAT_DUMP format_t.FORMAT_NET
        = Dispatch.invoke Converter.dump2net
    ∧ mainDispatch format_t.FORMAT_DUMP format_t.FORMAT_RAW
        = Dispatch.invoke Converter.dump2raw
    ∧ mainDispatch format_t.FORMAT_DUMP format_t.FORMAT_TXT
        = Dispatch.invoke Converter.dump2txt
    ∧ mainDispatch format_t.FORMAT_NET format_t.FORMAT_NET
        = Dispatch.invoke Converter.net2net
    ∧ mainDispatch format_t.FORMAT_NET format_t.FORMAT_RAW
        = Dispatch.invoke Converter.net2raw
    ∧ mainDispatch format_t.FORMAT_NET format_t.FORMAT_TXT
        = Dispatch.invoke Converter.net2txt
    ∧ converterAt format_t.FORMAT_DUMP format_t.FORMAT_DUMP = none
    ∧ mainDispatch format_t.FORMAT_DUMP format_t.FORMAT_DUMP = Dispatch.rejected (-1) := by
  refine ⟨?_, ?_, rfl, rfl, rfl, rfl, rfl, rfl, rfl, rfl⟩
  · intro ofmt
    cases ofmt <;> rfl
  · intro ofmt
    cases ofmt <;> rfl

/-- C18 (the code at the failing input): from 0 s to 4295 s the interval is
4295000000 microseconds, which does not fit the `uint32_t` that `tvdiff`
computes in and returns: it returns 32704. -/
theorem C18_tvdiff_wraps :
    tvdiff ⟨0, 0⟩ ⟨4295, 0⟩ = 32704
    ∧ (⟨4295, 0⟩ : Timeval).micros - (⟨0, 0⟩ : Timeval).micros = 4295000000 := by
  decide

/-- C20 (the code at the failing input): on a stream at its end, with a buffer
of `BUFLEN` zero bytes, `read_dump` returns -1, on either host byte order. -/
theorem C20_read_dump_eof_stale :
    (read_dump true [] (List.replicate BUFLEN 0) BUFLEN).ret = -1
    ∧ (read_dump false [] (List.replicate BUFLEN 0) BUFLEN).ret = -1 := by
  have h : ∀ le, ld16 le (List.replicate BUFLEN 0) 0 = 0 := by
    intro le
    cases le <;> rfl
  constructor <;>
  · rw [read_dump_eof _ _ _ (by decide) (by decide), h]
    rw [if_pos (by decide)]

theorem rtpopenBad_formats (g : Globals) (res : Bool) (fd : Int) (trace : List Event) :
    (rtpopenBad g res fd trace).ifmt = g.ifmt ∧ (rtpopenBad g res fd trace).ofmt = g.ofmt :=
  ⟨rfl, rfl⟩

/-- A state that `main` does not produce: with the output format set to raw
audio and the input format not set, opening the path `x.txt` for writing
succeeds and sets the input format to text. -/
theorem rtpopen_output_sets_input :
    (rtpopen ⟨fun _ _ => (0, none), 3, 0, 0, 0, 0, 1, fun _ _ => 4⟩
        ⟨0, [], format_t.FORMAT_NONE, format_t.FORMAT_RAW⟩ ['x', '.', 't', 'x', 't']
        (O_WRONLY ||| O_CREAT ||| O_TRUNC)).ifmt = format_t.FORMAT_TXT
    ∧ (rtpopen ⟨fun _ _ => (0, none), 3, 0, 0, 0, 0, 1, fun _ _ => 4⟩
        ⟨0, [], format_t.FORMAT_NONE, format_t.FORMAT_RAW⟩ ['x', '.', 't', 'x', 't']
        (O_WRONLY ||| O_CREAT ||| O_TRUNC)).ret = 4
    ∧ (O_WRONLY ||| O_CREAT ||| O_TRUNC) &&& O_CREAT ≠ 0 := by
  decide

/-- C21: for every buffer length `len` and every stream that holds a complete
packet header whose record length is smaller than `DPKTHDRSIZE`, `read_dump`
returns -1 and consumes no byte beyond the header: with a buffer of at least
`DPKTHDRSIZE` bytes the stream is left right behind the header, with a smaller
buffer nothing is read at all. -/
theorem C21_read_dump_short_dlen (le : Bool) (b0 b1 b2 b3 b4 b5 b6 b7 : Nat)
    (tail buf : List Nat) (len : Nat) (hsz : len < SIZE)
    (h0 : b0 < 256) (h1 : b1 < 256) (h2 : b2 < 256) (h3 : b3 < 256)
    (h4 : b4 < 256) (h5 : b5 < 256) (h6 : b6 < 256) (h7 : b7 < 256)
    (hd : be16 b0 b1 < DPKTHDRSIZE) :
    (read_dump le (b0 :: b1 :: b2 :: b3 :: b4 :: b5 :: b6 :: b7 :: tail) buf len).ret = -1
    ∧ (DPKTHDRSIZE ≤ len →
        (read_dump le (b0 :: b1 :: b2 :: b3 :: b4 :: b5 :: b6 :: b7 :: tail) buf len).fd
          = tail)
    ∧ (len < DPKTHDRSIZE →
        (read_dump le (b0 :: b1 :: b2 :: b3 :: b4 :: b5 :: b6 :: b7 :: tail) buf len).fd
          = b0 :: b1 :: b2 :: b3 :: b4 :: b5 :: b6 :: b7 :: tail) := by
  by_cases hlen : len < DPKTHDRSIZE
  · have hr : read_dpkthdr le (b0 :: b1 :: b2 :: b3 :: b4 :: b5 :: b6 :: b7 :: tail) buf len
        = { ret := -1, buf := buf,
            fd := b0 :: b1 :: b2 :: b3 :: b4 :: b5 :: b6 :: b7 :: tail,
            warns := [CodecWarning.bufferFull] } := by
      unfold read_dpkthdr
      rw [if_pos hlen]
    unfold read_dump
    simp only [hr, if_true]
    exact ⟨trivial, fun h => absurd hlen (Nat.not_lt.mpr h), fun _ => trivial⟩
  · have hge : DPKTHDRSIZE ≤ len := Nat.le_of_not_lt hlen
    obtain ⟨x0, x1, x2, x3, x4, x5, x6, x7, hr, e1, -, -⟩ :=
      read_dpkthdr_full le b0 b1 b2 b3 b4 b5 b6 b7 tail buf len hge h0 h1 h2 h3 h4 h5 h6 h7
    unfold DPKTHDRSIZE at hd hge
    unfold SIZE at hsz
    have hlen1 : (((len : Int) - 8) % (SIZE : Int)).toNat = len - 8 := by
      have h1 : ((len : Int) - 8) % ((SIZE : Nat) : Int) = (len : Int) - 8 :=
        Int.emod_eq_of_lt (by omega) (by unfold SIZE; omega)
      rw [h1]
      omega
    have hwant : (be16 b0 b1 + SIZE - DPKTHDRSIZE) % SIZE = be16 b0 b1 + SIZE - 8 :=
      Nat.mod_eq_of_lt (by unfold DPKTHDRSIZE SIZE; omega)
    have hfull : len - 8 < be16 b0 b1 + SIZE - 8 := by
      unfold SIZE
      omega
    unfold read_dump
    simp only [hr]
    simp only [ld16, List.getD_cons_zero, List.getD_cons_succ, e1, hlen1, hwant]
    simp [hfull]
    intro h
    exact absurd h hlen

/-- C21 witness: a header that declares a record of 4 bytes, followed by three
more bytes, read with a buffer of 16 bytes: `read_dump` returns -1 and the
three bytes are still to be read. -/
theorem C21_read_dump_short_dlen_witness :
    (read_dump true [0, 4, 0, 4, 0, 0, 0, 9, 1, 2, 3] (List.replicate 16 0) 16).ret = -1
    ∧ (read_dump true [0, 4, 0, 4, 0, 0, 0, 9, 1, 2, 3] (List.replicate 16 0) 16).fd
        = [1, 2, 3] :=
  have h := C21_read_dump_short_dlen true 0 4 0 4 0 0 0 9 [1, 2, 3] (List.replicate 16 0) 16
    (by decide) (by decide) (by decide) (by decide) (by decide) (by decide) (by decide)
    (by decide) (by decide) (by decide)
  ⟨h.1, h.2.1 (by decide)⟩

end Rtp
